import Mathlib

/-!
VaFogOfWar: the fog layer component.

A shallow embedding of `Source/VaFogOfWar/Private/VaFogLayerComponent.cpp`
(`UVaFogLayerComponent`) and theorems about it.

Modelling conventions.

* `int32` values are `Int`s kept in the range `[-2^31, 2^31)`; every `int32`
  arithmetic result is reduced with `wrap32` (two's complement).
* Raw `uint8*` buffers live in an explicit `Heap`: a pointer is the index of a
  block, `new` appends a block, `delete` marks it freed.  A `nullptr` member is
  `none`.
* `check(e)` is an active fatal assertion: a failing `check` ends the call
  with `Fatal.checkFailed`.
* Calls into the engine or into other classes (`Super::...`, the controller,
  the fog volume transform, the render thread) are outside this file; they are
  parameters or recorded events, as noted at each definition.
-/

namespace VaFog

/-! ## Machine integers -/

/-- Reduction of an integer to the `int32` range (two's complement). -/
def wrap32 (z : Int) : Int := (z + 2147483648) % 4294967296 - 2147483648

/-- The `int32` product `a * b`. -/
def mul32 (a b : Int) : Int := wrap32 (a * b)

/-- The `int32` sum `a + b`. -/
def add32 (a b : Int) : Int := wrap32 (a + b)

/-- The `int32` difference `a - b`. -/
def sub32 (a b : Int) : Int := wrap32 (a - b)

/-- The bit pattern of an `int32` read as an unsigned 32-bit number (the
conversion `int32 -> uint32`). -/
def toU32 (z : Int) : Nat := (z % 4294967296).toNat

/-- The value is representable as an `int32`. -/
def InInt32 (z : Int) : Prop := -2147483648 ≤ z ∧ z < 2147483648

instance (z : Int) : Decidable (InInt32 z) := by
  unfold InInt32; infer_instance

/-- The engine template `FMath::IsPowerOfTwo(Value)`, at `int32`:
`(Value & (Value - 1)) == 0`.  Bitwise and of two `int32`s is the bitwise and
of their bit patterns. -/
def IsPowerOfTwo (Value : Int) : Bool :=
  (toU32 Value &&& toU32 (sub32 Value 1)) == 0

/-! ## Heap -/

/-- Outcomes that end a call abnormally. -/
inductive Fatal where
  /-- A `check(...)` whose condition is false. -/
  | checkFailed
  /-- The operator `new T[n]` with a negative `n`. -/
  | badArrayLength
  /-- Dereference of `nullptr`, access outside a block, or use of a freed block. -/
  | invalidAccess
  deriving DecidableEq, Repr

/-- A heap address. -/
abbrev Ptr := Nat

/-- A registered agent (`UVaFogAgentComponent*`), identified by its address.
Agents are live objects; the null pointer is not an agent. -/
abbrev Agent := Nat

/-- The struct `FUpdateTextureRegion2D`, built as
`FUpdateTextureRegion2D(DestX, DestY, SrcX, SrcY, Width, Height)`. -/
structure FUpdateTextureRegion2D where
  DestX : Nat
  DestY : Nat
  SrcX : Int
  SrcY : Int
  Width : Nat
  Height : Nat
  deriving DecidableEq, Repr

/-- Which member of the component a `FUpdateTextureRegion2D*` points to. -/
inductive RegionRef where
  | SourceUpdateRegion
  | UpscaleUpdateRegion
  deriving DecidableEq, Repr

/-- The local struct `FTextureData` of `UpdateTextureFromBuffer`.  The resource
pointer `Texture2DResource` is identified by the handle of its texture. -/
structure FTextureData where
  Texture2DResource : Nat
  Region : RegionRef
  SrcPitch : Nat
  SrcData : Ptr
  deriving DecidableEq, Repr

/-- A heap block: a `uint8[]` array or a `FTextureData` object. -/
inductive Block where
  | bytes (data : List Nat)
  | textureData (d : FTextureData)
  deriving DecidableEq, Repr

/-- The heap: block `p` is `cells[p]`; `none` marks a freed block.  `uninit`
is the byte found in storage that `new` has handed out and nobody has written
yet. -/
structure Heap where
  cells : List (Option Block)
  uninit : Nat
  deriving DecidableEq, Repr

/-- The block at `p`, if `p` is a live block. -/
def Heap.block (h : Heap) (p : Ptr) : Option Block := h.cells[p]?.join

/-- The bytes of the live `uint8[]` block at `p`. -/
def Heap.bytes (h : Heap) (p : Ptr) : Option (List Nat) :=
  match h.block p with
  | some (Block.bytes d) => some d
  | _ => none

/-- Replace the block at `p`. -/
def Heap.store (h : Heap) (p : Ptr) (b : Option Block) : Heap :=
  { h with cells := h.cells.set p b }

/-- The operator `new uint8[n]`: a fresh block of `n` uninitialised bytes.
Memory is taken to be available: a non-negative `n` always yields a block. -/
def Heap.newBytes (h : Heap) (n : Int) : Except Fatal (Heap × Ptr) :=
  if n < 0 then Except.error Fatal.badArrayLength
  else Except.ok
    ({ h with cells := h.cells ++ [some (Block.bytes (List.replicate n.toNat h.uninit))] },
     h.cells.length)

/-- The operator `new FTextureData()` followed by the member assignments. -/
def Heap.newTextureData (h : Heap) (d : FTextureData) : Heap × Ptr :=
  ({ h with cells := h.cells ++ [some (Block.textureData d)] }, h.cells.length)

/-- The operators `delete[] p` and `delete p` on a live block. -/
def Heap.free (h : Heap) (p : Ptr) : Except Fatal Heap :=
  match h.block p with
  | some _ => Except.ok (h.store p none)
  | none => Except.error Fatal.invalidAccess

/-- The call `FMemory::Memzero(p, Count)`: zero the first `Count` bytes. -/
def Heap.Memzero (h : Heap) (p : Option Ptr) (Count : Int) : Except Fatal Heap :=
  match p with
  | none => Except.error Fatal.invalidAccess
  | some q =>
    match h.bytes q with
    | none => Except.error Fatal.invalidAccess
    | some d =>
      if 0 ≤ Count ∧ Count.toNat ≤ d.length then
        Except.ok (h.store q (some (Block.bytes
          (List.replicate Count.toNat 0 ++ d.drop Count.toNat))))
      else Except.error Fatal.invalidAccess

/-- The call `FMemory::Memcpy(Dest, Src, Count)` between two distinct blocks. -/
def Heap.Memcpy (h : Heap) (Dest : Ptr) (Src : Option Ptr) (Count : Int) :
    Except Fatal Heap :=
  match Src with
  | none => Except.error Fatal.invalidAccess
  | some q =>
    match h.bytes q, h.bytes Dest with
    | some s, some d =>
      if 0 ≤ Count ∧ Count.toNat ≤ s.length ∧ Count.toNat ≤ d.length then
        Except.ok (h.store Dest (some (Block.bytes
          (s.take Count.toNat ++ d.drop Count.toNat))))
      else Except.error Fatal.invalidAccess
    | _, _ => Except.error Fatal.invalidAccess

/-- The assignment `p[i] = v` for a `uint8* p` and an `int32` index `i`. -/
def Heap.writeByte (h : Heap) (p : Option Ptr) (i : Int) (v : Nat) :
    Except Fatal Heap :=
  match p with
  | none => Except.error Fatal.invalidAccess
  | some q =>
    match h.bytes q with
    | none => Except.error Fatal.invalidAccess
    | some d =>
      if 0 ≤ i ∧ i.toNat < d.length then
        Except.ok (h.store q (some (Block.bytes (d.set i.toNat v))))
      else Except.error Fatal.invalidAccess

/-! ## The component and its surroundings -/

/-- Values of `TextureCompressionSettings` that occur. -/
inductive TextureCompressionSettings where
  | TC_Default
  | TC_Grayscale
  deriving DecidableEq, Repr

/-- Values of `TextureFilter` that occur. -/
inductive TextureFilter where
  | TF_Default
  | TF_Nearest
  deriving DecidableEq, Repr

/-- Values of `TextureAddress` that occur. -/
inductive TextureAddress where
  | TA_Wrap
  | TA_Clamp
  deriving DecidableEq, Repr

/-- The members of a `UTexture2D` that the component touches.  `HasResource`
records that `UpdateResource()` has run. -/
structure UTexture2D where
  SizeX : Int
  SizeY : Int
  CompressionSettings : TextureCompressionSettings
  SRGB : Bool
  Filter : TextureFilter
  AddressX : TextureAddress
  AddressY : TextureAddress
  HasResource : Bool
  deriving DecidableEq, Repr

/-- The result of `UTexture2D::CreateTransient(SizeX, SizeY, PF_G8)`, with the
engine defaults for the other members. -/
def UTexture2D.CreateTransient (SizeX SizeY : Int) : UTexture2D :=
  { SizeX := SizeX, SizeY := SizeY,
    CompressionSettings := TextureCompressionSettings.TC_Default,
    SRGB := true, Filter := TextureFilter.TF_Default,
    AddressX := TextureAddress.TA_Wrap, AddressY := TextureAddress.TA_Wrap,
    HasResource := false }

/-- Calls received by the coordinating `UVaFogController`. -/
inductive ControllerEvent where
  | OnFogLayerAdded
  | OnFogLayerRemoved
  deriving DecidableEq, Repr

/-- One `RHIUpdateTexture2D(Texture, MipIndex, Region, SrcPitch, SrcData)` call,
with the bytes `SrcData` pointed to when the call was made. -/
structure RHIUpdate where
  Texture : Nat
  MipIndex : Int
  Region : FUpdateTextureRegion2D
  SrcPitch : Nat
  SrcData : List Nat
  deriving DecidableEq, Repr

/-- The data members of `UVaFogLayerComponent`.  Textures are engine objects;
a texture member holds the handle of its object in `World.Textures`. -/
structure UVaFogLayerComponent where
  SourceBuffer : Option Ptr
  UpscaleBuffer : Option Ptr
  SourceW : Int
  SourceH : Int
  SourceBufferLength : Int
  UpscaleW : Int
  UpscaleH : Int
  UpscaleBufferLength : Int
  bDebugAgents : Bool
  bDebugBuffers : Bool
  SourceUpdateRegion : FUpdateTextureRegion2D
  UpscaleUpdateRegion : FUpdateTextureRegion2D
  SourceTexture : Option Nat
  UpscaleTexture : Option Nat
  FogAgents : List Agent
  deriving DecidableEq, Repr

/-- Everything outside the component that its methods read or change. -/
structure World where
  heap : Heap
  /-- Engine texture objects, by handle. -/
  Textures : List UTexture2D
  /-- Calls made on the controller, oldest first. -/
  Controller : List ControllerEvent
  /-- Entries written by `UE_LOG(LogVaFog, Error, ...)`: the agent named. -/
  ErrorLog : List Agent
  /-- Agents for which `DrawDebugSphere` was called. -/
  DebugSpheres : List Agent
  /-- Render commands enqueued and not yet run: the captured `TextureData`. -/
  RenderQueue : List Ptr
  /-- Texture updates applied by render commands, oldest first. -/
  RHIUpdates : List RHIUpdate
  deriving DecidableEq, Repr

/-- The component together with its surroundings. -/
structure State where
  layer : UVaFogLayerComponent
  world : World
  deriving DecidableEq, Repr

/-- The member values set by the constructor
`UVaFogLayerComponent::UVaFogLayerComponent`; members it does not mention are
value-initialised. -/
def UVaFogLayerComponent.construct : UVaFogLayerComponent :=
  { SourceBuffer := none, UpscaleBuffer := none,
    SourceW := 0, SourceH := 0, SourceBufferLength := 0,
    UpscaleW := 0, UpscaleH := 0, UpscaleBufferLength := 0,
    bDebugAgents := false, bDebugBuffers := false,
    SourceUpdateRegion := ⟨0, 0, 0, 0, 0, 0⟩,
    UpscaleUpdateRegion := ⟨0, 0, 0, 0, 0, 0⟩,
    SourceTexture := none, UpscaleTexture := none,
    FogAgents := [] }

/-- A world with an empty heap and nothing recorded. -/
def World.empty (uninit : Nat) : World :=
  { heap := ⟨[], uninit⟩, Textures := [], Controller := [], ErrorLog := [],
    DebugSpheres := [], RenderQueue := [], RHIUpdates := [] }

/-- The start state: a freshly constructed component in an empty world. -/
def State.initial (uninit : Nat) : State :=
  { layer := UVaFogLayerComponent.construct, world := World.empty uninit }

/-- Replace the heap of a state. -/
def State.withHeap (s : State) (h : Heap) : State :=
  { s with world := { s.world with heap := h } }

/-- The bytes of the source buffer, when it is a live block. -/
def State.sourceBytes (s : State) : Option (List Nat) :=
  s.layer.SourceBuffer.bind s.world.heap.bytes

/-- The bytes of the upscale buffer, when it is a live block. -/
def State.upscaleBytes (s : State) : Option (List Nat) :=
  s.layer.UpscaleBuffer.bind s.world.heap.bytes

/-- The region a `FUpdateTextureRegion2D*` points to. -/
def State.region (s : State) : RegionRef → FUpdateTextureRegion2D
  | RegionRef.SourceUpdateRegion => s.layer.SourceUpdateRegion
  | RegionRef.UpscaleUpdateRegion => s.layer.UpscaleUpdateRegion

/-! ## The methods of `UVaFogLayerComponent` -/

/-- The conversion of an `int32` to `SIZE_T` (64 bits). -/
def toSizeT (z : Int) : Int := z % 18446744073709551616

/-- The expression `W * H * sizeof(uint8)` assigned to an `int32`: the `int32`
product is converted to `SIZE_T`, multiplied by 1, and converted back. -/
def bufferLength (W H : Int) : Int :=
  wrap32 (toSizeT (mul32 W H) * 1 % 18446744073709551616)

/-- The debug-texture block of `InitializeComponent` for one buffer:
`CreateTransient(W, H, PF_G8)`, the five member assignments and
`UpdateResource()`.  Returns the world with the new texture and its handle. -/
def createDebugTexture (w : World) (W H : Int) : World × Nat :=
  ({ w with Textures := w.Textures ++
      [{ UTexture2D.CreateTransient W H with
          CompressionSettings := TextureCompressionSettings.TC_Grayscale,
          SRGB := false,
          Filter := TextureFilter.TF_Nearest,
          AddressX := TextureAddress.TA_Clamp,
          AddressY := TextureAddress.TA_Clamp,
          HasResource := true }] },
   w.Textures.length)

/-- The `if (bDebugBuffers)` block of `InitializeComponent`. -/
def prepareDebugTextures (s : State) : State :=
  if s.layer.bDebugBuffers then
    let l := s.layer
    let l1 := { l with SourceUpdateRegion := ⟨0, 0, 0, 0, toU32 l.SourceW, toU32 l.SourceH⟩ }
    let (w1, t1) := createDebugTexture s.world l1.SourceW l1.SourceH
    let l2 := { l1 with SourceTexture := some t1 }
    let l3 := { l2 with UpscaleUpdateRegion := ⟨0, 0, 0, 0, toU32 l2.UpscaleW, toU32 l2.UpscaleH⟩ }
    let (w2, t2) := createDebugTexture w1 l3.UpscaleW l3.UpscaleH
    { layer := { l3 with UpscaleTexture := some t2 }, world := w2 }
  else s

/-- The method `UVaFogLayerComponent::InitializeComponent`.
`FogLayerResolution` is the value read from the module settings.  The call
`Super::InitializeComponent()` is engine code and is taken to return. -/
def InitializeComponent (FogLayerResolution : Int) (s : State) : Except Fatal State :=
  let CachedTextureResolution := FogLayerResolution
  if IsPowerOfTwo CachedTextureResolution = false then Except.error Fatal.checkFailed else
  let CachedUpscaleResolution := mul32 CachedTextureResolution 4
  if s.layer.SourceBuffer.isSome then Except.error Fatal.checkFailed else
  let l1 := { s.layer with SourceW := CachedTextureResolution, SourceH := CachedTextureResolution }
  match s.world.heap.newBytes (mul32 l1.SourceW l1.SourceH) with
  | Except.error e => Except.error e
  | Except.ok (h1, p1) =>
  let l2 := { l1 with SourceBuffer := some p1 }
  let l3 := { l2 with SourceBufferLength := bufferLength l2.SourceW l2.SourceH }
  match h1.Memzero l3.SourceBuffer l3.SourceBufferLength with
  | Except.error e => Except.error e
  | Except.ok h2 =>
  if l3.UpscaleBuffer.isSome then Except.error Fatal.checkFailed else
  let l4 := { l3 with UpscaleW := CachedUpscaleResolution, UpscaleH := CachedUpscaleResolution }
  match h2.newBytes (mul32 l4.UpscaleW l4.UpscaleH) with
  | Except.error e => Except.error e
  | Except.ok (h3, p2) =>
  let l5 := { l4 with UpscaleBuffer := some p2 }
  let l6 := { l5 with UpscaleBufferLength := bufferLength l5.UpscaleW l5.UpscaleH }
  match h3.Memzero l6.UpscaleBuffer l6.UpscaleBufferLength with
  | Except.error e => Except.error e
  | Except.ok h4 =>
  let s1 := prepareDebugTextures { layer := l6, world := { s.world with heap := h4 } }
  Except.ok { s1 with world := { s1.world with
    Controller := s1.world.Controller ++ [ControllerEvent.OnFogLayerAdded] } }

/-- The method `UVaFogLayerComponent::UninitializeComponent`, from line 96 on.
`ControllerFound` is the outcome of
`UVaFogController::Get(this, EGetWorldErrorMode::LogAndReturnNull)`.  Line 94,
the call `Super::UninitializeComponent()`, is engine code outside this
repository and is not part of this definition: the definition is what the
method does once that call has returned, as it does in the teardown of an
initialised component.  Whether that call returns when the component is not
initialised is not decided here. -/
def UninitializeComponent (ControllerFound : Bool) (s : State) : Except Fatal State :=
  let freeBuffer (h : Heap) (b : Option Ptr) : Except Fatal Heap :=
    match b with
    | some p => h.free p
    | none => Except.ok h
  match freeBuffer s.world.heap s.layer.SourceBuffer with
  | Except.error e => Except.error e
  | Except.ok h1 =>
  let l1 := { s.layer with SourceBuffer := none }
  match freeBuffer h1 l1.UpscaleBuffer with
  | Except.error e => Except.error e
  | Except.ok h2 =>
  let l2 := { l1 with UpscaleBuffer := none }
  let l3 := if l2.SourceTexture.isSome then { l2 with SourceTexture := none } else l2
  let l4 := if l3.UpscaleTexture.isSome then { l3 with SourceTexture := none } else l3
  let w := { s.world with heap := h2 }
  Except.ok { layer := l4,
              world := if ControllerFound then
                { w with Controller := w.Controller ++ [ControllerEvent.OnFogLayerRemoved] }
              else w }

/-- The body of the loop of `UVaFogLayerComponent::UpdateAgents`, run over the
agents still to visit.  `TransformWorldToLayer a` is the `FIntPoint` that
`FogVolume->TransformWorldToLayer(a->GetOwner()->GetActorLocation())` returns
in this step. -/
def UpdateAgents.loop (TransformWorldToLayer : Agent → Int × Int) :
    List Agent → State → Except Fatal State
  | [], s => Except.ok s
  | FogAgent :: rest, s =>
    let AgentLocation := TransformWorldToLayer FogAgent
    let s1 : State :=
      if s.layer.bDebugAgents then
        { s with world := { s.world with DebugSpheres := s.world.DebugSpheres ++ [FogAgent] } }
      else s
    if AgentLocation.1 ≥ 0 ∧ AgentLocation.1 < s1.layer.SourceW ∧
        AgentLocation.2 ≥ 0 ∧ AgentLocation.2 < s1.layer.SourceH then
      match s1.world.heap.writeByte s1.layer.SourceBuffer
          (add32 (mul32 AgentLocation.2 s1.layer.SourceW) AgentLocation.1) 255 with
      | Except.error e => Except.error e
      | Except.ok h => UpdateAgents.loop TransformWorldToLayer rest (s1.withHeap h)
    else Except.error Fatal.checkFailed

/-- The method `UVaFogLayerComponent::UpdateAgents`. -/
def UpdateAgents (TransformWorldToLayer : Agent → Int × Int) (s : State) :
    Except Fatal State :=
  UpdateAgents.loop TransformWorldToLayer s.layer.FogAgents s

/-- The call `TArray::AddUnique(Item)`: append unless an equal element exists. -/
def TArray.AddUnique (xs : List Agent) (Item : Agent) : List Agent :=
  if Item ∈ xs then xs else xs ++ [Item]

/-- The call `TArray::Remove(Item)`: drop every element equal to `Item`, keep
the order of the rest, and return the number of elements dropped. -/
def TArray.Remove (xs : List Agent) (Item : Agent) : List Agent × Int :=
  (xs.filter (fun x => x != Item), (xs.count Item : Int))

/-- The method `UVaFogLayerComponent::AddFogAgent`. -/
def AddFogAgent (FogAgent : Agent) (s : State) : State :=
  { s with layer := { s.layer with FogAgents := TArray.AddUnique s.layer.FogAgents FogAgent } }

/-- The method `UVaFogLayerComponent::RemoveFogAgent`. -/
def RemoveFogAgent (InFogAgent : Agent) (s : State) : State :=
  let r := TArray.Remove s.layer.FogAgents InFogAgent
  let NumRemoved := r.2
  let s1 := { s with layer := { s.layer with FogAgents := r.1 } }
  if NumRemoved = 0 then
    { s1 with world := { s1.world with ErrorLog := s1.world.ErrorLog ++ [InFogAgent] } }
  else s1

/-- The method `UVaFogLayerComponent::UpdateTextureFromBuffer`, up to and
including `ENQUEUE_RENDER_COMMAND`. -/
def UpdateTextureFromBuffer (DestinationTexture : Option Nat) (SrcBuffer : Option Ptr)
    (SrcBufferLength : Int) (UpdateTextureRegion : RegionRef) (s : State) :
    Except Fatal State :=
  match s.world.heap.newBytes SrcBufferLength with
  | Except.error e => Except.error e
  | Except.ok (h1, Buffer) =>
  match h1.Memcpy Buffer SrcBuffer SrcBufferLength with
  | Except.error e => Except.error e
  | Except.ok h2 =>
  match DestinationTexture with
  | none => Except.error Fatal.invalidAccess
  | some t =>
  let (h3, TextureData) := h2.newTextureData
    { Texture2DResource := t,
      SrcPitch := (s.region UpdateTextureRegion).Width,
      SrcData := Buffer,
      Region := UpdateTextureRegion }
  Except.ok { s with world := { s.world with
    heap := h3, RenderQueue := s.world.RenderQueue ++ [TextureData] } }

/-- The render command enqueued by `UpdateTextureFromBuffer`, run on the oldest
queue entry.  `CurrentFirstMip` is what
`TextureData->Texture2DResource->GetCurrentFirstMip()` returns at that time. -/
def runRenderCommand (CurrentFirstMip : Int) (s : State) : Except Fatal State :=
  match s.world.RenderQueue with
  | [] => Except.ok s
  | TextureData :: queue =>
    match s.world.heap.block TextureData with
    | some (Block.textureData d) =>
      match s.world.heap.bytes d.SrcData with
      | none => Except.error Fatal.invalidAccess
      | some data =>
        let updates :=
          if CurrentFirstMip ≤ 0 then
            s.world.RHIUpdates ++
              [{ Texture := d.Texture2DResource,
                 MipIndex := sub32 0 CurrentFirstMip,
                 Region := s.region d.Region,
                 SrcPitch := d.SrcPitch,
                 SrcData := data }]
          else s.world.RHIUpdates
        match s.world.heap.free d.SrcData with
        | Except.error e => Except.error e
        | Except.ok h1 =>
        match h1.free TextureData with
        | Except.error e => Except.error e
        | Except.ok h2 =>
          Except.ok { s with world := { s.world with
            heap := h2, RenderQueue := queue, RHIUpdates := updates } }
    | _ => Except.error Fatal.invalidAccess

/-- The method `UVaFogLayerComponent::TickComponent`.  The call
`Super::TickComponent(...)` is engine code and is taken to return. -/
def TickComponent (TransformWorldToLayer : Agent → Int × Int) (s : State) :
    Except Fatal State :=
  match UpdateAgents TransformWorldToLayer s with
  | Except.error e => Except.error e
  | Except.ok s1 =>
    if s1.layer.bDebugBuffers then
      match UpdateTextureFromBuffer s1.layer.SourceTexture s1.layer.SourceBuffer
          s1.layer.SourceBufferLength RegionRef.SourceUpdateRegion s1 with
      | Except.error e => Except.error e
      | Except.ok s2 =>
        UpdateTextureFromBuffer s2.layer.UpscaleTexture s2.layer.UpscaleBuffer
          s2.layer.UpscaleBufferLength RegionRef.UpscaleUpdateRegion s2
    else Except.ok s1

/-! ## Call sequences -/

/-- A call made on the component or its surroundings from outside: the public
methods, `UpdateAgents` on its own, one run of the render thread on the oldest
queued command, and an edit of the two debug properties. -/
inductive Call where
  | InitializeComponent (FogLayerResolution : Int)
  | UninitializeComponent (ControllerFound : Bool)
  | TickComponent (TransformWorldToLayer : Agent → Int × Int)
  | UpdateAgents (TransformWorldToLayer : Agent → Int × Int)
  | AddFogAgent (FogAgent : Agent)
  | RemoveFogAgent (InFogAgent : Agent)
  | renderCommand (CurrentFirstMip : Int)
  | setDebug (bDebugAgents bDebugBuffers : Bool)

/-- The effect of one call. -/
def Call.apply : Call → State → Except Fatal State
  | Call.InitializeComponent R, s => VaFog.InitializeComponent R s
  | Call.UninitializeComponent c, s => VaFog.UninitializeComponent c s
  | Call.TickComponent T, s => VaFog.TickComponent T s
  | Call.UpdateAgents T, s => VaFog.UpdateAgents T s
  | Call.AddFogAgent a, s => Except.ok (VaFog.AddFogAgent a s)
  | Call.RemoveFogAgent a, s => Except.ok (VaFog.RemoveFogAgent a s)
  | Call.renderCommand m, s => runRenderCommand m s
  | Call.setDebug a b, s =>
    Except.ok { s with layer := { s.layer with bDebugAgents := a, bDebugBuffers := b } }

/-- The effect of a sequence of calls, first to last; a fatal outcome ends it. -/
def run : List Call → State → Except Fatal State
  | [], s => Except.ok s
  | c :: cs, s =>
    match c.apply s with
    | Except.error e => Except.error e
    | Except.ok s1 => run cs s1

/-- The registry a call leaves, given the registry it finds. -/
def Call.registry : Call → List Agent → List Agent
  | Call.AddFogAgent a, xs => TArray.AddUnique xs a
  | Call.RemoveFogAgent a, xs => (TArray.Remove xs a).1
  | _, xs => xs

/-- The registry with insertion times, as the specification describes it:
call number `t` appends `(a, t)` when it is `AddFogAgent a` and `a` is absent,
drops the entries of `a` when it is `RemoveFogAgent a`, and no other call
touches it. -/
def insertionLog : Nat → List Call → List (Agent × Nat) → List (Agent × Nat)
  | _, [], log => log
  | t, Call.AddFogAgent a :: cs, log =>
    insertionLog (t + 1) cs (if a ∈ log.map Prod.fst then log else log ++ [(a, t)])
  | t, Call.RemoveFogAgent a :: cs, log =>
    insertionLog (t + 1) cs (log.filter (fun x => x.1 != a))
  | t, _ :: cs, log => insertionLog (t + 1) cs log

/-! ## Specification-side definitions -/

/-- The grid coordinate `xy` lies in `[0, W) x [0, H)`. -/
def InBounds (W H : Int) (xy : Int × Int) : Prop :=
  0 ≤ xy.1 ∧ xy.1 < W ∧ 0 ≤ xy.2 ∧ xy.2 < H

instance (W H : Int) (xy : Int × Int) : Decidable (InBounds W H xy) := by
  unfold InBounds; infer_instance

/-- The source buffer of `s` is a live block `buf` of `SourceW * SourceH`
bytes, a length that fits the `int32` argument of `new uint8[...]`. -/
def SourceAllocated (s : State) (buf : List Nat) : Prop :=
  s.sourceBytes = some buf ∧
  (buf.length : Int) = s.layer.SourceW * s.layer.SourceH ∧
  s.layer.SourceW * s.layer.SourceH < 2147483648

/-- The buffer after the cell of `xy` is set to `0xFF`. -/
def stamp (W : Int) (buf : List Nat) (xy : Int × Int) : List Nat :=
  buf.set (xy.2 * W + xy.1).toNat 255

/-- The buffer after the cells of `cells` are set to `0xFF`, first to last. -/
def stampAll (W : Int) (buf : List Nat) (cells : List (Int × Int)) : List Nat :=
  cells.foldl (stamp W) buf

/-- Sixteen zero bytes. -/
def zeros16 : List Nat := List.replicate 16 0

/-- A layer with a zeroed 4x4 source buffer and the single agent `7`. -/
def example4 : State :=
  { layer := { UVaFogLayerComponent.construct with
      SourceBuffer := some 0, SourceW := 4, SourceH := 4, SourceBufferLength := 16,
      FogAgents := [7] },
    world := { World.empty 205 with heap := ⟨[some (Block.bytes zeros16)], 205⟩ } }

/-- The `int32` values that pass `check(FMath::IsPowerOfTwo(...))`: zero, the
least `int32`, and the powers of two up to `2^30`. -/
def acceptedResolutions : List Int :=
  [0, -2147483648] ++ (List.range 31).map (fun k => (2 : Int) ^ k)

/-- The state after the two buffer blocks of `InitializeComponent R`, when
both complete: two zeroed blocks appended to the heap and the members set from
`R`. -/
def buffersCreated (R : Int) (s : State) : State :=
  { layer := { s.layer with
      SourceW := R, SourceH := R,
      SourceBuffer := some s.world.heap.cells.length,
      SourceBufferLength := mul32 R R,
      UpscaleW := mul32 R 4, UpscaleH := mul32 R 4,
      UpscaleBuffer := some (s.world.heap.cells.length + 1),
      UpscaleBufferLength := mul32 (mul32 R 4) (mul32 R 4) },
    world := { s.world with heap :=
      ⟨s.world.heap.cells ++ [some (Block.bytes (List.replicate (mul32 R R).toNat 0))] ++
        [some (Block.bytes (List.replicate (mul32 (mul32 R 4) (mul32 R 4)).toNat 0))],
        s.world.heap.uninit⟩ } }

/-- The state `InitializeComponent R` produces from `s` when it completes:
the buffers created, the debug textures prepared and the controller notified. -/
def initialized (R : Int) (s : State) : State :=
  { layer := (prepareDebugTextures (buffersCreated R s)).layer,
    world := { (prepareDebugTextures (buffersCreated R s)).world with
      Controller := (prepareDebugTextures (buffersCreated R s)).world.Controller ++
        [ControllerEvent.OnFogLayerAdded] } }

/-- The state in which the loop of `UpdateAgents` continues after an in-bounds
agent `a`. -/
def afterAgent (T : Agent → Int × Int) (a : Agent) (s : State) (p : Ptr) (buf : List Nat) :
    State :=
  State.withHeap
    (if s.layer.bDebugAgents then
      { s with world := { s.world with DebugSpheres := s.world.DebugSpheres ++ [a] } }
    else s)
    (s.world.heap.store p (some (Block.bytes (stamp s.layer.SourceW buf (T a)))))

/-- The call is `InitializeComponent`. -/
def Call.isInitialize : Call → Bool
  | Call.InitializeComponent _ => true
  | _ => false

/-- The call is `UninitializeComponent`. -/
def Call.isUninitialize : Call → Bool
  | Call.UninitializeComponent _ => true
  | _ => false

/-- The call is a simulation step or a registry change: `TickComponent`,
`UpdateAgents`, `AddFogAgent` or `RemoveFogAgent`. -/
def Call.isStep : Call → Bool
  | Call.TickComponent _ => true
  | Call.UpdateAgents _ => true
  | Call.AddFogAgent _ => true
  | Call.RemoveFogAgent _ => true
  | _ => false

/-- The debug texture that `InitializeComponent` prepares for a `W x H` buffer. -/
def debugTexture (W H : Int) : UTexture2D :=
  { SizeX := W, SizeY := H,
    CompressionSettings := TextureCompressionSettings.TC_Grayscale,
    SRGB := false, Filter := TextureFilter.TF_Nearest,
    AddressX := TextureAddress.TA_Clamp, AddressY := TextureAddress.TA_Clamp,
    HasResource := true }

/-- The 4x4 layer with presentation enabled, as left by setting `bDebugBuffers`,
`InitializeComponent 4` and `AddFogAgent 7` on the constructed component: both
buffers zeroed, both debug textures created. -/
def exampleDebug4 : State :=
  { layer := { UVaFogLayerComponent.construct with
      SourceBuffer := some 0, UpscaleBuffer := some 1,
      SourceW := 4, SourceH := 4, SourceBufferLength := 16,
      UpscaleW := 16, UpscaleH := 16, UpscaleBufferLength := 256,
      bDebugBuffers := true,
      SourceUpdateRegion := ⟨0, 0, 0, 0, 4, 4⟩,
      UpscaleUpdateRegion := ⟨0, 0, 0, 0, 16, 16⟩,
      SourceTexture := some 0, UpscaleTexture := some 1,
      FogAgents := [7] },
    world := { World.empty 205 with
      heap := ⟨[some (Block.bytes zeros16), some (Block.bytes (List.replicate 256 0))], 205⟩,
      Textures := [debugTexture 4 4, debugTexture 16 16],
      Controller := [ControllerEvent.OnFogLayerAdded] } }

/-- The example layer with presentation enabled after one
`UpdateTextureFromBuffer` of the source buffer: the snapshot is block 2, the
`FTextureData` block 3 is queued. -/
def exampleSubmitted : State :=
  { exampleDebug4 with world := { exampleDebug4.world with
      heap := ⟨[some (Block.bytes zeros16), some (Block.bytes (List.replicate 256 0)),
        some (Block.bytes zeros16),
        some (Block.textureData
          { Texture2DResource := 0, Region := RegionRef.SourceUpdateRegion,
            SrcPitch := 4, SrcData := 2 })], 205⟩,
      RenderQueue := [3] } }

/-- Every byte of `buf1` is the byte of `buf` at the same index or `0xFF`, and
the two have the same length: nothing but `0xFF` has been written. -/
def SourceKept (buf buf1 : List Nat) : Prop :=
  buf1.length = buf.length ∧ ∀ i : Nat, buf1[i]? = buf[i]? ∨ buf1[i]? = some 255

/-- The example layer `example4` with the source block holding `bytes`. -/
def example4With (bytes : List Nat) : State :=
  { example4 with world := { example4.world with
      heap := ⟨[some (Block.bytes bytes)], 205⟩ } }

/-- The example layer `example4` with the registry replaced by `agents`. -/
def example4Agents (agents : List Agent) : State :=
  { example4 with layer := { example4.layer with FogAgents := agents } }

/-- The constructed component with `bDebugBuffers` set, before initialisation. -/
def exampleDebugStart : State :=
  { State.initial 205 with layer := { (State.initial 205).layer with
      bDebugAgents := false, bDebugBuffers := true } }

/-- The example layer with presentation enabled after `UninitializeComponent`
with a controller present, as the code leaves it: both blocks freed, both buffer
pointers and `SourceTexture` null, `UpscaleTexture` still set. -/
def exampleDebugTornDown : State :=
  { layer := { exampleDebug4.layer with
      SourceBuffer := none, UpscaleBuffer := none, SourceTexture := none },
    world := { exampleDebug4.world with
      heap := ⟨[none, none], 205⟩,
      Controller := [ControllerEvent.OnFogLayerAdded, ControllerEvent.OnFogLayerRemoved] } }

/-! ## Lemmas: machine integers -/

theorem wrap32_eq_self {z : Int} (h : InInt32 z) : wrap32 z = z := by
  unfold InInt32 at h
  unfold wrap32
  omega

theorem wrap32_range (z : Int) : InInt32 (wrap32 z) := by
  unfold InInt32 wrap32
  omega

theorem bufferLength_eq (W H : Int) : bufferLength W H = mul32 W H := by
  have h := wrap32_range (W * H)
  unfold InInt32 at h
  unfold bufferLength toSizeT mul32
  generalize wrap32 (W * H) = x at h
  unfold wrap32
  omega

theorem cell_index_bounds {W H x y : Int} (h : InBounds W H (x, y)) :
    0 ≤ y * W ∧ y * W ≤ y * W + x ∧ y * W + x < W * H := by
  obtain ⟨hx0, hxW, hy0, hyH⟩ := h
  simp only at hx0 hxW hy0 hyH
  have hW : 0 < W := by omega
  refine ⟨Int.mul_nonneg hy0 (by omega), by omega, ?_⟩
  nlinarith [Int.mul_nonneg hy0 (by omega : (0:Int) ≤ W)]

theorem cell_index32 {W H x y : Int} (h : InBounds W H (x, y))
    (hWH : W * H < 2147483648) :
    add32 (mul32 y W) x = y * W + x := by
  obtain ⟨h0, h1, h2⟩ := cell_index_bounds h
  have hx0 : 0 ≤ x := h.1
  unfold add32 mul32
  rw [wrap32_eq_self (z := y * W) ⟨by omega, by omega⟩]
  exact wrap32_eq_self ⟨by omega, by omega⟩

theorem and_pred_eq_zero (n : Nat) (hn : 0 < n) (h : n &&& (n - 1) = 0) : ∃ k, n = 2 ^ k := by
  induction n using Nat.strong_induction_on with
  | _ n ih =>
    have hdiv : n / 2 &&& (n - 1) / 2 = 0 := by
      rw [← Nat.and_div_two, h]
    rcases Nat.mod_two_eq_zero_or_one n with hev | hodd
    · have h2 : (n - 1) / 2 = n / 2 - 1 := by omega
      rw [h2] at hdiv
      obtain ⟨k, hk⟩ := ih (n / 2) (by omega) (by omega) hdiv
      exact ⟨k + 1, by rw [pow_succ]; omega⟩
    · have h2 : (n - 1) / 2 = n / 2 := by omega
      rw [h2, Nat.and_self] at hdiv
      exact ⟨0, by simp; omega⟩

theorem pow_and_pred (k : Nat) : 2 ^ k &&& (2 ^ k - 1) = 0 := by
  rw [Nat.and_pow_two_sub_one_eq_mod]
  exact Nat.mod_self _

theorem two_pow_lt_cases (k : Nat) (h : 2 ^ k < 4294967296) : k ≤ 31 := by
  by_contra hk
  have : 2 ^ 32 ≤ 2 ^ k := Nat.pow_le_pow_right (by decide) (by omega)
  omega

theorem IsPowerOfTwo_cases {R : Int} (h32 : InInt32 R) (h : IsPowerOfTwo R = true) :
    R = 0 ∨ R = -2147483648 ∨ ∃ k : Nat, k ≤ 30 ∧ R = 2 ^ k := by
  unfold InInt32 at h32
  unfold IsPowerOfTwo at h
  have h' : toU32 R &&& toU32 (sub32 R 1) = 0 := by simpa using h
  rcases lt_trichotomy R 0 with hneg | hzero | hpos
  · right; left
    by_contra hne
    have hu : toU32 R = (R + 4294967296).toNat := by unfold toU32; congr 1; omega
    have hu1 : toU32 (sub32 R 1) = (R + 4294967296).toNat - 1 := by
      unfold toU32 sub32 wrap32; omega
    rw [hu, hu1] at h'
    obtain ⟨k, hk⟩ := and_pred_eq_zero _ (by omega) h'
    have hk31 : k ≤ 31 := two_pow_lt_cases k (by omega)
    have hlt : (R + 4294967296).toNat > 2 ^ 31 := by omega
    rw [hk] at hlt
    have : 2 ^ k ≤ 2 ^ 31 := Nat.pow_le_pow_right (by decide) hk31
    omega
  · left; exact hzero
  · right; right
    have hu : toU32 R = R.toNat := by unfold toU32; congr 1; omega
    have hu1 : toU32 (sub32 R 1) = R.toNat - 1 := by
      unfold toU32 sub32 wrap32; omega
    rw [hu, hu1] at h'
    obtain ⟨k, hk⟩ := and_pred_eq_zero _ (by omega) h'
    have hR : R = ((2 ^ k : Nat) : Int) := by rw [← hk]; omega
    refine ⟨k, ?_, by rw [hR]; push_cast; rfl⟩
    by_contra hk30
    have : 2 ^ 31 ≤ 2 ^ k := Nat.pow_le_pow_right (by decide) (by omega)
    omega

theorem acceptedResolutions_isPowerOfTwo :
    ∀ R ∈ acceptedResolutions, IsPowerOfTwo R = true ∧ InInt32 R := by
  decide

theorem IsPowerOfTwo_iff_mem {R : Int} (h32 : InInt32 R) :
    IsPowerOfTwo R = true ↔ R ∈ acceptedResolutions := by
  constructor
  · intro h
    rcases IsPowerOfTwo_cases h32 h with rfl | rfl | ⟨k, hk, rfl⟩
    · decide
    · decide
    · unfold acceptedResolutions
      apply List.mem_append_right
      exact List.mem_map.mpr ⟨k, List.mem_range.mpr (by omega), rfl⟩
  · intro h
    exact (acceptedResolutions_isPowerOfTwo R h).1

/-! ## Lemmas: heap -/

theorem Heap.bytes_lt {h : Heap} {p : Ptr} {d : List Nat} (hb : h.bytes p = some d) :
    p < h.cells.length := by
  by_contra hlt
  have hnone : h.cells[p]? = none := List.getElem?_eq_none (Nat.le_of_not_lt hlt)
  simp [Heap.bytes, Heap.block, hnone] at hb

theorem Heap.bytes_eq_some {h : Heap} {p : Ptr} {d : List Nat} :
    h.bytes p = some d ↔ h.cells[p]? = some (some (Block.bytes d)) := by
  unfold Heap.bytes Heap.block
  cases hc : h.cells[p]? with
  | none => simp
  | some ob =>
    cases ob with
    | none => simp
    | some b => cases b <;> simp

theorem Heap.bytes_store_same {h : Heap} {p : Ptr} (hp : p < h.cells.length) (d : List Nat) :
    (h.store p (some (Block.bytes d))).bytes p = some d := by
  rw [Heap.bytes_eq_some]
  simp [Heap.store, hp]

theorem Heap.bytes_store_other {h : Heap} {p q : Ptr} (hne : p ≠ q) (b : Option Block) :
    (h.store p b).bytes q = h.bytes q := by
  simp [Heap.bytes, Heap.block, Heap.store, List.getElem?_set_ne hne]

theorem Heap.store_store (h : Heap) (p : Ptr) (a b : Option Block) :
    (h.store p a).store p b = h.store p b := by
  simp [Heap.store, List.set_set]

theorem Heap.store_self {h : Heap} {p : Ptr} {d : List Nat} (hb : h.bytes p = some d) :
    h.store p (some (Block.bytes d)) = h := by
  have hp := Heap.bytes_lt hb
  rw [Heap.bytes_eq_some] at hb
  cases h with
  | mk cells uninit =>
    simp only [Heap.store, Heap.mk.injEq, and_true]
    apply List.ext_getElem?
    intro n
    by_cases hn : p = n
    · subst hn
      simp only at hb hp
      rw [List.getElem?_set_self hp, hb]
    · rw [List.getElem?_set_ne hn]

theorem Heap.block_store_other {h : Heap} {p q : Ptr} (hne : p ≠ q) (b : Option Block) :
    (h.store p b).block q = h.block q := by
  simp [Heap.block, Heap.store, List.getElem?_set_ne hne]

theorem Heap.block_fresh (h : Heap) : h.block h.cells.length = none := by
  simp [Heap.block]

theorem Heap.writeByte_ok {h h1 : Heap} {p : Option Ptr} {i : Int} {v : Nat}
    (hw : h.writeByte p i v = Except.ok h1) :
    ∃ q d, p = some q ∧ h.bytes q = some d ∧
      h1 = h.store q (some (Block.bytes (d.set i.toNat v))) := by
  unfold Heap.writeByte at hw
  cases p with
  | none => cases hw
  | some q =>
    cases hb : h.bytes q with
    | none => simp [hb] at hw
    | some d =>
      simp only [hb] at hw
      split at hw
      · exact ⟨q, d, rfl, hb, (Except.ok.inj hw).symm⟩
      · cases hw

theorem Heap.block_append_old (cells : List (Option Block)) (u : Nat) (b : Option Block)
    {p : Ptr} (hp : p < cells.length) :
    (Heap.mk (cells ++ [b]) u).block p = (Heap.mk cells u).block p := by
  simp [Heap.block, List.getElem?_append_left hp]

theorem Heap.bytes_append_old (cells : List (Option Block)) (u : Nat) (b : Option Block)
    {p : Ptr} (hp : p < cells.length) :
    (Heap.mk (cells ++ [b]) u).bytes p = (Heap.mk cells u).bytes p := by
  simp [Heap.bytes, Heap.block_append_old cells u b hp]

theorem Heap.block_append_new (cells : List (Option Block)) (u : Nat) (b : Option Block) :
    (Heap.mk (cells ++ [b]) u).block cells.length = b := by
  simp [Heap.block]

/-- The two heap steps of `UpdateTextureFromBuffer` (`new uint8[Count]` and
`Memcpy`) on a live source block of at least `Count` bytes: a fresh block holding
the first `Count` bytes of the source is appended. -/
theorem Heap.snapshot_eq (h : Heap) (p : Ptr) (d : List Nat) (Count : Int)
    (hb : h.bytes p = some d) (h0 : 0 ≤ Count) (hle : Count ≤ d.length) :
    h.newBytes Count = Except.ok
      (⟨h.cells ++ [some (Block.bytes (List.replicate Count.toNat h.uninit))], h.uninit⟩,
        h.cells.length) ∧
    Heap.Memcpy
      ⟨h.cells ++ [some (Block.bytes (List.replicate Count.toNat h.uninit))], h.uninit⟩
      h.cells.length (some p) Count =
      Except.ok ⟨h.cells ++ [some (Block.bytes (d.take Count.toNat))], h.uninit⟩ := by
  have hplt := Heap.bytes_lt hb
  constructor
  · simp only [Heap.newBytes]
    rw [if_neg (by omega)]
  · have hsrc : (Heap.mk (h.cells ++ [some (Block.bytes
        (List.replicate Count.toNat h.uninit))]) h.uninit).bytes p = some d := by
      rw [Heap.bytes_append_old _ _ _ hplt]
      exact hb
    have hdst : (Heap.mk (h.cells ++ [some (Block.bytes
        (List.replicate Count.toNat h.uninit))]) h.uninit).bytes h.cells.length =
        some (List.replicate Count.toNat h.uninit) := by
      simp [Heap.bytes, Heap.block_append_new]
    simp only [Heap.Memcpy, hsrc, hdst]
    rw [if_pos ⟨h0, by omega, by simp⟩]
    simp [Heap.store]

/-- The heap steps of one buffer creation in `InitializeComponent`
(`new uint8[n]`, then `Memzero` over `n` bytes): a block of `n` zero bytes is
appended. -/
theorem Heap.alloc_zero (h : Heap) (n : Int) (hn : 0 ≤ n) :
    h.newBytes n = Except.ok
      (⟨h.cells ++ [some (Block.bytes (List.replicate n.toNat h.uninit))], h.uninit⟩,
        h.cells.length) ∧
    Heap.Memzero ⟨h.cells ++ [some (Block.bytes (List.replicate n.toNat h.uninit))], h.uninit⟩
      (some h.cells.length) n =
      Except.ok ⟨h.cells ++ [some (Block.bytes (List.replicate n.toNat 0))], h.uninit⟩ := by
  constructor
  · simp only [Heap.newBytes]
    rw [if_neg (by omega)]
  · have hdst : (Heap.mk (h.cells ++ [some (Block.bytes
        (List.replicate n.toNat h.uninit))]) h.uninit).bytes h.cells.length =
        some (List.replicate n.toNat h.uninit) := by
      simp [Heap.bytes, Heap.block_append_new]
    simp only [Heap.Memzero, hdst]
    rw [if_pos ⟨hn, by simp⟩]
    simp [Heap.store]

theorem Heap.newBytes_neg (h : Heap) (n : Int) (hn : n < 0) :
    h.newBytes n = Except.error Fatal.badArrayLength := by
  simp only [Heap.newBytes]
  rw [if_pos hn]

/-! ## Lemmas: stamping -/

theorem stampAll_length (W : Int) (cells : List (Int × Int)) (buf : List Nat) :
    (stampAll W buf cells).length = buf.length := by
  induction cells generalizing buf with
  | nil => rfl
  | cons c cs ih =>
    show (stampAll W (stamp W buf c) cs).length = buf.length
    rw [ih]
    simp [stamp]

theorem stampAll_getElem? (W : Int) (cells : List (Int × Int)) (buf : List Nat) (i : Nat)
    (hi : i < buf.length) :
    (stampAll W buf cells)[i]? =
      if ∃ c ∈ cells, (c.2 * W + c.1).toNat = i then some 255 else buf[i]? := by
  induction cells generalizing buf with
  | nil => simp [stampAll]
  | cons c cs ih =>
    show (stampAll W (stamp W buf c) cs)[i]? = _
    have hlen : (stamp W buf c).length = buf.length := by simp [stamp]
    rw [ih (stamp W buf c) (by omega)]
    by_cases hcs : ∃ c ∈ cs, (c.2 * W + c.1).toNat = i
    · have hall : ∃ d ∈ c :: cs, (d.2 * W + d.1).toNat = i := by
        obtain ⟨d, hd, hdi⟩ := hcs
        exact ⟨d, List.mem_cons_of_mem _ hd, hdi⟩
      rw [if_pos hcs, if_pos hall]
    · rw [if_neg hcs]
      by_cases hc : (c.2 * W + c.1).toNat = i
      · have hall : ∃ d ∈ c :: cs, (d.2 * W + d.1).toNat = i :=
          ⟨c, List.mem_cons_self _ _, hc⟩
        rw [if_pos hall]
        unfold stamp
        rw [hc, List.getElem?_set_self hi]
      · have hall : ¬ ∃ d ∈ c :: cs, (d.2 * W + d.1).toNat = i := by
          rintro ⟨d, hd, hdi⟩
          rcases List.mem_cons.mp hd with rfl | hd
          · exact hc hdi
          · exact hcs ⟨d, hd, hdi⟩
        rw [if_neg hall]
        unfold stamp
        rw [List.getElem?_set_ne hc]

/-- The exact result of the loop of `UpdateAgents` on a layer whose source
buffer is allocated, when every agent visited is in bounds. -/
theorem UpdateAgents.loop_eq (T : Agent → Int × Int) (agents : List Agent) (s : State)
    (p : Ptr) (buf : List Nat)
    (hp : s.layer.SourceBuffer = some p) (hb : s.world.heap.bytes p = some buf)
    (hlen : (buf.length : Int) = s.layer.SourceW * s.layer.SourceH)
    (hfit : s.layer.SourceW * s.layer.SourceH < 2147483648)
    (hin : ∀ a ∈ agents, InBounds s.layer.SourceW s.layer.SourceH (T a)) :
    UpdateAgents.loop T agents s = Except.ok
      { layer := s.layer,
        world := { s.world with
          heap := s.world.heap.store p
            (some (Block.bytes (stampAll s.layer.SourceW buf (agents.map T)))),
          DebugSpheres := s.world.DebugSpheres ++
            (if s.layer.bDebugAgents then agents else []) } } := by
  induction agents generalizing s buf with
  | nil =>
    simp only [UpdateAgents.loop, List.map_nil, stampAll, List.foldl_nil, ite_self,
      List.append_nil]
    rw [Heap.store_self hb]
  | cons a rest ih =>
    have ha : InBounds s.layer.SourceW s.layer.SourceH (T a) := hin a (List.mem_cons_self _ _)
    have hidx := cell_index32 (x := (T a).1) (y := (T a).2) ha hfit
    obtain ⟨h0, h1, h2⟩ := cell_index_bounds (x := (T a).1) (y := (T a).2) ha
    have hplt := Heap.bytes_lt hb
    have hcond : (T a).1 ≥ 0 ∧ (T a).1 < s.layer.SourceW ∧ (T a).2 ≥ 0 ∧
        (T a).2 < s.layer.SourceH := ha
    have hw : s.world.heap.writeByte (some p)
        (add32 (mul32 (T a).2 s.layer.SourceW) (T a).1) 255 =
        Except.ok (s.world.heap.store p (some (Block.bytes (stamp s.layer.SourceW buf (T a))))) := by
      simp only [Heap.writeByte, hb, hidx, stamp]
      rw [if_pos]
      refine ⟨by omega, ?_⟩
      have : ((T a).2 * s.layer.SourceW + (T a).1).toNat < buf.length := by omega
      exact this
    cases hdbg : s.layer.bDebugAgents
    · simp only [UpdateAgents.loop, hdbg, Bool.false_eq_true, if_false, hp, hw, if_pos hcond]
      have hrest := ih (s.withHeap (s.world.heap.store p
          (some (Block.bytes (stamp s.layer.SourceW buf (T a))))))
        (stamp s.layer.SourceW buf (T a)) hp
        (by simp only [State.withHeap]; exact Heap.bytes_store_same hplt _)
        (by simp only [State.withHeap, stamp, List.length_set]; exact hlen)
        hfit
        (fun b hb2 => hin b (List.mem_cons_of_mem _ hb2))
      rw [hrest]
      simp [State.withHeap, Heap.store_store, hdbg, stampAll]
    · simp only [UpdateAgents.loop, hdbg, if_true, hp, hw, if_pos hcond]
      have hrest := ih (State.withHeap
          { s with world := { s.world with DebugSpheres := s.world.DebugSpheres ++ [a] } }
          (s.world.heap.store p (some (Block.bytes (stamp s.layer.SourceW buf (T a))))))
        (stamp s.layer.SourceW buf (T a)) hp
        (by simp only [State.withHeap]; exact Heap.bytes_store_same hplt _)
        (by simp only [State.withHeap, stamp, List.length_set]; exact hlen)
        hfit
        (fun b hb2 => hin b (List.mem_cons_of_mem _ hb2))
      rw [hrest]
      simp [State.withHeap, Heap.store_store, hdbg, stampAll]

theorem UpdateAgents.loop_cons (T : Agent → Int × Int) (a : Agent) (rest : List Agent)
    (s : State) (p : Ptr) (buf : List Nat)
    (hp : s.layer.SourceBuffer = some p) (hb : s.world.heap.bytes p = some buf)
    (hlen : (buf.length : Int) = s.layer.SourceW * s.layer.SourceH)
    (hfit : s.layer.SourceW * s.layer.SourceH < 2147483648)
    (ha : InBounds s.layer.SourceW s.layer.SourceH (T a)) :
    UpdateAgents.loop T (a :: rest) s = UpdateAgents.loop T rest (afterAgent T a s p buf) := by
  have hidx := cell_index32 (x := (T a).1) (y := (T a).2) ha hfit
  obtain ⟨h0, h1, h2⟩ := cell_index_bounds (x := (T a).1) (y := (T a).2) ha
  have hcond : (T a).1 ≥ 0 ∧ (T a).1 < s.layer.SourceW ∧ (T a).2 ≥ 0 ∧
      (T a).2 < s.layer.SourceH := ha
  have hw : s.world.heap.writeByte (some p)
      (add32 (mul32 (T a).2 s.layer.SourceW) (T a).1) 255 =
      Except.ok (s.world.heap.store p (some (Block.bytes (stamp s.layer.SourceW buf (T a))))) := by
    simp only [Heap.writeByte, hb, hidx, stamp]
    rw [if_pos]
    refine ⟨by omega, ?_⟩
    have : ((T a).2 * s.layer.SourceW + (T a).1).toNat < buf.length := by omega
    exact this
  cases hdbg : s.layer.bDebugAgents
  · simp only [UpdateAgents.loop, afterAgent, hdbg, Bool.false_eq_true, if_false, hp, hw,
      if_pos hcond]
  · simp only [UpdateAgents.loop, afterAgent, hdbg, if_true, hp, hw, if_pos hcond]

theorem afterAgent_layer (T : Agent → Int × Int) (a : Agent) (s : State) (p : Ptr)
    (buf : List Nat) : (afterAgent T a s p buf).layer = s.layer := by
  unfold afterAgent State.withHeap
  split <;> rfl

theorem afterAgent_bytes (T : Agent → Int × Int) (a : Agent) (s : State) (p : Ptr)
    (buf : List Nat) (hb : s.world.heap.bytes p = some buf) :
    (afterAgent T a s p buf).world.heap.bytes p = some (stamp s.layer.SourceW buf (T a)) := by
  unfold afterAgent State.withHeap
  exact Heap.bytes_store_same (Heap.bytes_lt hb) _

/-- The loop of `UpdateAgents` ends in the failed `check` as soon as one of
the agents to visit is out of bounds. -/
theorem UpdateAgents.loop_checkFailed (T : Agent → Int × Int) (agents : List Agent) (s : State)
    (p : Ptr) (buf : List Nat)
    (hp : s.layer.SourceBuffer = some p) (hb : s.world.heap.bytes p = some buf)
    (hlen : (buf.length : Int) = s.layer.SourceW * s.layer.SourceH)
    (hfit : s.layer.SourceW * s.layer.SourceH < 2147483648)
    (hout : ∃ a ∈ agents, ¬ InBounds s.layer.SourceW s.layer.SourceH (T a)) :
    UpdateAgents.loop T agents s = Except.error Fatal.checkFailed := by
  induction agents generalizing s buf with
  | nil => obtain ⟨a, ha, _⟩ := hout; cases ha
  | cons a rest ih =>
    by_cases ha : InBounds s.layer.SourceW s.layer.SourceH (T a)
    · rw [UpdateAgents.loop_cons T a rest s p buf hp hb hlen hfit ha]
      have hl := afterAgent_layer T a s p buf
      apply ih (afterAgent T a s p buf) (stamp s.layer.SourceW buf (T a))
      · rw [hl]; exact hp
      · exact afterAgent_bytes T a s p buf hb
      · rw [hl]; simp only [stamp, List.length_set]; exact hlen
      · rw [hl]; exact hfit
      · rw [hl]
        obtain ⟨b, hb2, hbout⟩ := hout
        rcases List.mem_cons.mp hb2 with rfl | hmem
        · exact absurd ha hbout
        · exact ⟨b, hmem, hbout⟩
    · have hcond : ¬ ((T a).1 ≥ 0 ∧ (T a).1 < s.layer.SourceW ∧ (T a).2 ≥ 0 ∧
          (T a).2 < s.layer.SourceH) := ha
      cases hdbg : s.layer.bDebugAgents
      · simp only [UpdateAgents.loop, hdbg, Bool.false_eq_true, if_false, if_neg hcond]
      · simp only [UpdateAgents.loop, hdbg, if_true, if_neg hcond]

/-- Frame of the loop of `UpdateAgents`: when it completes, the component's
members are unchanged, and in the world only the source buffer's block and the
record of debug spheres may differ. -/
theorem UpdateAgents.loop_frame (T : Agent → Int × Int) (agents : List Agent) (s s2 : State)
    (hrun : UpdateAgents.loop T agents s = Except.ok s2) :
    s2.layer = s.layer ∧
    (∀ q, s.layer.SourceBuffer ≠ some q → s2.world.heap.block q = s.world.heap.block q) ∧
    s2.world.heap.cells.length = s.world.heap.cells.length ∧
    s2.world.heap.uninit = s.world.heap.uninit ∧
    s2.world.Textures = s.world.Textures ∧
    s2.world.Controller = s.world.Controller ∧
    s2.world.ErrorLog = s.world.ErrorLog ∧
    s2.world.RenderQueue = s.world.RenderQueue ∧
    s2.world.RHIUpdates = s.world.RHIUpdates := by
  induction agents generalizing s with
  | nil =>
    simp only [UpdateAgents.loop] at hrun
    cases hrun
    exact ⟨rfl, fun _ _ => rfl, rfl, rfl, rfl, rfl, rfl, rfl, rfl⟩
  | cons a rest ih =>
    cases hdbg : s.layer.bDebugAgents <;>
      simp only [UpdateAgents.loop, hdbg, Bool.false_eq_true, if_false, if_true] at hrun <;>
      split at hrun
    all_goals first
      | (cases hrun)
      | (split at hrun
         · cases hrun
         · rename_i h1 hw
           obtain ⟨q0, d, hq0, _, hh1⟩ := Heap.writeByte_ok hw
           obtain ⟨hl, hblk, hlen, hun, ht, hc, he, hq, hr⟩ := ih _ hrun
           subst hh1
           simp only [State.withHeap] at hl hblk hlen hun ht hc he hq hr hq0
           refine ⟨hl, ?_, ?_, hun, ht, hc, he, hq, hr⟩
           · intro q hne
             rw [hblk q hne]
             apply Heap.block_store_other
             rintro rfl
             exact hne hq0
           · rw [hlen]
             simp [Heap.store])

/-- The exact result of `UpdateTextureFromBuffer` for a live source block of at
least `Count` bytes and a destination texture: the snapshot block and the
`FTextureData` block are appended to the heap and the command is enqueued. -/
theorem UpdateTextureFromBuffer_eq (s : State) (t : Nat) (p : Ptr) (d : List Nat)
    (Count : Int) (reg : RegionRef)
    (hb : s.world.heap.bytes p = some d) (h0 : 0 ≤ Count) (hle : Count ≤ d.length) :
    UpdateTextureFromBuffer (some t) (some p) Count reg s = Except.ok
      { s with world := { s.world with
          heap := ⟨s.world.heap.cells ++ [some (Block.bytes (d.take Count.toNat))] ++
            [some (Block.textureData
              { Texture2DResource := t, Region := reg,
                SrcPitch := (s.region reg).Width,
                SrcData := s.world.heap.cells.length })], s.world.heap.uninit⟩,
          RenderQueue := s.world.RenderQueue ++ [s.world.heap.cells.length + 1] } } := by
  obtain ⟨hnew, hcpy⟩ := Heap.snapshot_eq s.world.heap p d Count hb h0 hle
  simp only [UpdateTextureFromBuffer, hnew, hcpy, Heap.newTextureData, List.length_append,
    List.length_singleton]

/-! ## Lemmas: what each method leaves alone -/

theorem prepareDebugTextures_FogAgents (s : State) :
    (prepareDebugTextures s).layer.FogAgents = s.layer.FogAgents := by
  unfold prepareDebugTextures
  split <;> rfl

theorem InitializeComponent_FogAgents {R : Int} {s s1 : State}
    (h : InitializeComponent R s = Except.ok s1) :
    s1.layer.FogAgents = s.layer.FogAgents := by
  unfold InitializeComponent at h
  simp only at h
  repeat' split at h
  all_goals first
    | (cases h; done)
    | (cases h; simp [prepareDebugTextures_FogAgents])

theorem UninitializeComponent_FogAgents {c : Bool} {s s1 : State}
    (h : UninitializeComponent c s = Except.ok s1) :
    s1.layer.FogAgents = s.layer.FogAgents := by
  unfold UninitializeComponent at h
  simp only at h
  repeat' split at h
  all_goals first
    | (cases h; done)
    | (cases h; rfl)

theorem UpdateTextureFromBuffer_layer {t : Option Nat} {b : Option Ptr} {n : Int}
    {r : RegionRef} {s s1 : State}
    (h : UpdateTextureFromBuffer t b n r s = Except.ok s1) : s1.layer = s.layer := by
  unfold UpdateTextureFromBuffer at h
  repeat' split at h
  all_goals first
    | (cases h; done)
    | (cases h; rfl)

theorem runRenderCommand_layer {m : Int} {s s1 : State}
    (h : runRenderCommand m s = Except.ok s1) : s1.layer = s.layer := by
  unfold runRenderCommand at h
  repeat' split at h
  all_goals first
    | (cases h; done)
    | (cases h; rfl)

theorem UpdateAgents_layer {T : Agent → Int × Int} {s s1 : State}
    (h : UpdateAgents T s = Except.ok s1) : s1.layer = s.layer :=
  (UpdateAgents.loop_frame T _ s s1 h).1

theorem TickComponent_layer {T : Agent → Int × Int} {s s1 : State}
    (h : TickComponent T s = Except.ok s1) : s1.layer = s.layer := by
  unfold TickComponent at h
  split at h
  · cases h
  · rename_i s2 h2
    have hl := UpdateAgents_layer h2
    split at h
    · split at h
      · cases h
      · rename_i s3 h3
        rw [UpdateTextureFromBuffer_layer h, UpdateTextureFromBuffer_layer h3, hl]
    · cases h
      exact hl

/-- Only `AddFogAgent` and `RemoveFogAgent` change the registry. -/
theorem Call.apply_FogAgents {c : Call} {s s1 : State} (h : c.apply s = Except.ok s1) :
    s1.layer.FogAgents = c.registry s.layer.FogAgents := by
  cases c with
  | InitializeComponent R => exact InitializeComponent_FogAgents h
  | UninitializeComponent b => exact UninitializeComponent_FogAgents h
  | TickComponent T => rw [TickComponent_layer h]; rfl
  | UpdateAgents T => rw [UpdateAgents_layer h]; rfl
  | AddFogAgent a => cases h; rfl
  | RemoveFogAgent a =>
    cases h
    simp only [VaFog.RemoveFogAgent, Call.registry]
    split <;> rfl
  | renderCommand m => rw [runRenderCommand_layer h]; rfl
  | setDebug a b => cases h; rfl

/-! ## Lemmas: the registry -/

theorem TArray.AddUnique_of_mem {xs : List Agent} {a : Agent} (h : a ∈ xs) :
    TArray.AddUnique xs a = xs := by
  simp [TArray.AddUnique, h]

theorem TArray.AddUnique_of_not_mem {xs : List Agent} {a : Agent} (h : a ∉ xs) :
    TArray.AddUnique xs a = xs ++ [a] := by
  simp [TArray.AddUnique, h]

theorem TArray.AddUnique_nodup {xs : List Agent} (a : Agent) (h : xs.Nodup) :
    (TArray.AddUnique xs a).Nodup := by
  unfold TArray.AddUnique
  split
  · exact h
  · rename_i hmem
    rw [List.nodup_append]
    refine ⟨h, List.nodup_singleton a, ?_⟩
    intro x hx hx2
    rw [List.mem_singleton] at hx2
    subst hx2
    exact hmem hx

theorem TArray.Remove_fst (xs : List Agent) (a : Agent) :
    (TArray.Remove xs a).1 = xs.filter (fun x => x != a) := rfl

theorem TArray.Remove_of_not_mem {xs : List Agent} {a : Agent} (h : a ∉ xs) :
    TArray.Remove xs a = (xs, 0) := by
  unfold TArray.Remove
  rw [List.count_eq_zero_of_not_mem h]
  congr 1
  rw [List.filter_eq_self]
  intro x hx
  simp only [bne_iff_ne, ne_eq]
  rintro rfl
  exact h hx

theorem TArray.Remove_snd_ne_zero {xs : List Agent} {a : Agent} (h : a ∈ xs) :
    (TArray.Remove xs a).2 ≠ 0 := by
  unfold TArray.Remove
  have := List.count_pos_iff.mpr h
  simp only [ne_eq, Int.natCast_eq_zero]
  omega

theorem Call.registry_nodup (c : Call) {xs : List Agent} (h : xs.Nodup) :
    (c.registry xs).Nodup := by
  cases c <;> simp only [Call.registry] <;> try exact h
  · exact TArray.AddUnique_nodup _ h
  · rw [TArray.Remove_fst]
    exact h.filter _

theorem run_registry_nodup (calls : List Call) (s s1 : State)
    (hs : s.layer.FogAgents.Nodup) (h : run calls s = Except.ok s1) :
    s1.layer.FogAgents.Nodup := by
  induction calls generalizing s with
  | nil => cases h; exact hs
  | cons c cs ih =>
    simp only [run] at h
    split at h
    · cases h
    · rename_i s2 h2
      apply ih s2 _ h
      rw [Call.apply_FogAgents h2]
      exact Call.registry_nodup c hs

/-- The registry follows the insertion log: after any run, the registry is the
log's agents in log order, and the log is in strictly increasing time order. -/
theorem run_insertionLog (calls : List Call) (t : Nat) (log : List (Agent × Nat))
    (s s1 : State)
    (hreg : s.layer.FogAgents = log.map Prod.fst)
    (hord : log.Pairwise (fun x y => x.2 < y.2))
    (hbound : ∀ x ∈ log, x.2 < t)
    (h : run calls s = Except.ok s1) :
    s1.layer.FogAgents = (insertionLog t calls log).map Prod.fst ∧
    (insertionLog t calls log).Pairwise (fun x y => x.2 < y.2) := by
  induction calls generalizing t log s with
  | nil => cases h; exact ⟨hreg, hord⟩
  | cons c cs ih =>
    simp only [run] at h
    split at h
    · cases h
    · rename_i s2 h2
      have hreg2 := Call.apply_FogAgents h2
      have hb1 : ∀ x ∈ log, x.2 < t + 1 := fun x hx => Nat.lt_succ_of_lt (hbound x hx)
      cases c with
      | AddFogAgent a =>
        simp only [insertionLog]
        apply ih (t + 1) _ s2 _ _ _ h
        · rw [hreg2, hreg]
          simp only [Call.registry, TArray.AddUnique]
          split <;> simp
        · split
          · exact hord
          · rw [List.pairwise_append]
            refine ⟨hord, List.pairwise_singleton _ _, ?_⟩
            intro x hx y hy
            rw [List.mem_singleton] at hy
            subst hy
            exact hbound x hx
        · intro x hx
          split at hx
          · exact hb1 x hx
          · rcases List.mem_append.mp hx with hx | hx
            · exact hb1 x hx
            · rw [List.mem_singleton] at hx
              subst hx
              exact Nat.lt_succ_self _
      | RemoveFogAgent a =>
        simp only [insertionLog]
        apply ih (t + 1) _ s2 _ _ _ h
        · rw [hreg2, hreg]
          simp only [Call.registry, TArray.Remove_fst, List.filter_map]
          rfl
        · exact hord.filter _
        · intro x hx
          exact hb1 x (List.mem_filter.mp hx).1
      | InitializeComponent R =>
        simp only [insertionLog]
        exact ih (t + 1) log s2 (by rw [hreg2]; exact hreg) hord hb1 h
      | UninitializeComponent b =>
        simp only [insertionLog]
        exact ih (t + 1) log s2 (by rw [hreg2]; exact hreg) hord hb1 h
      | TickComponent T =>
        simp only [insertionLog]
        exact ih (t + 1) log s2 (by rw [hreg2]; exact hreg) hord hb1 h
      | UpdateAgents T =>
        simp only [insertionLog]
        exact ih (t + 1) log s2 (by rw [hreg2]; exact hreg) hord hb1 h
      | renderCommand m =>
        simp only [insertionLog]
        exact ih (t + 1) log s2 (by rw [hreg2]; exact hreg) hord hb1 h
      | setDebug a b =>
        simp only [insertionLog]
        exact ih (t + 1) log s2 (by rw [hreg2]; exact hreg) hord hb1 h

/-! ## Lemmas: initialisation -/

/-- The component members after the buffer part of `InitializeComponent`, for
a heap that had `n` blocks before the call. -/
theorem InitializeComponent_eq (R : Int) (s : State)
    (hpow : IsPowerOfTwo R = true)
    (hsrc : s.layer.SourceBuffer = none) (hup : s.layer.UpscaleBuffer = none)
    (hn : 0 ≤ mul32 R R) (hm : 0 ≤ mul32 (mul32 R 4) (mul32 R 4)) :
    InitializeComponent R s = Except.ok (initialized R s) := by
  obtain ⟨ha1, hz1⟩ := Heap.alloc_zero s.world.heap (mul32 R R) hn
  obtain ⟨ha2, hz2⟩ := Heap.alloc_zero
    ⟨s.world.heap.cells ++ [some (Block.bytes (List.replicate (mul32 R R).toNat 0))],
      s.world.heap.uninit⟩ (mul32 (mul32 R 4) (mul32 R 4)) hm
  simp only [List.length_append, List.length_singleton] at ha2 hz2
  simp only [InitializeComponent, hpow, hsrc, hup, Option.isSome_none, Bool.false_eq_true,
    if_false, ha1, hz1, ha2, hz2, bufferLength_eq, initialized, buffersCreated,
    Bool.true_eq_false,
    List.length_append, List.length_singleton]

theorem prepareDebugTextures_keeps (s : State) :
    (prepareDebugTextures s).world.heap = s.world.heap ∧
    (prepareDebugTextures s).layer.SourceBuffer = s.layer.SourceBuffer ∧
    (prepareDebugTextures s).layer.UpscaleBuffer = s.layer.UpscaleBuffer ∧
    (prepareDebugTextures s).layer.SourceW = s.layer.SourceW ∧
    (prepareDebugTextures s).layer.SourceH = s.layer.SourceH ∧
    (prepareDebugTextures s).layer.UpscaleW = s.layer.UpscaleW ∧
    (prepareDebugTextures s).layer.UpscaleH = s.layer.UpscaleH ∧
    (prepareDebugTextures s).layer.SourceBufferLength = s.layer.SourceBufferLength ∧
    (prepareDebugTextures s).layer.UpscaleBufferLength = s.layer.UpscaleBufferLength := by
  unfold prepareDebugTextures
  split <;> exact ⟨rfl, rfl, rfl, rfl, rfl, rfl, rfl, rfl, rfl⟩

/-- The buffers and dimensions of the state that `InitializeComponent` produces. -/
theorem initialized_buffers (R : Int) (s : State) :
    (initialized R s).layer.SourceW = R ∧
    (initialized R s).layer.SourceH = R ∧
    (initialized R s).layer.UpscaleW = mul32 R 4 ∧
    (initialized R s).layer.UpscaleH = mul32 R 4 ∧
    (initialized R s).layer.SourceBufferLength = mul32 R R ∧
    (initialized R s).layer.UpscaleBufferLength = mul32 (mul32 R 4) (mul32 R 4) ∧
    (initialized R s).sourceBytes = some (List.replicate (mul32 R R).toNat 0) ∧
    (initialized R s).upscaleBytes =
      some (List.replicate (mul32 (mul32 R 4) (mul32 R 4)).toNat 0) := by
  obtain ⟨hh, hsb, hub, hsw, hsh, huw, huh, hsl, hul⟩ :=
    prepareDebugTextures_keeps (buffersCreated R s)
  refine ⟨hsw, hsh, huw, huh, hsl, hul, ?_, ?_⟩
  · show (prepareDebugTextures (buffersCreated R s)).layer.SourceBuffer.bind
      (prepareDebugTextures (buffersCreated R s)).world.heap.bytes = _
    rw [hsb, hh]
    show (Heap.mk _ _).bytes s.world.heap.cells.length = _
    rw [Heap.bytes_append_old _ _ _ (by simp)]
    simp [Heap.bytes, Heap.block_append_new]
  · show (prepareDebugTextures (buffersCreated R s)).layer.UpscaleBuffer.bind
      (prepareDebugTextures (buffersCreated R s)).world.heap.bytes = _
    rw [hub, hh]
    show (Heap.mk _ _).bytes (s.world.heap.cells.length + 1) = _
    have := Heap.block_append_new
      (s.world.heap.cells ++ [some (Block.bytes (List.replicate (mul32 R R).toNat 0))])
      s.world.heap.uninit
      (some (Block.bytes (List.replicate (mul32 (mul32 R 4) (mul32 R 4)).toNat 0)))
    simp only [List.length_append, List.length_singleton] at this
    simp only [Heap.bytes, this]

/-- The outcome of `InitializeComponent` in every case. -/
theorem InitializeComponent_ok_iff (R : Int) (s s1 : State) :
    InitializeComponent R s = Except.ok s1 ↔
      (IsPowerOfTwo R = true ∧ s.layer.SourceBuffer = none ∧ s.layer.UpscaleBuffer = none ∧
        0 ≤ mul32 R R ∧ 0 ≤ mul32 (mul32 R 4) (mul32 R 4) ∧ s1 = initialized R s) := by
  constructor
  · intro h
    cases hpow : IsPowerOfTwo R with
    | false => simp [InitializeComponent, hpow] at h
    | true =>
      cases hsrc : s.layer.SourceBuffer with
      | some p => simp [InitializeComponent, hpow, hsrc] at h
      | none =>
        by_cases hn : 0 ≤ mul32 R R
        · obtain ⟨ha1, hz1⟩ := Heap.alloc_zero s.world.heap (mul32 R R) hn
          cases hup : s.layer.UpscaleBuffer with
          | some p =>
            simp [InitializeComponent, hpow, hsrc, ha1, hz1, bufferLength_eq, hup] at h
          | none =>
            by_cases hm : 0 ≤ mul32 (mul32 R 4) (mul32 R 4)
            · rw [InitializeComponent_eq R s hpow hsrc hup hn hm] at h
              exact ⟨rfl, rfl, rfl, hn, hm, (Except.ok.inj h).symm⟩
            · have hneg := Heap.newBytes_neg
                ⟨s.world.heap.cells ++ [some (Block.bytes (List.replicate (mul32 R R).toNat 0))],
                  s.world.heap.uninit⟩ (mul32 (mul32 R 4) (mul32 R 4)) (by omega)
              simp [InitializeComponent, hpow, hsrc, ha1, hz1, bufferLength_eq, hup, hneg] at h
        · have hneg := Heap.newBytes_neg s.world.heap (mul32 R R) (by omega)
          simp [InitializeComponent, hpow, hsrc, hneg] at h
  · rintro ⟨hpow, hsrc, hup, hn, hm, rfl⟩
    exact InitializeComponent_eq R s hpow hsrc hup hn hm

theorem acceptedResolutions_overflow_wraps_to_zero :
    ∀ R ∈ acceptedResolutions,
      (2147483648 ≤ R * R → mul32 R R = 0) ∧
      (2147483648 ≤ (4 * R) * (4 * R) → mul32 (mul32 R 4) (mul32 R 4) = 0) := by
  decide

theorem acceptedResolutions_lengths_nonneg :
    ∀ R ∈ acceptedResolutions, 0 ≤ mul32 R R ∧ 0 ≤ mul32 (mul32 R 4) (mul32 R 4) := by
  decide

/-- The only failure `InitializeComponent` reports for an `int32` resolution is
a failed `check`. -/
theorem InitializeComponent_error (R : Int) (s : State) (h32 : InInt32 R) (e : Fatal)
    (h : InitializeComponent R s = Except.error e) : e = Fatal.checkFailed := by
  cases hpow : IsPowerOfTwo R with
  | false =>
    simp only [InitializeComponent, hpow, if_true] at h
    exact (Except.error.inj h).symm
  | true =>
    cases hsrc : s.layer.SourceBuffer with
    | some p =>
      simp only [InitializeComponent, hpow, hsrc, Option.isSome_some, if_true,
        Bool.true_eq_false, if_false] at h
      exact (Except.error.inj h).symm
    | none =>
      obtain ⟨hn, hm⟩ := acceptedResolutions_lengths_nonneg R ((IsPowerOfTwo_iff_mem h32).mp hpow)
      cases hup : s.layer.UpscaleBuffer with
      | some p =>
        obtain ⟨ha1, hz1⟩ := Heap.alloc_zero s.world.heap (mul32 R R) hn
        simp only [InitializeComponent, hpow, hsrc, ha1, hz1, bufferLength_eq, hup,
          Option.isSome_some, Option.isSome_none, if_true, Bool.true_eq_false, if_false,
          Bool.false_eq_true] at h
        exact (Except.error.inj h).symm
      | none =>
        rw [InitializeComponent_eq R s hpow hsrc hup hn hm] at h
        cases h

/-! ## Lemmas: the buffer pointers between initialisation and teardown -/

theorem InitializeComponent_source_allocated (R : Int) (s : State)
    (h : s.layer.SourceBuffer.isSome = true) :
    InitializeComponent R s = Except.error Fatal.checkFailed := by
  cases hpow : IsPowerOfTwo R <;> simp [InitializeComponent, hpow, h]

theorem InitializeComponent_upscale_allocated (R : Int) (s : State) (h32 : InInt32 R)
    (h : s.layer.UpscaleBuffer.isSome = true) :
    InitializeComponent R s = Except.error Fatal.checkFailed := by
  cases hrun : InitializeComponent R s with
  | error e => rw [InitializeComponent_error R s h32 e hrun]
  | ok s1 =>
    obtain ⟨_, _, hup, _⟩ := (InitializeComponent_ok_iff R s s1).mp hrun
    rw [hup] at h
    cases h

/-- Every call other than `InitializeComponent` and `UninitializeComponent`
leaves the two buffer pointers and the recorded dimensions as they are. -/
theorem Call.apply_pointers {c : Call} {s s1 : State} (h : c.apply s = Except.ok s1)
    (hi : c.isInitialize = false) (hu : c.isUninitialize = false) :
    s1.layer.SourceBuffer = s.layer.SourceBuffer ∧
    s1.layer.UpscaleBuffer = s.layer.UpscaleBuffer ∧
    s1.layer.SourceW = s.layer.SourceW ∧ s1.layer.SourceH = s.layer.SourceH ∧
    s1.layer.SourceBufferLength = s.layer.SourceBufferLength ∧
    s1.layer.UpscaleBufferLength = s.layer.UpscaleBufferLength := by
  cases c with
  | InitializeComponent R => cases hi
  | UninitializeComponent b => cases hu
  | TickComponent T => rw [TickComponent_layer h]; exact ⟨rfl, rfl, rfl, rfl, rfl, rfl⟩
  | UpdateAgents T => rw [UpdateAgents_layer h]; exact ⟨rfl, rfl, rfl, rfl, rfl, rfl⟩
  | AddFogAgent a => cases h; exact ⟨rfl, rfl, rfl, rfl, rfl, rfl⟩
  | RemoveFogAgent a =>
    cases h
    simp only [VaFog.RemoveFogAgent]
    split <;> exact ⟨rfl, rfl, rfl, rfl, rfl, rfl⟩
  | renderCommand m => rw [runRenderCommand_layer h]; exact ⟨rfl, rfl, rfl, rfl, rfl, rfl⟩
  | setDebug a b => cases h; exact ⟨rfl, rfl, rfl, rfl, rfl, rfl⟩

/-- While no teardown happens, an allocated layer keeps its buffer pointers,
and no `InitializeComponent` call can be part of a run that completes. -/
theorem run_allocated_once (calls : List Call) (s s1 : State)
    (halloc : s.layer.SourceBuffer.isSome = true)
    (hno : ∀ c ∈ calls, c.isUninitialize = false)
    (h : run calls s = Except.ok s1) :
    s1.layer.SourceBuffer = s.layer.SourceBuffer ∧
    s1.layer.UpscaleBuffer = s.layer.UpscaleBuffer ∧
    ∀ c ∈ calls, c.isInitialize = false := by
  induction calls generalizing s with
  | nil =>
    cases h
    exact ⟨rfl, rfl, fun c hc => by cases hc⟩
  | cons c cs ih =>
    simp only [run] at h
    split at h
    · cases h
    · rename_i s2 h2
      have hu : c.isUninitialize = false := hno c (List.mem_cons_self _ _)
      have hi : c.isInitialize = false := by
        cases c with
        | InitializeComponent R =>
          have herr := InitializeComponent_source_allocated R s halloc
          simp only [Call.apply] at h2
          rw [herr] at h2
          cases h2
        | _ => rfl
      obtain ⟨hsb, hub, _⟩ := Call.apply_pointers h2 hi hu
      obtain ⟨h1, h2b, h3⟩ := ih s2 (by rw [hsb]; exact halloc)
        (fun d hd => hno d (List.mem_cons_of_mem _ hd)) h
      refine ⟨by rw [h1, hsb], by rw [h2b, hub], ?_⟩
      intro d hd
      rcases List.mem_cons.mp hd with rfl | hd
      · exact hi
      · exact h3 d hd

/-! ## Lemmas: the render command -/

theorem Heap.block_lt {h : Heap} {p : Ptr} {b : Block} (hb : h.block p = some b) :
    p < h.cells.length := by
  by_contra hlt
  have hnone : h.cells[p]? = none := List.getElem?_eq_none (Nat.le_of_not_lt hlt)
  simp [Heap.block, hnone] at hb

theorem Heap.block_store_same {h : Heap} {p : Ptr} (hp : p < h.cells.length)
    (b : Option Block) : (h.store p b).block p = b := by
  simp [Heap.block, Heap.store, hp]

theorem Heap.block_of_bytes {h : Heap} {p : Ptr} {d : List Nat} (hb : h.bytes p = some d) :
    h.block p = some (Block.bytes d) := by
  rw [Heap.bytes_eq_some] at hb
  simp [Heap.block, hb]

theorem Heap.free_live {h : Heap} {p : Ptr} {b : Block} (hb : h.block p = some b) :
    h.free p = Except.ok (h.store p none) := by
  simp [Heap.free, hb]

theorem Heap.free_freed {h : Heap} {p : Ptr} (hb : h.block p = none) :
    h.free p = Except.error Fatal.invalidAccess := by
  simp [Heap.free, hb]

/-- The exact result of the render command on a queue whose oldest entry is a
live `FTextureData` with live `SrcData`. -/
theorem runRenderCommand_eq (m : Int) (s : State) (td : Ptr) (queue : List Ptr)
    (d : FTextureData) (data : List Nat)
    (hq : s.world.RenderQueue = td :: queue)
    (hblk : s.world.heap.block td = some (Block.textureData d))
    (hdata : s.world.heap.bytes d.SrcData = some data) :
    runRenderCommand m s = Except.ok
      { s with world := { s.world with
          heap := (s.world.heap.store d.SrcData none).store td none,
          RenderQueue := queue,
          RHIUpdates :=
            if m ≤ 0 then
              s.world.RHIUpdates ++
                [{ Texture := d.Texture2DResource, MipIndex := sub32 0 m,
                   Region := s.region d.Region, SrcPitch := d.SrcPitch, SrcData := data }]
            else s.world.RHIUpdates } } := by
  have hdb := Heap.block_of_bytes hdata
  have hne : d.SrcData ≠ td := by
    intro h
    rw [h, hblk] at hdb
    cases hdb
  have hf1 := Heap.free_live hdb
  have hf2 : (s.world.heap.store d.SrcData none).free td =
      Except.ok ((s.world.heap.store d.SrcData none).store td none) := by
    apply Heap.free_live (b := Block.textureData d)
    rw [Heap.block_store_other hne]
    exact hblk
  simp only [runRenderCommand, hq, hblk, hdata, hf1, hf2]

/-- The example layer with presentation enabled is what the calls produce. -/
theorem exampleDebug4_reached :
    run [Call.setDebug false true, Call.InitializeComponent 4, Call.AddFogAgent 7]
      (State.initial 205) = Except.ok exampleDebug4 := by
  set_option maxRecDepth 100000 in
  rfl

/-! ## Lemmas: submission -/

theorem Heap.bytes_congr {h h1 : Heap} {p q : Ptr} (hb : h1.block q = h.block p) :
    h1.bytes q = h.bytes p := by
  unfold Heap.bytes
  rw [hb]

/-- What `UpdateTextureFromBuffer` changes, for a live source block of at least
`Count` bytes and a destination texture: two blocks are appended, the snapshot
and the `FTextureData` that points to it, and the latter is enqueued. -/
theorem UpdateTextureFromBuffer_spec (s : State) (t : Nat) (p : Ptr) (d : List Nat)
    (Count : Int) (reg : RegionRef)
    (hb : s.world.heap.bytes p = some d) (h0 : 0 ≤ Count) (hle : Count ≤ d.length) :
    ∃ s1, UpdateTextureFromBuffer (some t) (some p) Count reg s = Except.ok s1 ∧
      s1.layer = s.layer ∧
      s1.world.RenderQueue = s.world.RenderQueue ++ [s.world.heap.cells.length + 1] ∧
      s1.world.heap.cells.length = s.world.heap.cells.length + 2 ∧
      (∀ q, q < s.world.heap.cells.length → s1.world.heap.block q = s.world.heap.block q) ∧
      s1.world.heap.block (s.world.heap.cells.length + 1) = some (Block.textureData
        { Texture2DResource := t, Region := reg, SrcPitch := (s.region reg).Width,
          SrcData := s.world.heap.cells.length }) ∧
      s1.world.heap.bytes s.world.heap.cells.length = some (d.take Count.toNat) ∧
      s1.world.RHIUpdates = s.world.RHIUpdates ∧
      s1.world.ErrorLog = s.world.ErrorLog := by
  refine ⟨_, UpdateTextureFromBuffer_eq s t p d Count reg hb h0 hle, rfl, rfl, ?_, ?_, ?_, ?_,
    rfl, rfl⟩
  · simp
  · intro q hq
    show (Heap.mk _ _).block q = _
    rw [Heap.block_append_old _ _ _ (Nat.lt_of_lt_of_le hq (by simp)),
      Heap.block_append_old _ _ _ hq]
  · have := Heap.block_append_new
      (s.world.heap.cells ++ [some (Block.bytes (d.take Count.toNat))])
      s.world.heap.uninit (some (Block.textureData
        { Texture2DResource := t, Region := reg, SrcPitch := (s.region reg).Width,
          SrcData := s.world.heap.cells.length }))
    simpa using this
  · show (Heap.mk _ _).bytes _ = _
    rw [Heap.bytes_append_old _ _ _ (by simp)]
    simp [Heap.bytes, Heap.block_append_new]

/-- The result of `UpdateAgents` on an allocated layer with all agents in
bounds, by its effect: only the source block changes, to the stamped buffer. -/
theorem UpdateAgents_spec (T : Agent → Int × Int) (s : State) (p : Ptr) (buf : List Nat)
    (hp : s.layer.SourceBuffer = some p) (hb : s.world.heap.bytes p = some buf)
    (hlen : (buf.length : Int) = s.layer.SourceW * s.layer.SourceH)
    (hfit : s.layer.SourceW * s.layer.SourceH < 2147483648)
    (hin : ∀ a ∈ s.layer.FogAgents, InBounds s.layer.SourceW s.layer.SourceH (T a)) :
    ∃ s1, UpdateAgents T s = Except.ok s1 ∧ s1.layer = s.layer ∧
      s1.world.heap.bytes p =
        some (stampAll s.layer.SourceW buf (s.layer.FogAgents.map T)) ∧
      (∀ q, q ≠ p → s1.world.heap.block q = s.world.heap.block q) ∧
      s1.world.heap.cells.length = s.world.heap.cells.length ∧
      s1.world.RenderQueue = s.world.RenderQueue ∧
      s1.world.RHIUpdates = s.world.RHIUpdates := by
  refine ⟨_, UpdateAgents.loop_eq T s.layer.FogAgents s p buf hp hb hlen hfit hin, rfl, ?_, ?_,
    ?_, rfl, rfl⟩
  · exact Heap.bytes_store_same (Heap.bytes_lt hb) _
  · intro q hq
    exact Heap.block_store_other (fun h => hq h.symm) _
  · simp [Heap.store]

/-- The exact course of `TickComponent` with presentation enabled on a layer
whose two buffers are allocated with their recorded lengths and whose two
textures exist, all agents being in bounds. -/
theorem TickComponent_spec (T : Agent → Int × Int) (s : State) (p q : Ptr)
    (buf ubuf : List Nat) (t1 t2 : Nat)
    (hdbg : s.layer.bDebugBuffers = true)
    (hp : s.layer.SourceBuffer = some p) (hb : s.world.heap.bytes p = some buf)
    (hlen : (buf.length : Int) = s.layer.SourceW * s.layer.SourceH)
    (hfit : s.layer.SourceW * s.layer.SourceH < 2147483648)
    (hin : ∀ a ∈ s.layer.FogAgents, InBounds s.layer.SourceW s.layer.SourceH (T a))
    (hsl : s.layer.SourceBufferLength = buf.length)
    (hq : s.layer.UpscaleBuffer = some q) (hpq : q ≠ p)
    (hub : s.world.heap.bytes q = some ubuf)
    (hul : s.layer.UpscaleBufferLength = ubuf.length)
    (ht1 : s.layer.SourceTexture = some t1) (ht2 : s.layer.UpscaleTexture = some t2) :
    ∃ s1 s3, UpdateAgents T s = Except.ok s1 ∧
      s1.sourceBytes = some (stampAll s.layer.SourceW buf (s.layer.FogAgents.map T)) ∧
      TickComponent T s = Except.ok s3 ∧ s3.layer = s.layer ∧
      s3.world.RenderQueue = s.world.RenderQueue ++
        [s.world.heap.cells.length + 1, s.world.heap.cells.length + 3] ∧
      s3.world.heap.block (s.world.heap.cells.length + 1) = some (Block.textureData
        { Texture2DResource := t1, Region := RegionRef.SourceUpdateRegion,
          SrcPitch := s.layer.SourceUpdateRegion.Width,
          SrcData := s.world.heap.cells.length }) ∧
      s3.world.heap.bytes s.world.heap.cells.length =
        some (stampAll s.layer.SourceW buf (s.layer.FogAgents.map T)) ∧
      s3.world.heap.block (s.world.heap.cells.length + 3) = some (Block.textureData
        { Texture2DResource := t2, Region := RegionRef.UpscaleUpdateRegion,
          SrcPitch := s.layer.UpscaleUpdateRegion.Width,
          SrcData := s.world.heap.cells.length + 2 }) ∧
      s3.world.heap.bytes (s.world.heap.cells.length + 2) = some ubuf ∧
      s3.sourceBytes = s1.sourceBytes ∧ s3.world.heap.bytes q = some ubuf := by
  obtain ⟨s1, hrun1, hl1, hb1, hfr1, hc1, hq1, _⟩ :=
    UpdateAgents_spec T s p buf hp hb hlen hfit hin
  have hplt := Heap.bytes_lt hb
  have hqlt := Heap.bytes_lt hub
  have hstlen : (stampAll s.layer.SourceW buf (s.layer.FogAgents.map T)).length = buf.length :=
    stampAll_length _ _ _
  have hub1 : s1.world.heap.bytes q = some ubuf := by
    rw [Heap.bytes_congr (hfr1 q hpq)]; exact hub
  obtain ⟨s2, hrun2, hl2, hq2, hc2, hfr2, hblk2, hsn2, _⟩ :=
    UpdateTextureFromBuffer_spec s1 t1 p _ s.layer.SourceBufferLength
      RegionRef.SourceUpdateRegion hb1 (by rw [hsl]; omega) (by rw [hsl, hstlen])
  have hub2 : s2.world.heap.bytes q = some ubuf := by
    rw [Heap.bytes_congr (hfr2 q (by rw [hc1]; exact hqlt))]; exact hub1
  obtain ⟨s3, hrun3, hl3, hq3, hc3, hfr3, hblk3, hsn3, _⟩ :=
    UpdateTextureFromBuffer_spec s2 t2 q ubuf s.layer.UpscaleBufferLength
      RegionRef.UpscaleUpdateRegion hub2 (by rw [hul]; omega) (by rw [hul])
  have htick : TickComponent T s = Except.ok s3 := by
    unfold TickComponent
    rw [hrun1]
    simp only [hl1, hdbg, if_true, ht1, hp]
    rw [hrun2]
    simp only [hl2, hl1, ht2, hq]
    exact hrun3
  have hreg1 : s1.region RegionRef.SourceUpdateRegion = s.layer.SourceUpdateRegion := by
    simp only [State.region, hl1]
  have hreg2 : s2.region RegionRef.UpscaleUpdateRegion = s.layer.UpscaleUpdateRegion := by
    simp only [State.region, hl2, hl1]
  have htake1 : (stampAll s.layer.SourceW buf (s.layer.FogAgents.map T)).take
      s.layer.SourceBufferLength.toNat =
      stampAll s.layer.SourceW buf (s.layer.FogAgents.map T) := by
    apply List.take_of_length_le
    rw [hsl, hstlen]; simp
  have htake2 : ubuf.take s.layer.UpscaleBufferLength.toNat = ubuf := by
    apply List.take_of_length_le
    rw [hul]; simp
  rw [hc1] at hblk2 hsn2 hq2
  rw [hc2, hc1] at hblk3 hsn3 hq3
  rw [hreg1] at hblk2
  rw [hreg2] at hblk3
  rw [htake1] at hsn2
  rw [htake2] at hsn3
  have hsrc1 : s1.sourceBytes = some (stampAll s.layer.SourceW buf (s.layer.FogAgents.map T)) := by
    simp only [State.sourceBytes, hl1, hp, Option.some_bind]
    exact hb1
  refine ⟨s1, s3, hrun1, hsrc1, htick, by rw [hl3, hl2, hl1], ?_, ?_, ?_, hblk3, hsn3, ?_, ?_⟩
  · rw [hq3, hq2, hq1]
    simp
  · rw [hfr3 _ (by rw [hc2, hc1]; omega)]
    exact hblk2
  · rw [Heap.bytes_congr (hfr3 _ (by rw [hc2, hc1]; omega))]
    exact hsn2
  · rw [hsrc1]
    simp only [State.sourceBytes, hl3, hl2, hl1, hp, Option.some_bind]
    rw [Heap.bytes_congr (hfr3 p (by rw [hc2, hc1]; exact Nat.lt_of_lt_of_le hplt (by simp))),
      Heap.bytes_congr (hfr2 p (by rw [hc1]; exact hplt))]
    exact hb1
  · rw [Heap.bytes_congr (hfr3 q (by rw [hc2, hc1]; exact Nat.lt_of_lt_of_le hqlt (by simp)))]
    exact hub2

/-! ## Lemmas: steps never clear a byte -/

theorem SourceKept.refl (buf : List Nat) : SourceKept buf buf :=
  ⟨rfl, fun _ => Or.inl rfl⟩

theorem SourceKept.trans {a b c : List Nat} (h1 : SourceKept a b) (h2 : SourceKept b c) :
    SourceKept a c := by
  refine ⟨h2.1.trans h1.1, ?_⟩
  intro i
  rcases h2.2 i with h | h
  · rw [h]; exact h1.2 i
  · exact Or.inr h

theorem SourceKept.set (buf : List Nat) (i : Nat) : SourceKept buf (buf.set i 255) := by
  refine ⟨List.length_set _ _ _, ?_⟩
  intro j
  by_cases hij : i = j
  · subst hij
    by_cases hi : i < buf.length
    · right
      exact List.getElem?_set_self hi
    · left
      rw [List.getElem?_eq_none (by simp; omega), List.getElem?_eq_none (by omega)]
  · left
    exact List.getElem?_set_ne hij

theorem SourceKept.sticky {buf buf1 : List Nat} (h : SourceKept buf buf1) (i : Nat)
    (hi : buf[i]? = some 255) : buf1[i]? = some 255 := by
  rcases h.2 i with h1 | h1
  · rw [h1]; exact hi
  · exact h1

theorem SourceKept.binary {buf buf1 : List Nat} (h : SourceKept buf buf1)
    (hb : ∀ b ∈ buf, b = 0 ∨ b = 255) : ∀ b ∈ buf1, b = 0 ∨ b = 255 := by
  intro b hmem
  obtain ⟨i, hi⟩ := List.mem_iff_getElem?.mp hmem
  rcases h.2 i with h1 | h1
  · rw [h1] at hi
    exact hb b (List.mem_iff_getElem?.mpr ⟨i, hi⟩)
  · rw [h1] at hi
    right
    exact (Option.some.inj hi).symm

/-- When the loop of `UpdateAgents` completes on a live source block, that
block has its old length and every byte is the old byte or `0xFF`. -/
theorem UpdateAgents.loop_kept (T : Agent → Int × Int) (agents : List Agent) (s s2 : State)
    (p : Ptr) (buf : List Nat)
    (hp : s.layer.SourceBuffer = some p) (hb : s.world.heap.bytes p = some buf)
    (hrun : UpdateAgents.loop T agents s = Except.ok s2) :
    ∃ buf2, s2.world.heap.bytes p = some buf2 ∧ SourceKept buf buf2 := by
  induction agents generalizing s buf with
  | nil =>
    simp only [UpdateAgents.loop] at hrun
    cases hrun
    exact ⟨buf, hb, SourceKept.refl buf⟩
  | cons a rest ih =>
    cases hdbg : s.layer.bDebugAgents <;>
      simp only [UpdateAgents.loop, hdbg, Bool.false_eq_true, if_false, if_true] at hrun <;>
      split at hrun
    all_goals first
      | (cases hrun)
      | (split at hrun
         · cases hrun
         · rename_i h1 hw
           obtain ⟨q0, d, hq0, hd, hh1⟩ := Heap.writeByte_ok hw
           rw [hp] at hq0
           cases hq0
           rw [hb] at hd
           cases hd
           subst hh1
           obtain ⟨buf2, hb2, hk⟩ := ih _ _ (by simp only [State.withHeap]; exact hp)
             (by simp only [State.withHeap]
                 exact Heap.bytes_store_same (Heap.bytes_lt hb) _) hrun
           exact ⟨buf2, hb2, (SourceKept.set buf _).trans hk⟩)

theorem Heap.Memcpy_ok {h h2 : Heap} {Dest : Ptr} {Src : Option Ptr} {Count : Int}
    (hm : h.Memcpy Dest Src Count = Except.ok h2) :
    ∃ q sd dd, Src = some q ∧ h.bytes q = some sd ∧ h.bytes Dest = some dd ∧
      0 ≤ Count ∧ Count.toNat ≤ sd.length ∧ Count.toNat ≤ dd.length ∧
      h2 = h.store Dest (some (Block.bytes (sd.take Count.toNat ++ dd.drop Count.toNat))) := by
  unfold Heap.Memcpy at hm
  cases Src with
  | none => cases hm
  | some q =>
    cases hs : h.bytes q with
    | none => simp [hs] at hm
    | some sd =>
      cases hd : h.bytes Dest with
      | none => simp [hs, hd] at hm
      | some dd =>
        simp only [hs, hd] at hm
        split at hm
        · rename_i hc
          exact ⟨q, sd, dd, rfl, hs, rfl, hc.1, hc.2.1, hc.2.2, (Except.ok.inj hm).symm⟩
        · cases hm

/-- When `UpdateTextureFromBuffer` completes, its arguments were a texture and
a source pointer, and its result is the state with the snapshot block and the
`FTextureData` block appended and the command enqueued; the snapshot holds the
first `SrcBufferLength` bytes of the source block whenever the source pointer
was a block of the heap. -/
theorem UpdateTextureFromBuffer_inv {t : Option Nat} {b : Option Ptr} {n : Int}
    {r : RegionRef} {s s1 : State}
    (h : UpdateTextureFromBuffer t b n r s = Except.ok s1) :
    ∃ t0 q sd, t = some t0 ∧ b = some q ∧ 0 ≤ n ∧ n.toNat ≤ sd.length ∧
      (q < s.world.heap.cells.length → s.world.heap.bytes q = some sd) ∧
      s1 = { s with world := { s.world with
        heap := ⟨s.world.heap.cells ++ [some (Block.bytes (sd.take n.toNat))] ++
          [some (Block.textureData
            { Texture2DResource := t0, Region := r, SrcPitch := (s.region r).Width,
              SrcData := s.world.heap.cells.length })], s.world.heap.uninit⟩,
        RenderQueue := s.world.RenderQueue ++ [s.world.heap.cells.length + 1] } } := by
  unfold UpdateTextureFromBuffer at h
  by_cases hn : n < 0
  · simp [Heap.newBytes, hn] at h
  · simp only [Heap.newBytes, if_neg hn] at h
    split at h
    · cases h
    · rename_i h2 hm
      obtain ⟨q, sd, dd, hq, hsd, hdd, h0, hle1, _, hh2⟩ := Heap.Memcpy_ok hm
      subst hq
      have hdst : (Heap.mk (s.world.heap.cells ++ [some (Block.bytes
          (List.replicate n.toNat s.world.heap.uninit))]) s.world.heap.uninit).bytes
          s.world.heap.cells.length = some (List.replicate n.toNat s.world.heap.uninit) := by
        simp [Heap.bytes, Heap.block_append_new]
      rw [hdst] at hdd
      cases hdd
      cases t with
      | none => simp at h
      | some t0 =>
        simp only [Heap.newTextureData] at h
        have hs1 := (Except.ok.inj h).symm
        refine ⟨t0, q, sd, rfl, rfl, h0, hle1, ?_, ?_⟩
        · intro hlt
          rw [← hsd]
          exact (Heap.bytes_append_old _ _ _ hlt).symm
        · rw [hs1, hh2]
          simp [Heap.store]

/-- What a completed `UpdateTextureFromBuffer` leaves alone: the component and
every block that existed before the call. -/
theorem UpdateTextureFromBuffer_frame {t : Option Nat} {b : Option Ptr} {n : Int}
    {r : RegionRef} {s s1 : State}
    (h : UpdateTextureFromBuffer t b n r s = Except.ok s1) :
    s1.layer = s.layer ∧
    s1.world.heap.cells.length = s.world.heap.cells.length + 2 ∧
    (∀ q, q < s.world.heap.cells.length → s1.world.heap.block q = s.world.heap.block q) ∧
    s1.world.RenderQueue = s.world.RenderQueue ++ [s.world.heap.cells.length + 1] := by
  obtain ⟨t0, q, sd, _, _, _, _, _, rfl⟩ := UpdateTextureFromBuffer_inv h
  refine ⟨rfl, by simp, ?_, rfl⟩
  intro q hq
  show (Heap.mk _ _).block q = _
  rw [Heap.block_append_old _ _ _ (Nat.lt_of_lt_of_le hq (by simp)),
    Heap.block_append_old _ _ _ hq]

/-- The course of a completed `TickComponent`. -/
theorem TickComponent_inv {T : Agent → Int × Int} {s s3 : State}
    (h : TickComponent T s = Except.ok s3) :
    ∃ s1, UpdateAgents T s = Except.ok s1 ∧
      (s.layer.bDebugBuffers = false → s3 = s1) ∧
      (s.layer.bDebugBuffers = true → ∃ s2,
        UpdateTextureFromBuffer s.layer.SourceTexture s.layer.SourceBuffer
          s.layer.SourceBufferLength RegionRef.SourceUpdateRegion s1 = Except.ok s2 ∧
        UpdateTextureFromBuffer s.layer.UpscaleTexture s.layer.UpscaleBuffer
          s.layer.UpscaleBufferLength RegionRef.UpscaleUpdateRegion s2 = Except.ok s3) := by
  unfold TickComponent at h
  cases hrun : UpdateAgents T s with
  | error e => rw [hrun] at h; cases h
  | ok s1 =>
    rw [hrun] at h
    have hl := UpdateAgents_layer hrun
    simp only [hl] at h
    refine ⟨s1, rfl, ?_, ?_⟩
    · intro hdbg
      simp only [hdbg, Bool.false_eq_true, if_false] at h
      exact (Except.ok.inj h).symm
    · intro hdbg
      simp only [hdbg, if_true] at h
      split at h
      · cases h
      · rename_i s2 h2
        have hl2 := UpdateTextureFromBuffer_layer h2
        rw [hl2, hl] at h
        exact ⟨s2, h2, h⟩

/-- One step call keeps both buffer pointers, keeps every live block other
than the source buffer as it is, and keeps every byte of the source buffer or
sets it to `0xFF`. -/
theorem Call.apply_step_kept {c : Call} {s s1 : State} (hc : c.isStep = true)
    (h : c.apply s = Except.ok s1) :
    s1.layer.SourceBuffer = s.layer.SourceBuffer ∧
    s1.layer.UpscaleBuffer = s.layer.UpscaleBuffer ∧
    (∀ q b, s.layer.SourceBuffer ≠ some q → s.world.heap.block q = some b →
      s1.world.heap.block q = some b) ∧
    (∀ p buf, s.layer.SourceBuffer = some p → s.world.heap.bytes p = some buf →
      ∃ buf1, s1.world.heap.bytes p = some buf1 ∧ SourceKept buf buf1) := by
  have hupd : ∀ (T : Agent → Int × Int) (s2 : State), VaFog.UpdateAgents T s = Except.ok s2 →
      s2.layer = s.layer ∧
      s2.world.heap.cells.length = s.world.heap.cells.length ∧
      (∀ q b, s.layer.SourceBuffer ≠ some q → s.world.heap.block q = some b →
        s2.world.heap.block q = some b) ∧
      (∀ p buf, s.layer.SourceBuffer = some p → s.world.heap.bytes p = some buf →
        ∃ buf1, s2.world.heap.bytes p = some buf1 ∧ SourceKept buf buf1) := by
    intro T s2 hrun
    obtain ⟨hl, hblk, hlen, _⟩ := UpdateAgents.loop_frame T _ s s2 hrun
    refine ⟨hl, hlen, ?_, ?_⟩
    · intro q b hne hb
      rw [hblk q hne]; exact hb
    · intro p buf hp hb
      exact UpdateAgents.loop_kept T _ s s2 p buf hp hb hrun
  cases c with
  | InitializeComponent R => cases hc
  | UninitializeComponent b => cases hc
  | renderCommand m => cases hc
  | setDebug a b => cases hc
  | UpdateAgents T =>
    obtain ⟨hl, _, hblk, hk⟩ := hupd T s1 h
    exact ⟨by rw [hl], by rw [hl], hblk, hk⟩
  | AddFogAgent a =>
    cases h
    exact ⟨rfl, rfl, fun q b _ hb => hb, fun p buf _ hb => ⟨buf, hb, SourceKept.refl buf⟩⟩
  | RemoveFogAgent a =>
    cases h
    simp only [VaFog.RemoveFogAgent]
    split <;>
      exact ⟨rfl, rfl, fun q b _ hb => hb, fun p buf _ hb => ⟨buf, hb, SourceKept.refl buf⟩⟩
  | TickComponent T =>
    obtain ⟨s2, hrun, hoff, hon⟩ := TickComponent_inv h
    obtain ⟨hl, hlen, hblk, hk⟩ := hupd T s2 hrun
    cases hdbg : s.layer.bDebugBuffers with
    | false =>
      rw [hoff hdbg]
      exact ⟨by rw [hl], by rw [hl], hblk, hk⟩
    | true =>
      obtain ⟨s3, h3, h4⟩ := hon hdbg
      obtain ⟨hl3, hlen3, hfr3, _⟩ := UpdateTextureFromBuffer_frame h3
      obtain ⟨hl4, _, hfr4, _⟩ := UpdateTextureFromBuffer_frame h4
      have hkeep : ∀ q b, s2.world.heap.block q = some b → s1.world.heap.block q = some b := by
        intro q b hb
        have hq := Heap.block_lt hb
        rw [hfr4 q (by rw [hlen3]; exact Nat.lt_add_right 2 hq), hfr3 q hq]
        exact hb
      refine ⟨by rw [hl4, hl3, hl], by rw [hl4, hl3, hl], ?_, ?_⟩
      · intro q b hne hb
        exact hkeep q b (hblk q b hne hb)
      · intro p buf hp hb
        obtain ⟨buf1, hb1, hk1⟩ := hk p buf hp hb
        refine ⟨buf1, ?_, hk1⟩
        have := hkeep p _ (Heap.block_of_bytes hb1)
        simp only [Heap.bytes, this]

/-- A run of step calls keeps both buffer pointers, keeps every live block
other than the source buffer as it is, and keeps every byte of the source
buffer or sets it to `0xFF`. -/
theorem run_steps_kept (calls : List Call) (s s1 : State)
    (hsteps : ∀ c ∈ calls, c.isStep = true) (h : run calls s = Except.ok s1) :
    s1.layer.SourceBuffer = s.layer.SourceBuffer ∧
    s1.layer.UpscaleBuffer = s.layer.UpscaleBuffer ∧
    (∀ q b, s.layer.SourceBuffer ≠ some q → s.world.heap.block q = some b →
      s1.world.heap.block q = some b) ∧
    (∀ p buf, s.layer.SourceBuffer = some p → s.world.heap.bytes p = some buf →
      ∃ buf1, s1.world.heap.bytes p = some buf1 ∧ SourceKept buf buf1) := by
  induction calls generalizing s with
  | nil =>
    cases h
    exact ⟨rfl, rfl, fun q b _ hb => hb, fun p buf _ hb => ⟨buf, hb, SourceKept.refl buf⟩⟩
  | cons c cs ih =>
    simp only [run] at h
    split at h
    · cases h
    · rename_i s2 h2
      obtain ⟨hsb, hub, hblk, hk⟩ := Call.apply_step_kept (hsteps c (List.mem_cons_self _ _)) h2
      obtain ⟨hsb2, hub2, hblk2, hk2⟩ :=
        ih s2 (fun d hd => hsteps d (List.mem_cons_of_mem _ hd)) h
      refine ⟨by rw [hsb2, hsb], by rw [hub2, hub], ?_, ?_⟩
      · intro q b hne hb
        exact hblk2 q b (by rw [hsb]; exact hne) (hblk q b hne hb)
      · intro p buf hp hb
        obtain ⟨buf1, hb1, hk1⟩ := hk p buf hp hb
        obtain ⟨buf2, hb2, hk12⟩ := hk2 p buf1 (by rw [hsb]; exact hp) hb1
        exact ⟨buf2, hb2, hk1.trans hk12⟩

/-! ## Lemmas: the stamped buffer as a function of the agent cells -/

theorem stamp_cell_iff (T : Agent → Int × Int) (agents : List Agent) (W H : Int)
    (hin : ∀ a ∈ agents, InBounds W H (T a)) (i : Nat) :
    (∃ c ∈ agents.map T, (c.2 * W + c.1).toNat = i) ↔
      ∃ a ∈ agents, (i : Int) = (T a).2 * W + (T a).1 := by
  constructor
  · rintro ⟨c, hc, hci⟩
    obtain ⟨a, ha, rfl⟩ := List.mem_map.mp hc
    obtain ⟨h0, h1, _⟩ := cell_index_bounds (x := (T a).1) (y := (T a).2) (hin a ha)
    exact ⟨a, ha, by omega⟩
  · rintro ⟨a, ha, hai⟩
    exact ⟨T a, List.mem_map_of_mem T ha, by omega⟩

theorem stampAll_congr (W : Int) (buf : List Nat) (cs ds : List (Int × Int))
    (hset : ∀ c, c ∈ cs ↔ c ∈ ds) : stampAll W buf cs = stampAll W buf ds := by
  apply List.ext_getElem?
  intro i
  by_cases hi : i < buf.length
  · rw [stampAll_getElem? W cs buf i hi, stampAll_getElem? W ds buf i hi]
    have hiff : (∃ c ∈ cs, (c.2 * W + c.1).toNat = i) ↔ (∃ c ∈ ds, (c.2 * W + c.1).toNat = i) := by
      constructor
      · rintro ⟨c, hc, h⟩; exact ⟨c, (hset c).mp hc, h⟩
      · rintro ⟨c, hc, h⟩; exact ⟨c, (hset c).mpr hc, h⟩
    by_cases hex : ∃ c ∈ cs, (c.2 * W + c.1).toNat = i
    · rw [if_pos hex, if_pos (hiff.mp hex)]
    · rw [if_neg hex, if_neg (fun h => hex (hiff.mpr h))]
  · rw [List.getElem?_eq_none (by rw [stampAll_length]; omega),
      List.getElem?_eq_none (by rw [stampAll_length]; omega)]

theorem stampAll_idem (W : Int) (buf : List Nat) (cs : List (Int × Int)) :
    stampAll W (stampAll W buf cs) cs = stampAll W buf cs := by
  apply List.ext_getElem?
  intro i
  by_cases hi : i < buf.length
  · rw [stampAll_getElem? W cs (stampAll W buf cs) i (by rw [stampAll_length]; exact hi)]
    by_cases hex : ∃ c ∈ cs, (c.2 * W + c.1).toNat = i
    · rw [if_pos hex, stampAll_getElem? W cs buf i hi, if_pos hex]
    · rw [if_neg hex]
  · rw [List.getElem?_eq_none (by rw [stampAll_length, stampAll_length]; omega),
      List.getElem?_eq_none (by rw [stampAll_length]; omega)]

/-- The two buffer pointers of the state that `InitializeComponent` produces
are the two blocks it appended. -/
theorem initialized_pointers (R : Int) (s : State) :
    (initialized R s).layer.SourceBuffer = some s.world.heap.cells.length ∧
    (initialized R s).layer.UpscaleBuffer = some (s.world.heap.cells.length + 1) := by
  obtain ⟨_, hsb, hub, _⟩ := prepareDebugTextures_keeps (buffersCreated R s)
  exact ⟨hsb, hub⟩

/-! ## Lemmas: the upscale buffer -/

/-- A completed `TickComponent` with presentation enabled, on a layer whose
upscale buffer is a live block other than the source buffer, enqueues last a
command for the upscale region whose snapshot is a copy of the first
`UpscaleBufferLength` bytes of the upscale buffer. -/
theorem TickComponent_upscale_snapshot (T : Agent → Int × Int) (s s3 : State) (q : Ptr)
    (ub : List Nat)
    (hq : s.layer.UpscaleBuffer = some q) (hne : s.layer.SourceBuffer ≠ some q)
    (hub : s.world.heap.bytes q = some ub)
    (hdbg : s.layer.bDebugBuffers = true)
    (h : TickComponent T s = Except.ok s3) :
    ∃ front td d, s3.world.RenderQueue = front ++ [td] ∧
      s3.world.heap.block td = some (Block.textureData d) ∧
      d.Region = RegionRef.UpscaleUpdateRegion ∧
      s3.world.heap.bytes d.SrcData = some (ub.take s.layer.UpscaleBufferLength.toNat) := by
  obtain ⟨s1, hrun, _, hon⟩ := TickComponent_inv h
  obtain ⟨s2, h3, h4⟩ := hon hdbg
  obtain ⟨_, hblk1, hlen1, _⟩ := UpdateAgents.loop_frame T _ s s1 hrun
  obtain ⟨_, _, hfr2, _⟩ := UpdateTextureFromBuffer_frame h3
  have hqlt := Heap.bytes_lt hub
  have hub2 : s2.world.heap.bytes q = some ub := by
    rw [Heap.bytes_congr (hfr2 q (by rw [hlen1]; exact hqlt)),
      Heap.bytes_congr (hblk1 q hne)]
    exact hub
  obtain ⟨t0, q1, sd, ht, hq1, h0, hle, hsd, _⟩ := UpdateTextureFromBuffer_inv h4
  rw [hq] at hq1
  cases hq1
  have hsd2 := hsd (Heap.bytes_lt hub2)
  rw [hub2] at hsd2
  cases hsd2
  rw [ht, hq] at h4
  obtain ⟨s3b, hrun3, _, hqueue, _, _, hblk, hsnap, _⟩ :=
    UpdateTextureFromBuffer_spec s2 t0 q ub s.layer.UpscaleBufferLength
      RegionRef.UpscaleUpdateRegion hub2 h0 (by omega)
  rw [h4] at hrun3
  cases hrun3
  exact ⟨_, _, _, hqueue, hblk, rfl, hsnap⟩

/-! ## Lemmas: teardown -/

/-- What a completed `UninitializeComponent` does to the four resource
members: the two buffer pointers and `SourceTexture` end null, and
`UpscaleTexture` is left as it was. -/
theorem UninitializeComponent_members {c : Bool} {s s1 : State}
    (h : UninitializeComponent c s = Except.ok s1) :
    s1.layer.SourceBuffer = none ∧ s1.layer.UpscaleBuffer = none ∧
    s1.layer.SourceTexture = none ∧ s1.layer.UpscaleTexture = s.layer.UpscaleTexture := by
  unfold UninitializeComponent at h
  simp only at h
  split at h
  · cases h
  · split at h
    · cases h
    · cases hst : s.layer.SourceTexture <;> cases hut : s.layer.UpscaleTexture <;>
        simp only [hst, hut, Option.isSome_none, Option.isSome_some, Bool.false_eq_true,
          if_false, if_true] at h <;>
        cases h <;> exact ⟨rfl, rfl, by first | rfl | exact hst, by first | rfl | exact hut.symm⟩

theorem exampleDebug4_initialized :
    InitializeComponent 4 exampleDebugStart = Except.ok (initialized 4 exampleDebugStart) ∧
    run [Call.AddFogAgent 7] (initialized 4 exampleDebugStart) = Except.ok exampleDebug4 := by
  refine ⟨InitializeComponent_eq 4 exampleDebugStart (by decide) rfl rfl (by decide)
    (by decide), ?_⟩
  set_option maxRecDepth 100000 in
  rfl

/-! ## Theorems -/

/-- C1: on a layer whose source buffer is an allocated `SourceW x SourceH`
block, with every registered agent's grid coordinate in bounds, `UpdateAgents`
completes; the source buffer keeps its length, byte `Y * SourceW + X` is `0xFF`
for every agent coordinate `(X, Y)`, and every other byte keeps its value. -/
theorem C1_UpdateAgents_stamps (T : Agent → Int × Int) (s : State) (buf : List Nat)
    (halloc : SourceAllocated s buf)
    (hin : ∀ a ∈ s.layer.FogAgents, InBounds s.layer.SourceW s.layer.SourceH (T a)) :
    ∃ s1 buf1, UpdateAgents T s = Except.ok s1 ∧ s1.sourceBytes = some buf1 ∧
      buf1.length = buf.length ∧
      (∀ a ∈ s.layer.FogAgents,
        buf1[((T a).2 * s.layer.SourceW + (T a).1).toNat]? = some 255) ∧
      (∀ i : Nat, (∀ a ∈ s.layer.FogAgents,
          ((i : Int) ≠ (T a).2 * s.layer.SourceW + (T a).1)) → buf1[i]? = buf[i]?) := by
  obtain ⟨hsb, hlen, hfit⟩ := halloc
  unfold State.sourceBytes at hsb
  cases hp : s.layer.SourceBuffer with
  | none => simp [hp] at hsb
  | some p =>
    rw [hp] at hsb
    have hb : s.world.heap.bytes p = some buf := hsb
    have hplt := Heap.bytes_lt hb
    refine ⟨_, stampAll s.layer.SourceW buf (s.layer.FogAgents.map T),
      UpdateAgents.loop_eq T s.layer.FogAgents s p buf hp hb hlen hfit hin, ?_,
      stampAll_length _ _ _, ?_, ?_⟩
    · simp only [State.sourceBytes, hp, Option.some_bind]
      exact Heap.bytes_store_same hplt _
    · intro a ha
      obtain ⟨h0, h1, h2⟩ := cell_index_bounds (x := (T a).1) (y := (T a).2) (hin a ha)
      rw [stampAll_getElem? _ _ _ _ (by omega), if_pos]
      exact ⟨T a, List.mem_map_of_mem T ha, rfl⟩
    · intro i hne
      by_cases hi : i < buf.length
      · rw [stampAll_getElem? _ _ _ _ hi, if_neg]
        rintro ⟨c, hc, hci⟩
        obtain ⟨a, ha, rfl⟩ := List.mem_map.mp hc
        obtain ⟨h0, h1, h2⟩ := cell_index_bounds (x := (T a).1) (y := (T a).2) (hin a ha)
        apply hne a ha
        omega
      · rw [List.getElem?_eq_none (by rw [stampAll_length]; omega),
          List.getElem?_eq_none (by omega)]

/-- C1 witness: a zeroed 4x4 buffer with one agent at `(2, 1)`: byte 6 becomes
`0xFF`, the other 15 bytes stay 0. -/
theorem C1_UpdateAgents_stamps_witness :
    SourceAllocated example4 zeros16 ∧
    (∀ a ∈ example4.layer.FogAgents, InBounds 4 4 ((fun _ => ((2 : Int), (1 : Int))) a)) ∧
    ∃ s1 buf1, UpdateAgents (fun _ => (2, 1)) example4 = Except.ok s1 ∧
      s1.sourceBytes = some buf1 ∧ buf1.length = 16 ∧ buf1[6]? = some 255 ∧
      ∀ i : Nat, i ≠ 6 → buf1[i]? = zeros16[i]? := by
  have halloc : SourceAllocated example4 zeros16 := ⟨rfl, by decide, by decide⟩
  have hin : ∀ a ∈ example4.layer.FogAgents,
      InBounds example4.layer.SourceW example4.layer.SourceH
        ((fun _ => ((2 : Int), (1 : Int))) a) := by
    intro a _
    show InBounds 4 4 (2, 1)
    decide
  obtain ⟨s1, buf1, hrun, hbytes, hlen, hstamp, hframe⟩ :=
    C1_UpdateAgents_stamps (fun _ => (2, 1)) example4 zeros16 halloc hin
  refine ⟨halloc, hin, s1, buf1, hrun, hbytes, hlen, hstamp 7 (List.mem_singleton.mpr rfl), ?_⟩
  intro i hi
  apply hframe i
  intro a _
  show (i : Int) ≠ 1 * 4 + 2
  omega

/-- C2: on a layer whose source buffer is allocated, `UpdateAgents` ends in the
failed `check` exactly when some registered agent's grid coordinate lies outside
`[0, SourceW) x [0, SourceH)`; it completes exactly when every coordinate is in
bounds, so an out-of-bounds agent is neither clamped nor skipped, and no other
failure occurs. -/
theorem C2_UpdateAgents_fatal_iff_out_of_bounds (T : Agent → Int × Int) (s : State)
    (buf : List Nat) (halloc : SourceAllocated s buf) :
    (UpdateAgents T s = Except.error Fatal.checkFailed ↔
      ∃ a ∈ s.layer.FogAgents, ¬ InBounds s.layer.SourceW s.layer.SourceH (T a)) ∧
    ((∃ s1, UpdateAgents T s = Except.ok s1) ↔
      ∀ a ∈ s.layer.FogAgents, InBounds s.layer.SourceW s.layer.SourceH (T a)) ∧
    (∀ e, UpdateAgents T s = Except.error e → e = Fatal.checkFailed) := by
  obtain ⟨hsb, hlen, hfit⟩ := halloc
  unfold State.sourceBytes at hsb
  cases hp : s.layer.SourceBuffer with
  | none => simp [hp] at hsb
  | some p =>
    rw [hp] at hsb
    have hb : s.world.heap.bytes p = some buf := hsb
    by_cases hall : ∀ a ∈ s.layer.FogAgents, InBounds s.layer.SourceW s.layer.SourceH (T a)
    · have hok := UpdateAgents.loop_eq T s.layer.FogAgents s p buf hp hb hlen hfit hall
      have hnot : ¬ ∃ a ∈ s.layer.FogAgents,
          ¬ InBounds s.layer.SourceW s.layer.SourceH (T a) := by
        rintro ⟨a, ha, hout⟩
        exact hout (hall a ha)
      unfold UpdateAgents
      rw [hok]
      refine ⟨⟨fun h => (by cases h), fun h => absurd h hnot⟩,
        ⟨fun _ => hall, fun _ => ⟨_, rfl⟩⟩, fun e h => (by cases h)⟩
    · have hout : ∃ a ∈ s.layer.FogAgents,
          ¬ InBounds s.layer.SourceW s.layer.SourceH (T a) := by
        by_contra hcon
        apply hall
        intro a ha
        by_contra hna
        exact hcon ⟨a, ha, hna⟩
      have herr := UpdateAgents.loop_checkFailed T s.layer.FogAgents s p buf hp hb hlen hfit hout
      unfold UpdateAgents
      rw [herr]
      refine ⟨⟨fun _ => hout, fun _ => rfl⟩,
        ⟨fun h => (by obtain ⟨s1, h1⟩ := h; cases h1), fun h => absurd h hall⟩,
        fun e h => (by cases h; rfl)⟩

/-- C2 witness: on the 4x4 example layer an agent at `(4, 1)` ends the step in
the failed `check`. -/
theorem C2_UpdateAgents_fatal_iff_out_of_bounds_witness :
    SourceAllocated example4 zeros16 ∧
    UpdateAgents (fun _ => (4, 1)) example4 = Except.error Fatal.checkFailed := by
  have halloc : SourceAllocated example4 zeros16 := ⟨rfl, by decide, by decide⟩
  refine ⟨halloc, ?_⟩
  apply (C2_UpdateAgents_fatal_iff_out_of_bounds (fun _ => (4, 1)) example4 zeros16 halloc).1.mpr
  refine ⟨7, List.mem_singleton.mpr rfl, ?_⟩
  show ¬ InBounds 4 4 (4, 1)
  decide

/-- C3: `UpdateTextureFromBuffer` on a live buffer `p` of at least
`SrcBufferLength` bytes enqueues a command whose `SrcData` is a fresh block,
distinct from `p`, of exactly `SrcBufferLength` bytes equal to those of `p` at
call time; `p` itself is unchanged by the call.  Any later write into `p`, and
any later `UpdateAgents` step when `p` is the source buffer, leaves the bytes of
that snapshot unchanged. -/
theorem C3_snapshot_independent (s : State) (t : Nat) (p : Ptr) (d : List Nat)
    (SrcBufferLength : Int) (reg : RegionRef)
    (hb : s.world.heap.bytes p = some d)
    (h0 : 0 ≤ SrcBufferLength) (hle : SrcBufferLength ≤ d.length) :
    ∃ s1 snap td cmd,
      UpdateTextureFromBuffer (some t) (some p) SrcBufferLength reg s = Except.ok s1 ∧
      s1.world.RenderQueue = s.world.RenderQueue ++ [td] ∧
      s1.world.heap.block td = some (Block.textureData cmd) ∧ cmd.SrcData = snap ∧
      snap ≠ p ∧ s.world.heap.block snap = none ∧
      s1.world.heap.bytes snap = some (d.take SrcBufferLength.toNat) ∧
      ((d.take SrcBufferLength.toNat).length : Int) = SrcBufferLength ∧
      s1.world.heap.bytes p = some d ∧
      (∀ i v h2, s1.world.heap.writeByte (some p) i v = Except.ok h2 →
        h2.bytes snap = some (d.take SrcBufferLength.toNat)) ∧
      (s.layer.SourceBuffer = some p → ∀ T s2, UpdateAgents T s1 = Except.ok s2 →
        s2.world.heap.bytes snap = some (d.take SrcBufferLength.toNat)) := by
  have hplt := Heap.bytes_lt hb
  have hne : s.world.heap.cells.length ≠ p := Nat.ne_of_gt hplt
  have hsnap : (Heap.mk (s.world.heap.cells ++ [some (Block.bytes (d.take SrcBufferLength.toNat))] ++
      [some (Block.textureData
        { Texture2DResource := t, Region := reg, SrcPitch := (s.region reg).Width,
          SrcData := s.world.heap.cells.length })]) s.world.heap.uninit).bytes
      s.world.heap.cells.length = some (d.take SrcBufferLength.toNat) := by
    rw [Heap.bytes_append_old _ _ _ (by simp)]
    simp [Heap.bytes, Heap.block_append_new]
  refine ⟨_, s.world.heap.cells.length, s.world.heap.cells.length + 1,
    { Texture2DResource := t, Region := reg, SrcPitch := (s.region reg).Width,
      SrcData := s.world.heap.cells.length },
    UpdateTextureFromBuffer_eq s t p d SrcBufferLength reg hb h0 hle, rfl, ?_, rfl, hne,
    Heap.block_fresh _, hsnap, ?_, ?_, ?_, ?_⟩
  · have := Heap.block_append_new
      (s.world.heap.cells ++ [some (Block.bytes (d.take SrcBufferLength.toNat))])
      s.world.heap.uninit (some (Block.textureData
        { Texture2DResource := t, Region := reg, SrcPitch := (s.region reg).Width,
          SrcData := s.world.heap.cells.length }))
    simpa using this
  · rw [List.length_take]
    omega
  · show (Heap.mk _ _).bytes p = some d
    rw [Heap.bytes_append_old _ _ _ (Nat.lt_of_lt_of_le hplt (by simp)),
      Heap.bytes_append_old _ _ _ hplt]
    exact hb
  · intro i v h2 hw
    obtain ⟨q, d2, hq, _, rfl⟩ := Heap.writeByte_ok hw
    cases hq
    rw [Heap.bytes_store_other (fun h => hne h.symm)]
    exact hsnap
  · intro hsrc T s2 hrun
    obtain ⟨_, hblk, _⟩ := UpdateAgents.loop_frame T _ _ s2 hrun
    have hq : s.layer.SourceBuffer ≠ some s.world.heap.cells.length := by
      rw [hsrc]
      intro h
      exact hne (Option.some.inj h).symm
    have := hblk s.world.heap.cells.length hq
    unfold Heap.bytes
    rw [this]
    exact hsnap

/-- C3 witness: a snapshot of the zeroed 4x4 example buffer stays all zero
through a later `UpdateAgents` step that stamps the source buffer. -/
theorem C3_snapshot_independent_witness :
    example4.world.heap.bytes 0 = some zeros16 ∧ (0 : Int) ≤ 16 ∧
    (16 : Int) ≤ zeros16.length ∧
    ∃ s1 snap, UpdateTextureFromBuffer (some 0) (some 0) 16 RegionRef.SourceUpdateRegion
        example4 = Except.ok s1 ∧
      snap ≠ 0 ∧ s1.world.heap.bytes snap = some zeros16 ∧
      ∀ T s2, UpdateAgents T s1 = Except.ok s2 → s2.world.heap.bytes snap = some zeros16 := by
  have hb : example4.world.heap.bytes 0 = some zeros16 := rfl
  have h0 : (0 : Int) ≤ 16 := by decide
  have hle : (16 : Int) ≤ zeros16.length := by decide
  obtain ⟨s1, snap, td, cmd, hrun, _, _, _, hne, _, hsnap, _, _, _, hlater⟩ :=
    C3_snapshot_independent example4 0 0 zeros16 16 RegionRef.SourceUpdateRegion hb h0 hle
  have htake : zeros16.take (16 : Int).toNat = zeros16 := by decide
  rw [htake] at hsnap hlater
  exact ⟨hb, h0, hle, s1, snap, hrun, hne, hsnap, hlater rfl⟩

/-- C4: `AddFogAgent` is an idempotent set-insert.  Adding a registered agent
leaves the whole state unchanged; adding an absent agent appends it once at the
end; adding twice is the same as adding once; every registry reached from the
constructed component by any sequence of calls holds each agent at most once;
and adding the same agent twice to the empty registry leaves exactly `[a]`. -/
theorem C4_AddFogAgent_idempotent_set_insert :
    (∀ (s : State) (a : Agent), a ∈ s.layer.FogAgents → AddFogAgent a s = s) ∧
    (∀ (s : State) (a : Agent), a ∉ s.layer.FogAgents →
      AddFogAgent a s = { s with layer := { s.layer with
        FogAgents := s.layer.FogAgents ++ [a] } }) ∧
    (∀ (s : State) (a : Agent), AddFogAgent a (AddFogAgent a s) = AddFogAgent a s) ∧
    (∀ (uninit : Nat) (calls : List Call) (s : State),
      run calls (State.initial uninit) = Except.ok s →
        s.layer.FogAgents.Nodup ∧ ∀ a, s.layer.FogAgents.count a ≤ 1) ∧
    (∀ (uninit : Nat) (a : Agent),
      (AddFogAgent a (AddFogAgent a (State.initial uninit))).layer.FogAgents = [a]) := by
  refine ⟨?_, ?_, ?_, ?_, ?_⟩
  · intro s a h
    simp only [AddFogAgent, TArray.AddUnique_of_mem h]
  · intro s a h
    simp only [AddFogAgent, TArray.AddUnique_of_not_mem h]
  · intro s a
    have hmem : a ∈ TArray.AddUnique s.layer.FogAgents a := by
      unfold TArray.AddUnique
      split
      · assumption
      · simp
    simp only [AddFogAgent, TArray.AddUnique_of_mem hmem]
  · intro uninit calls s h
    have hnd := run_registry_nodup calls (State.initial uninit) s List.nodup_nil h
    exact ⟨hnd, fun a => List.nodup_iff_count_le_one.mp hnd a⟩
  · intro uninit a
    simp [AddFogAgent, TArray.AddUnique, State.initial, UVaFogLayerComponent.construct]

/-- C4 witness: after initialisation, two `AddFogAgent 7` calls, a tick and one
more `AddFogAgent 7`, the registry is `[7]`, without a duplicate. -/
theorem C4_AddFogAgent_idempotent_set_insert_witness :
    ∃ s, run [Call.InitializeComponent 4, Call.AddFogAgent 7, Call.AddFogAgent 7,
        Call.TickComponent (fun _ => (2, 1)), Call.AddFogAgent 7]
        (State.initial 205) = Except.ok s ∧
      s.layer.FogAgents = [7] ∧ s.layer.FogAgents.Nodup := by
  have hreg : (run [Call.InitializeComponent 4, Call.AddFogAgent 7, Call.AddFogAgent 7,
      Call.TickComponent (fun _ => (2, 1)), Call.AddFogAgent 7]
      (State.initial 205)).map (fun s => s.layer.FogAgents) = Except.ok [7] := by
    set_option maxRecDepth 100000 in
    rfl
  cases hrun : run [Call.InitializeComponent 4, Call.AddFogAgent 7, Call.AddFogAgent 7,
      Call.TickComponent (fun _ => (2, 1)), Call.AddFogAgent 7] (State.initial 205) with
  | error e => rw [hrun] at hreg; cases hreg
  | ok s =>
    rw [hrun] at hreg
    exact ⟨s, rfl, Except.ok.inj hreg,
      (C4_AddFogAgent_idempotent_set_insert.2.2.2.1 205 _ s hrun).1⟩

/-- C5: `RemoveFogAgent` on an agent that is not registered changes nothing but
the error log, to which it appends exactly one entry; it is a total function,
so the call returns.  On a registered agent it leaves the whole world, the
error log included, unchanged. -/
theorem C5_RemoveFogAgent_absent_logs_once :
    (∀ (s : State) (a : Agent), a ∉ s.layer.FogAgents →
      RemoveFogAgent a s = { s with world := { s.world with
        ErrorLog := s.world.ErrorLog ++ [a] } }) ∧
    (∀ (s : State) (a : Agent), a ∉ s.layer.FogAgents →
      (RemoveFogAgent a s).layer.FogAgents = s.layer.FogAgents ∧
      (RemoveFogAgent a s).layer.FogAgents.length = s.layer.FogAgents.length ∧
      (RemoveFogAgent a s).world.ErrorLog.length = s.world.ErrorLog.length + 1) ∧
    (∀ (s : State) (a : Agent), a ∈ s.layer.FogAgents →
      (RemoveFogAgent a s).world = s.world) := by
  have h1 : ∀ (s : State) (a : Agent), a ∉ s.layer.FogAgents →
      RemoveFogAgent a s = { s with world := { s.world with
        ErrorLog := s.world.ErrorLog ++ [a] } } := by
    intro s a h
    simp only [RemoveFogAgent, TArray.Remove_of_not_mem h, if_true]
  refine ⟨h1, ?_, ?_⟩
  · intro s a h
    rw [h1 s a h]
    simp
  · intro s a h
    simp only [RemoveFogAgent, if_neg (TArray.Remove_snd_ne_zero h)]

/-- C5 witness: on the example layer, whose registry is `[7]`, removing agent
`9` appends one log entry and keeps the registry; removing agent `7` logs
nothing. -/
theorem C5_RemoveFogAgent_absent_logs_once_witness :
    (RemoveFogAgent 9 example4).layer.FogAgents = [7] ∧
    (RemoveFogAgent 9 example4).world.ErrorLog = [9] ∧
    (RemoveFogAgent 7 example4).world.ErrorLog = [] := by
  have h9 : (9 : Agent) ∉ example4.layer.FogAgents := by decide
  have h7 : (7 : Agent) ∈ example4.layer.FogAgents := by decide
  refine ⟨?_, ?_, ?_⟩
  · rw [C5_RemoveFogAgent_absent_logs_once.1 example4 9 h9]
    rfl
  · rw [C5_RemoveFogAgent_absent_logs_once.1 example4 9 h9]
    rfl
  · rw [C5_RemoveFogAgent_absent_logs_once.2.2 example4 7 h7]
    rfl

/-- C6: after `RemoveFogAgent a` the agent `a` is not registered and the
registry is the old one with the entries of `a` dropped, so every other agent
is still present, in the same relative order.  `AddFogAgent` of an absent agent
appends at the end.  Hence after any run from the constructed component the
registry, which is what the loop of `UpdateAgents` iterates, lists the agents
in the order of the calls that inserted them. -/
theorem C6_registry_insertion_order :
    (∀ (s : State) (a : Agent),
      a ∉ (RemoveFogAgent a s).layer.FogAgents ∧
      (RemoveFogAgent a s).layer.FogAgents = s.layer.FogAgents.filter (fun x => x != a) ∧
      List.Sublist (RemoveFogAgent a s).layer.FogAgents s.layer.FogAgents ∧
      ∀ b, b ≠ a →
        (RemoveFogAgent a s).layer.FogAgents.count b = s.layer.FogAgents.count b) ∧
    (∀ (s : State) (a : Agent), a ∉ s.layer.FogAgents →
      (AddFogAgent a s).layer.FogAgents = s.layer.FogAgents ++ [a]) ∧
    (∀ (uninit : Nat) (calls : List Call) (s : State),
      run calls (State.initial uninit) = Except.ok s →
        s.layer.FogAgents = (insertionLog 0 calls []).map Prod.fst ∧
        (insertionLog 0 calls []).Pairwise (fun x y => x.2 < y.2)) := by
  refine ⟨?_, ?_, ?_⟩
  · intro s a
    have hreg : (RemoveFogAgent a s).layer.FogAgents =
        s.layer.FogAgents.filter (fun x => x != a) := by
      simp only [RemoveFogAgent]
      split <;> rfl
    rw [hreg]
    refine ⟨?_, rfl, List.filter_sublist _, ?_⟩
    · simp [List.mem_filter]
    · intro b hb
      rw [List.count_filter]
      simpa using hb
  · intro s a h
    simp only [AddFogAgent, TArray.AddUnique_of_not_mem h]
  · intro uninit calls s h
    exact run_insertionLog calls 0 [] (State.initial uninit) s rfl List.Pairwise.nil
      (fun x hx => by cases hx) h

/-- C6 witness: adding 7, 8, 9, removing 8 and adding 8 again leaves the
registry `[7, 9, 8]`, the order of the insertions at calls 0, 2 and 4. -/
theorem C6_registry_insertion_order_witness :
    ∃ s, run [Call.AddFogAgent 7, Call.AddFogAgent 8, Call.AddFogAgent 9,
        Call.RemoveFogAgent 8, Call.AddFogAgent 8] (State.initial 205) = Except.ok s ∧
      s.layer.FogAgents = [7, 9, 8] ∧
      insertionLog 0 [Call.AddFogAgent 7, Call.AddFogAgent 8, Call.AddFogAgent 9,
        Call.RemoveFogAgent 8, Call.AddFogAgent 8] [] = [(7, 0), (9, 2), (8, 4)] := by
  have hlog : insertionLog 0 [Call.AddFogAgent 7, Call.AddFogAgent 8, Call.AddFogAgent 9,
      Call.RemoveFogAgent 8, Call.AddFogAgent 8] [] = [(7, 0), (9, 2), (8, 4)] := by
    decide
  refine ⟨_, rfl, ?_, hlog⟩
  rw [(C6_registry_insertion_order.2.2 205 [Call.AddFogAgent 7, Call.AddFogAgent 8,
    Call.AddFogAgent 9, Call.RemoveFogAgent 8, Call.AddFogAgent 8] _ rfl).1, hlog]
  rfl

/-- C7 (as stated, refuted): with resolution 65536, which passes the
power-of-two check, `InitializeComponent` completes and the source buffer has
length 0, not `SourceW * SourceH = 65536 * 65536`. -/
theorem C7_counterexample_source_length_wraps :
    ∃ s1 src, InitializeComponent 65536 (State.initial 205) = Except.ok s1 ∧
      s1.sourceBytes = some src ∧ src.length = 0 ∧
      s1.layer.SourceW * s1.layer.SourceH = 4294967296 ∧
      (src.length : Int) ≠ s1.layer.SourceW * s1.layer.SourceH := by
  have hrun := InitializeComponent_eq 65536 (State.initial 205) (by decide) rfl rfl
    (by decide) (by decide)
  obtain ⟨hsw, hsh, _, _, _, _, hsrc, _⟩ := initialized_buffers 65536 (State.initial 205)
  refine ⟨_, _, hrun, hsrc, ?_, ?_, ?_⟩
  · rw [List.length_replicate]
    decide
  · rw [hsw, hsh]
    decide
  · rw [hsw, hsh, List.length_replicate]
    decide

/-- C7 (amended): after a successful `InitializeComponent R`, `SourceW = SourceH = R`,
both buffers are live blocks, the source buffer's length is the `int32` product
`SourceW * SourceH` and the upscale buffer's length the `int32` product
`UpscaleW * UpscaleH`, the recorded `SourceBufferLength` and
`UpscaleBufferLength` equal those lengths, and every byte of both buffers is 0.
Whenever a product fits in an `int32`, the length is that product itself. -/
theorem C7_InitializeComponent_buffers_zeroed (R : Int) (s s1 : State)
    (h : InitializeComponent R s = Except.ok s1) :
    s1.layer.SourceW = R ∧ s1.layer.SourceH = R ∧
    ∃ src up, s1.sourceBytes = some src ∧ s1.upscaleBytes = some up ∧
      (src.length : Int) = mul32 s1.layer.SourceW s1.layer.SourceH ∧
      (up.length : Int) = mul32 s1.layer.UpscaleW s1.layer.UpscaleH ∧
      s1.layer.SourceBufferLength = src.length ∧
      s1.layer.UpscaleBufferLength = up.length ∧
      (∀ b ∈ src, b = 0) ∧ (∀ b ∈ up, b = 0) ∧
      (s1.layer.SourceW * s1.layer.SourceH < 2147483648 →
        (src.length : Int) = s1.layer.SourceW * s1.layer.SourceH ∧ (src.length : Int) = R * R) ∧
      (s1.layer.UpscaleW * s1.layer.UpscaleH < 2147483648 →
        (up.length : Int) = s1.layer.UpscaleW * s1.layer.UpscaleH) := by
  obtain ⟨_, _, _, hn, hm, rfl⟩ := (InitializeComponent_ok_iff R s s1).mp h
  obtain ⟨hsw, hsh, huw, huh, hsl, hul, hsrc, hup⟩ := initialized_buffers R s
  have hlen1 : ((List.replicate (mul32 R R).toNat 0).length : Int) = mul32 R R := by
    rw [List.length_replicate]; omega
  have hlen2 : ((List.replicate (mul32 (mul32 R 4) (mul32 R 4)).toNat 0).length : Int) =
      mul32 (mul32 R 4) (mul32 R 4) := by
    rw [List.length_replicate]; omega
  refine ⟨hsw, hsh, _, _, hsrc, hup, ?_, ?_, ?_, ?_, ?_, ?_, ?_, ?_⟩
  · rw [hsw, hsh]; exact hlen1
  · rw [huw, huh]; exact hlen2
  · rw [hsl]; exact hlen1.symm
  · rw [hul]; exact hlen2.symm
  · intro b hb; exact List.eq_of_mem_replicate hb
  · intro b hb; exact List.eq_of_mem_replicate hb
  · rw [hsw, hsh, hlen1]
    intro hfit
    have hnn : 0 ≤ R * R := mul_self_nonneg R
    have : mul32 R R = R * R := wrap32_eq_self ⟨by omega, hfit⟩
    exact ⟨this, this⟩
  · rw [huw, huh, hlen2]
    intro hfit
    have hnn : 0 ≤ mul32 R 4 * mul32 R 4 := mul_self_nonneg _
    exact wrap32_eq_self ⟨by omega, hfit⟩

/-- C7 witness: resolution 4 gives a source buffer of 16 zero bytes and an
upscale buffer of 256 zero bytes. -/
theorem C7_InitializeComponent_buffers_zeroed_witness :
    InitializeComponent 4 (State.initial 205) = Except.ok (initialized 4 (State.initial 205)) ∧
    ∃ src up, (initialized 4 (State.initial 205)).sourceBytes = some src ∧
      (initialized 4 (State.initial 205)).upscaleBytes = some up ∧
      (src.length : Int) = 16 ∧ (up.length : Int) = 256 ∧
      (∀ b ∈ src, b = 0) ∧ (∀ b ∈ up, b = 0) := by
  have hrun := InitializeComponent_eq 4 (State.initial 205) (by decide) rfl rfl
    (by decide) (by decide)
  obtain ⟨hsw, hsh, src, up, hsrc, hup, hl1, hl2, _, _, hz1, hz2, _, _⟩ :=
    C7_InitializeComponent_buffers_zeroed 4 (State.initial 205) _ hrun
  obtain ⟨_, _, huw, huh, _⟩ := initialized_buffers 4 (State.initial 205)
  refine ⟨hrun, src, up, hsrc, hup, ?_, ?_, hz1, hz2⟩
  · rw [hl1, hsw, hsh]; decide
  · rw [hl2, huw, huh]; decide

/-- C8 (as stated, refuted): resolution `2^29` passes the power-of-two check,
`InitializeComponent` completes, and `UpscaleW` is `-2^31`: not `4 * SourceW`
and not a power of two. -/
theorem C8_counterexample_upscale_wraps :
    IsPowerOfTwo 536870912 = true ∧
    ∃ s1, InitializeComponent 536870912 (State.initial 205) = Except.ok s1 ∧
      s1.layer.SourceW = 536870912 ∧ s1.layer.UpscaleW = -2147483648 ∧
      s1.layer.UpscaleW ≠ 4 * s1.layer.SourceW ∧
      ¬ ∃ k : Nat, s1.layer.UpscaleW = 2 ^ k := by
  have hrun := InitializeComponent_eq 536870912 (State.initial 205) (by decide) rfl rfl
    (by decide) (by decide)
  obtain ⟨hsw, _, huw, _⟩ := initialized_buffers 536870912 (State.initial 205)
  have hu : mul32 536870912 4 = -2147483648 := by decide
  refine ⟨by decide, _, hrun, hsw, by rw [huw, hu], ?_, ?_⟩
  · rw [huw, hsw, hu]; decide
  · rw [huw, hu]
    rintro ⟨k, hk⟩
    have hpos : (0 : Int) < 2 ^ k := by positivity
    omega

/-- C8 (amended): for every accepted resolution `R` with `0 < R < 2^29`, the
initialised layer has `UpscaleW = 4 * SourceW` and `UpscaleH = 4 * SourceH` as
integers, and all four dimensions are powers of two. -/
theorem C8_upscale_is_four_times_source (R : Int) (s s1 : State)
    (h : InitializeComponent R s = Except.ok s1) (hpos : 0 < R) (hlt : R < 536870912) :
    s1.layer.UpscaleW = 4 * s1.layer.SourceW ∧ s1.layer.UpscaleH = 4 * s1.layer.SourceH ∧
    (∃ k : Nat, s1.layer.SourceW = 2 ^ k) ∧ (∃ k : Nat, s1.layer.SourceH = 2 ^ k) ∧
    (∃ k : Nat, s1.layer.UpscaleW = 2 ^ k) ∧ (∃ k : Nat, s1.layer.UpscaleH = 2 ^ k) := by
  obtain ⟨hpow, _, _, _, _, rfl⟩ := (InitializeComponent_ok_iff R s s1).mp h
  obtain ⟨hsw, hsh, huw, huh, _⟩ := initialized_buffers R s
  have h4 : mul32 R 4 = 4 * R := by
    unfold mul32
    rw [wrap32_eq_self ⟨by omega, by omega⟩]
    ring
  have h32 : InInt32 R := ⟨by omega, by omega⟩
  have hk : ∃ k : Nat, R = 2 ^ k := by
    rcases IsPowerOfTwo_cases h32 hpow with h0 | hmin | ⟨k, _, hk⟩
    · omega
    · omega
    · exact ⟨k, hk⟩
  have hk4 : ∃ k : Nat, 4 * R = 2 ^ k := by
    obtain ⟨k, hk⟩ := hk
    exact ⟨k + 2, by rw [hk]; ring⟩
  rw [hsw, hsh, huw, huh, h4]
  exact ⟨rfl, rfl, hk, hk, hk4, hk4⟩

/-- C8 witness: the source sizes 2, 4, 8 and 16 give upscale sizes 8, 16, 32
and 64. -/
theorem C8_upscale_is_four_times_source_witness :
    (initialized 2 (State.initial 205)).layer.UpscaleW =
      4 * (initialized 2 (State.initial 205)).layer.SourceW ∧
    (initialized 4 (State.initial 205)).layer.UpscaleW =
      4 * (initialized 4 (State.initial 205)).layer.SourceW ∧
    (initialized 8 (State.initial 205)).layer.UpscaleW =
      4 * (initialized 8 (State.initial 205)).layer.SourceW ∧
    (initialized 16 (State.initial 205)).layer.UpscaleW =
      4 * (initialized 16 (State.initial 205)).layer.SourceW ∧
    (initialized 16 (State.initial 205)).layer.UpscaleW = 64 := by
  have run2 := InitializeComponent_eq 2 (State.initial 205) (by decide) rfl rfl
    (by decide) (by decide)
  have run4 := InitializeComponent_eq 4 (State.initial 205) (by decide) rfl rfl
    (by decide) (by decide)
  have run8 := InitializeComponent_eq 8 (State.initial 205) (by decide) rfl rfl
    (by decide) (by decide)
  have run16 := InitializeComponent_eq 16 (State.initial 205) (by decide) rfl rfl
    (by decide) (by decide)
  refine ⟨(C8_upscale_is_four_times_source 2 _ _ run2 (by decide) (by decide)).1,
    (C8_upscale_is_four_times_source 4 _ _ run4 (by decide) (by decide)).1,
    (C8_upscale_is_four_times_source 8 _ _ run8 (by decide) (by decide)).1,
    (C8_upscale_is_four_times_source 16 _ _ run16 (by decide) (by decide)).1, ?_⟩
  rw [(initialized_buffers 16 (State.initial 205)).2.2.1]
  decide

/-- C9 (as stated, refuted): with resolution 65536 the product
`SourceW * SourceH = 2^32` overflows an `int32`, yet `InitializeComponent`
completes, with a source buffer of the wrapped-around length 0. -/
theorem C9_counterexample_overflow_not_detected :
    (2147483648 : Int) ≤ 65536 * 65536 ∧
    InitializeComponent 65536 (State.initial 205) =
      Except.ok (initialized 65536 (State.initial 205)) ∧
    (initialized 65536 (State.initial 205)).sourceBytes = some [] ∧
    (initialized 65536 (State.initial 205)).layer.SourceBufferLength = 0 := by
  have hrun := InitializeComponent_eq 65536 (State.initial 205) (by decide) rfl rfl
    (by decide) (by decide)
  obtain ⟨_, _, _, _, hsl, _, hsrc, _⟩ := initialized_buffers 65536 (State.initial 205)
  refine ⟨by decide, hrun, ?_, ?_⟩
  · rw [hsrc]
    have : (mul32 65536 65536).toNat = 0 := by decide
    rw [this]
    rfl
  · rw [hsl]
    decide

/-- C9 (amended): `InitializeComponent` does not detect overflow of `w * h`;
each length is the product taken in `int32`.  Whenever it completes with an
`int32` resolution, a source buffer whose product `SourceW * SourceH` overflows
has the wrapped-around length 0, and so has an upscale buffer whose product
`(4 * resolution) * (4 * resolution)` overflows.  With presentation disabled,
on a layer without buffers, it does complete for every accepted resolution of
65536 or more, with two buffers of length 0 and no texture created. -/
theorem C9_overflow_gives_wrapped_length :
    (∀ (R : Int) (s s1 : State), InInt32 R → InitializeComponent R s = Except.ok s1 →
      (2147483648 ≤ R * R →
        s1.sourceBytes = some [] ∧ s1.layer.SourceBufferLength = 0) ∧
      (2147483648 ≤ (4 * R) * (4 * R) →
        s1.upscaleBytes = some [] ∧ s1.layer.UpscaleBufferLength = 0)) ∧
    (∀ (R : Int) (s : State), InInt32 R → IsPowerOfTwo R = true → 65536 ≤ R →
      s.layer.SourceBuffer = none → s.layer.UpscaleBuffer = none →
      s.layer.bDebugBuffers = false →
      ∃ s1, InitializeComponent R s = Except.ok s1 ∧
        s1.sourceBytes = some [] ∧ s1.upscaleBytes = some [] ∧
        s1.world.Textures = s.world.Textures) := by
  have hwrapped : ∀ (R : Int) (s : State), InInt32 R → IsPowerOfTwo R = true →
      (2147483648 ≤ R * R →
        (initialized R s).sourceBytes = some [] ∧
        (initialized R s).layer.SourceBufferLength = 0) ∧
      (2147483648 ≤ (4 * R) * (4 * R) →
        (initialized R s).upscaleBytes = some [] ∧
        (initialized R s).layer.UpscaleBufferLength = 0) := by
    intro R s h32 hpow
    obtain ⟨h1, h2⟩ := acceptedResolutions_overflow_wraps_to_zero R
      ((IsPowerOfTwo_iff_mem h32).mp hpow)
    obtain ⟨_, _, _, _, hsl, hul, hsrc, hup⟩ := initialized_buffers R s
    refine ⟨fun h => ?_, fun h => ?_⟩
    · rw [hsrc, hsl, h1 h]
      exact ⟨rfl, rfl⟩
    · rw [hup, hul, h2 h]
      exact ⟨rfl, rfl⟩
  refine ⟨?_, ?_⟩
  · intro R s s1 h32 hrun
    obtain ⟨hpow, _, _, _, _, rfl⟩ := (InitializeComponent_ok_iff R s s1).mp hrun
    exact hwrapped R s h32 hpow
  · intro R s h32 hpow hbig hsrc hup hdbg
    obtain ⟨hn, hm⟩ := acceptedResolutions_lengths_nonneg R ((IsPowerOfTwo_iff_mem h32).mp hpow)
    obtain ⟨h1, h2⟩ := hwrapped R s h32 hpow
    have hsq : 2147483648 ≤ R * R := by nlinarith
    have hsq4 : 2147483648 ≤ (4 * R) * (4 * R) := by nlinarith
    refine ⟨initialized R s, InitializeComponent_eq R s hpow hsrc hup hn hm, (h1 hsq).1,
      (h2 hsq4).1, ?_⟩
    have hkeep : prepareDebugTextures (buffersCreated R s) = buffersCreated R s := by
      unfold prepareDebugTextures
      have hflag : (buffersCreated R s).layer.bDebugBuffers = false := hdbg
      simp only [hflag, Bool.false_eq_true, if_false]
    show (prepareDebugTextures (buffersCreated R s)).world.Textures = s.world.Textures
    rw [hkeep]
    rfl

/-- C9 witness: with resolution 65536 on the constructed component, where
presentation is disabled, both products overflow; initialisation completes and
both buffers have length 0. -/
theorem C9_overflow_gives_wrapped_length_witness :
    InInt32 65536 ∧ IsPowerOfTwo 65536 = true ∧
    (2147483648 : Int) ≤ 65536 * 65536 ∧
    ∃ s1, InitializeComponent 65536 (State.initial 205) = Except.ok s1 ∧
      s1.sourceBytes = some [] ∧ s1.upscaleBytes = some [] ∧
      s1.layer.SourceBufferLength = 0 ∧ s1.layer.UpscaleBufferLength = 0 := by
  have h32 : InInt32 65536 := by decide
  have hpow : IsPowerOfTwo 65536 = true := by decide
  obtain ⟨s1, hrun, hsrc, hup, _⟩ :=
    C9_overflow_gives_wrapped_length.2 65536 (State.initial 205) h32 hpow (by decide)
      rfl rfl rfl
  obtain ⟨hs, hu⟩ :=
    C9_overflow_gives_wrapped_length.1 65536 (State.initial 205) s1 h32 hrun
  exact ⟨h32, hpow, by decide, s1, hrun, hsrc, hup, (hs (by decide)).2, (hu (by decide)).2⟩

/-- C11: `InitializeComponent` on a layer whose source buffer is allocated ends
in the failed `check(!SourceBuffer)`, for every resolution, and so does
`InitializeComponent` with an `int32` resolution on a layer whose upscale
buffer is allocated; a failed call leaves no new state.  Hence in every
completed run that starts from an allocated layer and contains no
`UninitializeComponent`, both buffer pointers are the ones it started with and
no `InitializeComponent` call occurs: the buffers are allocated once. -/
theorem C11_double_initialization_fatal :
    (∀ (R : Int) (s : State), s.layer.SourceBuffer.isSome = true →
      InitializeComponent R s = Except.error Fatal.checkFailed) ∧
    (∀ (R : Int) (s : State), InInt32 R → s.layer.UpscaleBuffer.isSome = true →
      InitializeComponent R s = Except.error Fatal.checkFailed) ∧
    (∀ (calls : List Call) (s s1 : State), s.layer.SourceBuffer.isSome = true →
      (∀ c ∈ calls, c.isUninitialize = false) → run calls s = Except.ok s1 →
        s1.layer.SourceBuffer = s.layer.SourceBuffer ∧
        s1.layer.UpscaleBuffer = s.layer.UpscaleBuffer ∧
        ∀ c ∈ calls, c.isInitialize = false) :=
  ⟨InitializeComponent_source_allocated, InitializeComponent_upscale_allocated,
    run_allocated_once⟩

/-- C11 witness: after `InitializeComponent 4` a second `InitializeComponent`
ends in the failed `check`, and so does one on the example layer, whose source
buffer is allocated. -/
theorem C11_double_initialization_fatal_witness :
    InitializeComponent 4 (State.initial 205) =
      Except.ok (initialized 4 (State.initial 205)) ∧
    (initialized 4 (State.initial 205)).layer.SourceBuffer = some 0 ∧
    InitializeComponent 4 (initialized 4 (State.initial 205)) =
      Except.error Fatal.checkFailed ∧
    InitializeComponent 8 example4 = Except.error Fatal.checkFailed := by
  have hrun := InitializeComponent_eq 4 (State.initial 205) (by decide) rfl rfl
    (by decide) (by decide)
  have hsb : (initialized 4 (State.initial 205)).layer.SourceBuffer = some 0 :=
    (prepareDebugTextures_keeps (buffersCreated 4 (State.initial 205))).2.1
  refine ⟨hrun, hsb, ?_, ?_⟩
  · exact C11_double_initialization_fatal.1 4 _ (by rw [hsb]; rfl)
  · exact C11_double_initialization_fatal.1 8 example4 rfl

/-- C12: the render command, run on a queued `FTextureData` whose snapshot is
live, completes for every `CurrentFirstMip`.  It records one
`RHIUpdateTexture2D` call, with mip index `0 - CurrentFirstMip`, the pointed-to
region, the stored pitch and the snapshot's bytes, exactly when
`CurrentFirstMip <= 0`, and records nothing when it is `> 0`.  In both cases
the snapshot block and the descriptor block are freed, every other block is
untouched, the command leaves the queue, and a further `delete` of either block
would be an invalid access.  The descriptor that `UpdateTextureFromBuffer`
enqueues holds the destination texture, the region, the region's width as
pitch and a snapshot of the first `SrcBufferLength` bytes. -/
theorem C12_render_command_applies_iff_mip_ready :
    (∀ (m : Int) (s : State) (td : Ptr) (queue : List Ptr) (d : FTextureData)
        (data : List Nat),
      s.world.RenderQueue = td :: queue →
      s.world.heap.block td = some (Block.textureData d) →
      s.world.heap.bytes d.SrcData = some data →
      ∃ s1, runRenderCommand m s = Except.ok s1 ∧
        s1.layer = s.layer ∧ s1.world.RenderQueue = queue ∧
        (m ≤ 0 → s1.world.RHIUpdates = s.world.RHIUpdates ++
          [{ Texture := d.Texture2DResource, MipIndex := sub32 0 m,
             Region := s.region d.Region, SrcPitch := d.SrcPitch, SrcData := data }]) ∧
        (0 < m → s1.world.RHIUpdates = s.world.RHIUpdates) ∧
        s1.world.heap.block td = none ∧ s1.world.heap.block d.SrcData = none ∧
        (∀ q, q ≠ td → q ≠ d.SrcData → s1.world.heap.block q = s.world.heap.block q) ∧
        s1.world.heap.free td = Except.error Fatal.invalidAccess ∧
        s1.world.heap.free d.SrcData = Except.error Fatal.invalidAccess) ∧
    (∀ (s : State) (t : Nat) (p : Ptr) (bytes : List Nat) (n : Int) (reg : RegionRef),
      s.world.heap.bytes p = some bytes → 0 ≤ n → n ≤ bytes.length →
      ∃ s1 td snap, UpdateTextureFromBuffer (some t) (some p) n reg s = Except.ok s1 ∧
        s1.world.RenderQueue = s.world.RenderQueue ++ [td] ∧
        s1.world.heap.block td = some (Block.textureData
          { Texture2DResource := t, Region := reg, SrcPitch := (s.region reg).Width,
            SrcData := snap }) ∧
        s1.world.heap.bytes snap = some (bytes.take n.toNat)) ∧
    (∀ m : Int, InInt32 m → m ≤ 0 →
      toU32 (sub32 0 m) = (0 - m).toNat ∧ (-2147483648 < m → sub32 0 m = 0 - m)) := by
  refine ⟨?_, ?_, ?_⟩
  · intro m s td queue d data hq hblk hdata
    have hdb := Heap.block_of_bytes hdata
    have hne : d.SrcData ≠ td := by
      intro h
      rw [h, hblk] at hdb
      cases hdb
    have htd := Heap.block_lt hblk
    have hsd := Heap.block_lt hdb
    have hb1 : ((s.world.heap.store d.SrcData none).store td none).block td = none := by
      apply Heap.block_store_same
      simpa [Heap.store] using htd
    have hb2 : ((s.world.heap.store d.SrcData none).store td none).block d.SrcData = none := by
      rw [Heap.block_store_other (fun h => hne h.symm)]
      exact Heap.block_store_same hsd none
    refine ⟨_, runRenderCommand_eq m s td queue d data hq hblk hdata, rfl, rfl, ?_, ?_,
      hb1, hb2, ?_, Heap.free_freed hb1, Heap.free_freed hb2⟩
    · intro hm
      show (if m ≤ 0 then _ else _) = _
      rw [if_pos hm]
    · intro hm
      show (if m ≤ 0 then _ else _) = _
      rw [if_neg (by omega)]
    · intro q hq1 hq2
      show ((s.world.heap.store d.SrcData none).store td none).block q = _
      rw [Heap.block_store_other (fun h => hq1 h.symm),
        Heap.block_store_other (fun h => hq2 h.symm)]
  · intro s t p bytes n reg hb h0 hle
    have hsnap : (Heap.mk (s.world.heap.cells ++ [some (Block.bytes (bytes.take n.toNat))] ++
        [some (Block.textureData
          { Texture2DResource := t, Region := reg, SrcPitch := (s.region reg).Width,
            SrcData := s.world.heap.cells.length })]) s.world.heap.uninit).bytes
        s.world.heap.cells.length = some (bytes.take n.toNat) := by
      rw [Heap.bytes_append_old _ _ _ (by simp)]
      simp [Heap.bytes, Heap.block_append_new]
    refine ⟨_, s.world.heap.cells.length + 1, s.world.heap.cells.length,
      UpdateTextureFromBuffer_eq s t p bytes n reg hb h0 hle, rfl, ?_, hsnap⟩
    have := Heap.block_append_new
      (s.world.heap.cells ++ [some (Block.bytes (bytes.take n.toNat))])
      s.world.heap.uninit (some (Block.textureData
        { Texture2DResource := t, Region := reg, SrcPitch := (s.region reg).Width,
          SrcData := s.world.heap.cells.length }))
    simpa using this
  · intro m h32 hm
    unfold InInt32 at h32
    unfold toU32 sub32 wrap32
    constructor
    · omega
    · intro h
      omega

/-- C12 witness: the source snapshot of the example layer is applied when the
first mip is 0 and skipped when it is 1; both times blocks 2 and 3 are freed. -/
theorem C12_render_command_applies_iff_mip_ready_witness :
    UpdateTextureFromBuffer (some 0) (some 0) 16 RegionRef.SourceUpdateRegion exampleDebug4 =
      Except.ok exampleSubmitted ∧
    (∃ s1, runRenderCommand 0 exampleSubmitted = Except.ok s1 ∧
      s1.world.RHIUpdates =
        [{ Texture := 0, MipIndex := 0, Region := ⟨0, 0, 0, 0, 4, 4⟩, SrcPitch := 4,
           SrcData := zeros16 }] ∧
      s1.world.heap.block 2 = none ∧ s1.world.heap.block 3 = none ∧
      s1.world.RenderQueue = []) ∧
    (∃ s2, runRenderCommand 1 exampleSubmitted = Except.ok s2 ∧
      s2.world.RHIUpdates = [] ∧
      s2.world.heap.block 2 = none ∧ s2.world.heap.block 3 = none ∧
      s2.world.RenderQueue = []) := by
  have hq : exampleSubmitted.world.RenderQueue = 3 :: [] := rfl
  have hblk : exampleSubmitted.world.heap.block 3 = some (Block.textureData
      { Texture2DResource := 0, Region := RegionRef.SourceUpdateRegion,
        SrcPitch := 4, SrcData := 2 }) := rfl
  have hdata : exampleSubmitted.world.heap.bytes 2 = some zeros16 := rfl
  obtain ⟨s1, hrun1, _, hq1, hup1, _, hb13, hb12, _⟩ :=
    C12_render_command_applies_iff_mip_ready.1 0 exampleSubmitted 3 []
      { Texture2DResource := 0, Region := RegionRef.SourceUpdateRegion,
        SrcPitch := 4, SrcData := 2 } zeros16 hq hblk hdata
  obtain ⟨s2, hrun2, _, hq2, _, hup2, hb23, hb22, _⟩ :=
    C12_render_command_applies_iff_mip_ready.1 1 exampleSubmitted 3 []
      { Texture2DResource := 0, Region := RegionRef.SourceUpdateRegion,
        SrcPitch := 4, SrcData := 2 } zeros16 hq hblk hdata
  refine ⟨rfl, ⟨s1, hrun1, ?_, hb12, hb13, hq1⟩, ⟨s2, hrun2, ?_, hb22, hb23, hq2⟩⟩
  · rw [hup1 (by decide)]
    rfl
  · rw [hup2 (by decide)]
    rfl

/-- C13: with `bDebugBuffers` false, `TickComponent` is `UpdateAgents` alone:
it enqueues nothing and allocates nothing.  With `bDebugBuffers` true, on a
layer whose two buffers are allocated with their recorded lengths and whose two
textures exist, all agents in bounds, it completes and enqueues exactly two
commands: first the source texture with the source region and a snapshot equal
to the source buffer after this step's stamping, then the upscale texture with
the upscale region and a snapshot equal to the upscale buffer.  With `n` the
number of heap blocks before the call, the snapshots are the new blocks `n` and
`n + 2` and the two commands the new blocks `n + 1` and `n + 3`. -/
theorem C13_TickComponent_submits_two_snapshots :
    (∀ (T : Agent → Int × Int) (s : State), s.layer.bDebugBuffers = false →
      TickComponent T s = UpdateAgents T s ∧
      ∀ s1, TickComponent T s = Except.ok s1 →
        s1.world.RenderQueue = s.world.RenderQueue ∧
        s1.world.heap.cells.length = s.world.heap.cells.length) ∧
    (∀ (T : Agent → Int × Int) (s : State) (p q : Ptr) (buf ubuf : List Nat) (t1 t2 : Nat),
      s.layer.bDebugBuffers = true →
      s.layer.SourceBuffer = some p → s.world.heap.bytes p = some buf →
      (buf.length : Int) = s.layer.SourceW * s.layer.SourceH →
      s.layer.SourceW * s.layer.SourceH < 2147483648 →
      (∀ a ∈ s.layer.FogAgents, InBounds s.layer.SourceW s.layer.SourceH (T a)) →
      s.layer.SourceBufferLength = buf.length →
      s.layer.UpscaleBuffer = some q → q ≠ p → s.world.heap.bytes q = some ubuf →
      s.layer.UpscaleBufferLength = ubuf.length →
      s.layer.SourceTexture = some t1 → s.layer.UpscaleTexture = some t2 →
      ∃ s1 s3,
        UpdateAgents T s = Except.ok s1 ∧
        s1.sourceBytes = some (stampAll s.layer.SourceW buf (s.layer.FogAgents.map T)) ∧
        TickComponent T s = Except.ok s3 ∧
        s3.world.RenderQueue = s.world.RenderQueue ++
          [s.world.heap.cells.length + 1, s.world.heap.cells.length + 3] ∧
        s3.world.heap.block (s.world.heap.cells.length + 1) = some (Block.textureData
          { Texture2DResource := t1, Region := RegionRef.SourceUpdateRegion,
            SrcPitch := s.layer.SourceUpdateRegion.Width,
            SrcData := s.world.heap.cells.length }) ∧
        s3.world.heap.bytes s.world.heap.cells.length = s1.sourceBytes ∧
        s3.world.heap.block (s.world.heap.cells.length + 3) = some (Block.textureData
          { Texture2DResource := t2, Region := RegionRef.UpscaleUpdateRegion,
            SrcPitch := s.layer.UpscaleUpdateRegion.Width,
            SrcData := s.world.heap.cells.length + 2 }) ∧
        s3.world.heap.bytes (s.world.heap.cells.length + 2) = some ubuf ∧
        s3.sourceBytes = s1.sourceBytes) := by
  refine ⟨?_, ?_⟩
  · intro T s hdbg
    have heq : TickComponent T s = UpdateAgents T s := by
      unfold TickComponent
      cases hrun : UpdateAgents T s with
      | error e => rfl
      | ok s1 =>
        have hl := UpdateAgents_layer hrun
        simp only [hl, hdbg, Bool.false_eq_true, if_false]
    refine ⟨heq, ?_⟩
    intro s1 h
    rw [heq] at h
    obtain ⟨_, _, hlen, _, _, _, _, hq, _⟩ := UpdateAgents.loop_frame T _ s s1 h
    exact ⟨hq, hlen⟩
  · intro T s p q buf ubuf t1 t2 hdbg hp hb hlen hfit hin hsl hq hpq hub hul ht1 ht2
    obtain ⟨s1, s3, hrun1, hsrc1, htick, _, hqueue, hblk1, hsn1, hblk2, hsn2, hsrc3, _⟩ :=
      TickComponent_spec T s p q buf ubuf t1 t2 hdbg hp hb hlen hfit hin hsl hq hpq hub hul
        ht1 ht2
    exact ⟨s1, s3, hrun1, hsrc1, htick, hqueue, hblk1, by rw [hsn1, hsrc1],
      hblk2, hsn2, hsrc3⟩

/-- C13 witness: on the example layer with presentation enabled and its agent
at `(2, 1)`, one tick enqueues the commands 3 and 5; the source snapshot,
block 2, has byte 6 set, and the upscale snapshot, block 4, is all zero. -/
theorem C13_TickComponent_submits_two_snapshots_witness :
    ∃ s3, TickComponent (fun _ => (2, 1)) exampleDebug4 = Except.ok s3 ∧
      s3.world.RenderQueue = [3, 5] ∧
      s3.world.heap.bytes 2 = some [0, 0, 0, 0, 0, 0, 255, 0, 0, 0, 0, 0, 0, 0, 0, 0] ∧
      s3.world.heap.bytes 4 = some (List.replicate 256 0) ∧
      s3.sourceBytes = some [0, 0, 0, 0, 0, 0, 255, 0, 0, 0, 0, 0, 0, 0, 0, 0] := by
  have hin : ∀ a ∈ exampleDebug4.layer.FogAgents,
      InBounds exampleDebug4.layer.SourceW exampleDebug4.layer.SourceH
        ((fun _ => ((2 : Int), (1 : Int))) a) := by
    intro a _
    show InBounds 4 4 (2, 1)
    decide
  have hub : exampleDebug4.world.heap.bytes 1 = some (List.replicate 256 0) := rfl
  have hul : exampleDebug4.layer.UpscaleBufferLength =
      ((List.replicate 256 0 : List Nat).length : Int) := by
    rw [List.length_replicate]
    rfl
  obtain ⟨s1, s3, hrun1, hsrc1, htick, hqueue, hblk1, hsn1, hblk2, hsn2, hsrc3⟩ :=
    C13_TickComponent_submits_two_snapshots.2 (fun _ => (2, 1)) exampleDebug4 0 1 zeros16
      (List.replicate 256 0) 0 1 rfl rfl rfl (by decide) (by decide) hin rfl rfl (by decide)
      hub hul rfl rfl
  have hst : stampAll exampleDebug4.layer.SourceW zeros16
      (exampleDebug4.layer.FogAgents.map (fun _ => ((2 : Int), (1 : Int)))) =
      [0, 0, 0, 0, 0, 0, 255, 0, 0, 0, 0, 0, 0, 0, 0, 0] := by decide
  rw [hst] at hsrc1
  rw [hsrc1] at hsn1 hsrc3
  exact ⟨s3, htick, hqueue, hsn1, hsn2, hsrc3⟩

/-- C14 (as stated, refuted): on the zeroed 4x4 example layer the agent is at
`(2, 1)` in one step and at `(0, 0)` in the next.  After the second step byte 6
is still `0xFF`, although no registered agent maps to cell 6 in that step. -/
theorem C14_counterexample_mark_outlives_step :
    UpdateAgents (fun _ => (2, 1)) example4 =
      Except.ok (example4With [0, 0, 0, 0, 0, 0, 255, 0, 0, 0, 0, 0, 0, 0, 0, 0]) ∧
    UpdateAgents (fun _ => (0, 0))
        (example4With [0, 0, 0, 0, 0, 0, 255, 0, 0, 0, 0, 0, 0, 0, 0, 0]) =
      Except.ok (example4With [255, 0, 0, 0, 0, 0, 255, 0, 0, 0, 0, 0, 0, 0, 0, 0]) ∧
    (example4With [255, 0, 0, 0, 0, 0, 255, 0, 0, 0, 0, 0, 0, 0, 0, 0]).sourceBytes =
      some [255, 0, 0, 0, 0, 0, 255, 0, 0, 0, 0, 0, 0, 0, 0, 0] ∧
    (example4With [255, 0, 0, 0, 0, 0, 255, 0, 0, 0, 0, 0, 0, 0, 0, 0]).layer.FogAgents = [7] ∧
    ¬ ∃ a ∈ (example4With [255, 0, 0, 0, 0, 0, 255, 0, 0, 0, 0, 0, 0, 0, 0, 0]).layer.FogAgents,
      ((fun _ => ((0 : Int), (0 : Int))) a).2 * 4 + ((fun _ => ((0 : Int), (0 : Int))) a).1 = 6 := by
  refine ⟨?_, ?_, rfl, rfl, ?_⟩
  · set_option maxRecDepth 100000 in
    rfl
  · set_option maxRecDepth 100000 in
    rfl
  · rintro ⟨a, _, h⟩
    simp at h

/-- C14 (amended): after an `UpdateAgents` step on an allocated layer with all
agents in bounds, a source cell equals `0xFF` if and only if some registered
agent maps to it in this step or it was `0xFF` before the step; a cell no agent
maps to keeps the value it had, so it is 0 only if it was 0.  When the buffer
was all zero before the step, a cell is `0xFF` if an agent maps to it and 0
otherwise. -/
theorem C14_UpdateAgents_adds_marks (T : Agent → Int × Int) (s : State) (buf : List Nat)
    (halloc : SourceAllocated s buf)
    (hin : ∀ a ∈ s.layer.FogAgents, InBounds s.layer.SourceW s.layer.SourceH (T a)) :
    ∃ s1 buf1, UpdateAgents T s = Except.ok s1 ∧ s1.sourceBytes = some buf1 ∧
      buf1.length = buf.length ∧
      ∀ i : Nat, i < buf.length →
        (buf1[i]? = some 255 ↔
          ((∃ a ∈ s.layer.FogAgents, (i : Int) = (T a).2 * s.layer.SourceW + (T a).1) ∨
            buf[i]? = some 255)) ∧
        ((¬ ∃ a ∈ s.layer.FogAgents, (i : Int) = (T a).2 * s.layer.SourceW + (T a).1) →
          buf1[i]? = buf[i]?) ∧
        ((∀ b ∈ buf, b = 0) →
          (¬ ∃ a ∈ s.layer.FogAgents, (i : Int) = (T a).2 * s.layer.SourceW + (T a).1) →
          buf1[i]? = some 0) := by
  obtain ⟨hsb, hlen, hfit⟩ := halloc
  unfold State.sourceBytes at hsb
  cases hp : s.layer.SourceBuffer with
  | none => simp [hp] at hsb
  | some p =>
    rw [hp] at hsb
    have hb : s.world.heap.bytes p = some buf := hsb
    obtain ⟨s1, hrun, hl, hb1, _⟩ := UpdateAgents_spec T s p buf hp hb hlen hfit hin
    refine ⟨s1, stampAll s.layer.SourceW buf (s.layer.FogAgents.map T), hrun, ?_,
      stampAll_length _ _ _, ?_⟩
    · simp only [State.sourceBytes, hl, hp, Option.some_bind]
      exact hb1
    · intro i hi
      have hcell := stamp_cell_iff T s.layer.FogAgents s.layer.SourceW s.layer.SourceH hin i
      have hget := stampAll_getElem? s.layer.SourceW (s.layer.FogAgents.map T) buf i hi
      by_cases hex : ∃ c ∈ s.layer.FogAgents.map T, (c.2 * s.layer.SourceW + c.1).toNat = i
      · rw [if_pos hex] at hget
        refine ⟨⟨fun _ => Or.inl (hcell.mp hex), fun _ => hget⟩, ?_, ?_⟩
        · intro hno
          exact absurd (hcell.mp hex) hno
        · intro _ hno
          exact absurd (hcell.mp hex) hno
      · rw [if_neg hex] at hget
        have hno : ¬ ∃ a ∈ s.layer.FogAgents,
            (i : Int) = (T a).2 * s.layer.SourceW + (T a).1 := fun h => hex (hcell.mpr h)
        refine ⟨⟨fun h => Or.inr (by rw [← hget]; exact h), ?_⟩, fun _ => hget, ?_⟩
        · rintro (h | h)
          · exact absurd h hno
          · rw [hget]; exact h
        · intro hz _
          rw [hget, List.getElem?_eq_getElem hi]
          rw [hz _ (List.getElem_mem hi)]

/-- C14 witness: on the zeroed 4x4 example layer with its agent at `(2, 1)`,
byte 6 becomes `0xFF` and byte 5, which no agent maps to, stays 0. -/
theorem C14_UpdateAgents_adds_marks_witness :
    SourceAllocated example4 zeros16 ∧
    ∃ s1 buf1, UpdateAgents (fun _ => (2, 1)) example4 = Except.ok s1 ∧
      s1.sourceBytes = some buf1 ∧ buf1[6]? = some 255 ∧ buf1[5]? = some 0 := by
  have halloc : SourceAllocated example4 zeros16 := ⟨rfl, by decide, by decide⟩
  have hin : ∀ a ∈ example4.layer.FogAgents,
      InBounds example4.layer.SourceW example4.layer.SourceH
        ((fun _ => ((2 : Int), (1 : Int))) a) := by
    intro a _
    show InBounds 4 4 (2, 1)
    decide
  obtain ⟨s1, buf1, hrun, hsrc, _, hcells⟩ :=
    C14_UpdateAgents_adds_marks (fun _ => (2, 1)) example4 zeros16 halloc hin
  refine ⟨halloc, s1, buf1, hrun, hsrc, ?_, ?_⟩
  · apply (hcells 6 (by decide)).1.mpr
    left
    exact ⟨7, List.mem_singleton.mpr rfl, by decide⟩
  · apply (hcells 5 (by decide)).2.2
    · decide
    · rintro ⟨a, _, h⟩
      revert h
      decide

/-- C15: marks are sticky.  From any state with a live source buffer, through
every completed sequence of `TickComponent`, `UpdateAgents`, `AddFogAgent` and
`RemoveFogAgent` calls, whatever the agents' positions, the source buffer keeps
its length, a byte that was `0xFF` is still `0xFF`, and every byte is either
what it was or `0xFF`; so a byte that is 0 afterwards was 0 before, and none of
these calls writes a 0. -/
theorem C15_marks_are_sticky (calls : List Call) (s s1 : State) (buf : List Nat)
    (hsteps : ∀ c ∈ calls, c.isStep = true)
    (hsrc : s.sourceBytes = some buf)
    (h : run calls s = Except.ok s1) :
    ∃ buf1, s1.sourceBytes = some buf1 ∧ buf1.length = buf.length ∧
      (∀ i : Nat, buf[i]? = some 255 → buf1[i]? = some 255) ∧
      (∀ i : Nat, buf1[i]? = buf[i]? ∨ buf1[i]? = some 255) ∧
      (∀ i : Nat, buf1[i]? = some 0 → buf[i]? = some 0) := by
  unfold State.sourceBytes at hsrc
  cases hp : s.layer.SourceBuffer with
  | none => simp [hp] at hsrc
  | some p =>
    rw [hp] at hsrc
    have hb : s.world.heap.bytes p = some buf := hsrc
    obtain ⟨hsb, _, _, hk⟩ := run_steps_kept calls s s1 hsteps h
    obtain ⟨buf1, hb1, hkept⟩ := hk p buf hp hb
    refine ⟨buf1, ?_, hkept.1, fun i hi => hkept.sticky i hi, hkept.2, ?_⟩
    · simp only [State.sourceBytes, hsb, hp, Option.some_bind]
      exact hb1
    · intro i hi
      rcases hkept.2 i with h1 | h1
      · rw [← h1]; exact hi
      · rw [h1] at hi
        cases hi

/-- C15 witness: on the 4x4 example layer the agent is stamped at `(2, 1)`,
removed, another agent is added and ticks at `(0, 0)`; byte 6 is still `0xFF`
at the end. -/
theorem C15_marks_are_sticky_witness :
    ∃ s1 buf1, run [Call.UpdateAgents (fun _ => (2, 1)), Call.RemoveFogAgent 7,
        Call.AddFogAgent 8, Call.TickComponent (fun _ => (0, 0))]
        (example4With [0, 0, 0, 0, 0, 0, 255, 0, 0, 0, 0, 0, 0, 0, 0, 0]) = Except.ok s1 ∧
      s1.sourceBytes = some buf1 ∧ buf1[6]? = some 255 := by
  have hok : (run [Call.UpdateAgents (fun _ => (2, 1)), Call.RemoveFogAgent 7,
      Call.AddFogAgent 8, Call.TickComponent (fun _ => (0, 0))]
      (example4With [0, 0, 0, 0, 0, 0, 255, 0, 0, 0, 0, 0, 0, 0, 0, 0])).toBool = true := by
    set_option maxRecDepth 100000 in
    rfl
  cases hrun : run [Call.UpdateAgents (fun _ => (2, 1)), Call.RemoveFogAgent 7,
      Call.AddFogAgent 8, Call.TickComponent (fun _ => (0, 0))]
      (example4With [0, 0, 0, 0, 0, 0, 255, 0, 0, 0, 0, 0, 0, 0, 0, 0]) with
  | error e => rw [hrun] at hok; cases hok
  | ok s1 =>
    obtain ⟨buf1, hsrc, _, hsticky, _⟩ :=
      C15_marks_are_sticky [Call.UpdateAgents (fun _ => (2, 1)), Call.RemoveFogAgent 7,
        Call.AddFogAgent 8, Call.TickComponent (fun _ => (0, 0))]
        (example4With [0, 0, 0, 0, 0, 0, 255, 0, 0, 0, 0, 0, 0, 0, 0, 0]) s1
        [0, 0, 0, 0, 0, 0, 255, 0, 0, 0, 0, 0, 0, 0, 0, 0]
        (by decide) rfl hrun
    exact ⟨s1, buf1, rfl, hsrc, hsticky 6 rfl⟩

/-- C16: stamping depends only on the set of agent cells.  Two layers with the
same allocated source buffer and width, whose in-bounds agents cover the same
set of cells, in any order and multiplicity, both complete `UpdateAgents` and
end with the same source bytes; and a second `UpdateAgents` with the positions
unchanged completes and leaves the source bytes as the first left them. -/
theorem C16_stamping_depends_on_cell_set (T1 T2 : Agent → Int × Int) (s1 s2 : State)
    (buf : List Nat)
    (halloc1 : SourceAllocated s1 buf) (halloc2 : SourceAllocated s2 buf)
    (hW : s2.layer.SourceW = s1.layer.SourceW)
    (hin1 : ∀ a ∈ s1.layer.FogAgents, InBounds s1.layer.SourceW s1.layer.SourceH (T1 a))
    (hin2 : ∀ a ∈ s2.layer.FogAgents, InBounds s2.layer.SourceW s2.layer.SourceH (T2 a))
    (hset : ∀ c, c ∈ s1.layer.FogAgents.map T1 ↔ c ∈ s2.layer.FogAgents.map T2) :
    ∃ r1 r2 out, UpdateAgents T1 s1 = Except.ok r1 ∧ UpdateAgents T2 s2 = Except.ok r2 ∧
      r1.sourceBytes = some out ∧ r2.sourceBytes = some out ∧
      ∃ r3, UpdateAgents T1 r1 = Except.ok r3 ∧ r3.sourceBytes = some out := by
  obtain ⟨hsb1, hlen1, hfit1⟩ := halloc1
  obtain ⟨hsb2, hlen2, hfit2⟩ := halloc2
  unfold State.sourceBytes at hsb1 hsb2
  cases hp1 : s1.layer.SourceBuffer with
  | none => simp [hp1] at hsb1
  | some p1 =>
    cases hp2 : s2.layer.SourceBuffer with
    | none => simp [hp2] at hsb2
    | some p2 =>
      rw [hp1] at hsb1
      rw [hp2] at hsb2
      have hb1 : s1.world.heap.bytes p1 = some buf := hsb1
      have hb2 : s2.world.heap.bytes p2 = some buf := hsb2
      obtain ⟨r1, hrun1, hl1, hr1, _⟩ := UpdateAgents_spec T1 s1 p1 buf hp1 hb1 hlen1 hfit1 hin1
      obtain ⟨r2, hrun2, hl2, hr2, _⟩ := UpdateAgents_spec T2 s2 p2 buf hp2 hb2 hlen2 hfit2 hin2
      obtain ⟨r3, hrun3, hl3, hr3, _⟩ := UpdateAgents_spec T1 r1 p1
        (stampAll s1.layer.SourceW buf (s1.layer.FogAgents.map T1))
        (by rw [hl1]; exact hp1) hr1
        (by rw [hl1, stampAll_length]; exact hlen1) (by rw [hl1]; exact hfit1)
        (by rw [hl1]; exact hin1)
      refine ⟨r1, r2, stampAll s1.layer.SourceW buf (s1.layer.FogAgents.map T1), hrun1, hrun2,
        ?_, ?_, r3, hrun3, ?_⟩
      · simp only [State.sourceBytes, hl1, hp1, Option.some_bind]
        exact hr1
      · simp only [State.sourceBytes, hl2, hp2, Option.some_bind]
        rw [hr2, hW, stampAll_congr _ _ _ _ hset]
      · simp only [State.sourceBytes, hl3, hl1, hp1, Option.some_bind]
        rw [hr3, hl1, stampAll_idem]

/-- C16 witness: a zeroed 4x4 buffer with two agents at `(1, 1)` ends, like
the same buffer with one agent at `(1, 1)`, with byte 5 equal to `0xFF` and all
other bytes 0. -/
theorem C16_stamping_depends_on_cell_set_witness :
    ∃ r1 r2, UpdateAgents (fun _ => (1, 1)) (example4Agents [7, 8]) = Except.ok r1 ∧
      UpdateAgents (fun _ => (1, 1)) (example4Agents [7]) = Except.ok r2 ∧
      r1.sourceBytes = some [0, 0, 0, 0, 0, 255, 0, 0, 0, 0, 0, 0, 0, 0, 0, 0] ∧
      r2.sourceBytes = some [0, 0, 0, 0, 0, 255, 0, 0, 0, 0, 0, 0, 0, 0, 0, 0] := by
  have hin : ∀ (l : List Agent), ∀ a ∈ (example4Agents l).layer.FogAgents,
      InBounds (example4Agents l).layer.SourceW (example4Agents l).layer.SourceH
        ((fun _ => ((1 : Int), (1 : Int))) a) := by
    intro l a _
    show InBounds 4 4 (1, 1)
    decide
  obtain ⟨r1, r2, out, hrun1, hrun2, hout1, hout2, _⟩ :=
    C16_stamping_depends_on_cell_set (fun _ => (1, 1)) (fun _ => (1, 1))
      (example4Agents [7, 8]) (example4Agents [7]) zeros16
      ⟨rfl, by decide, by decide⟩ ⟨rfl, by decide, by decide⟩ rfl (hin _) (hin _)
      (by
        intro c
        show c ∈ [((1 : Int), (1 : Int)), (1, 1)] ↔ c ∈ [((1 : Int), (1 : Int))]
        simp)
  have hval : (UpdateAgents (fun _ => (1, 1)) (example4Agents [7, 8])).map State.sourceBytes =
      Except.ok (some [0, 0, 0, 0, 0, 255, 0, 0, 0, 0, 0, 0, 0, 0, 0, 0]) := by
    set_option maxRecDepth 100000 in
    rfl
  rw [hrun1] at hval
  have hr1 : r1.sourceBytes = some [0, 0, 0, 0, 0, 255, 0, 0, 0, 0, 0, 0, 0, 0, 0, 0] :=
    Except.ok.inj hval
  rw [hout1] at hr1
  rw [hr1] at hout1 hout2
  exact ⟨r1, r2, hrun1, hrun2, hout1, hout2⟩

/-- C17: in every state reached from a completed `InitializeComponent` by any
completed sequence of `TickComponent`, `UpdateAgents`, `AddFogAgent` and
`RemoveFogAgent` calls, the source buffer is a live block and each of its bytes
is 0 or `0xFF`. -/
theorem C17_source_bytes_are_binary (R : Int) (s0 s : State) (calls : List Call) (s1 : State)
    (hinit : InitializeComponent R s0 = Except.ok s)
    (hsteps : ∀ c ∈ calls, c.isStep = true)
    (h : run calls s = Except.ok s1) :
    ∃ buf1, s1.sourceBytes = some buf1 ∧ ∀ b ∈ buf1, b = 0 ∨ b = 255 := by
  obtain ⟨_, _, _, _, _, rfl⟩ := (InitializeComponent_ok_iff R s0 s).mp hinit
  obtain ⟨_, _, _, _, _, _, hsrc, _⟩ := initialized_buffers R s0
  obtain ⟨hp, _⟩ := initialized_pointers R s0
  have hb : (initialized R s0).world.heap.bytes s0.world.heap.cells.length =
      some (List.replicate (mul32 R R).toNat 0) := by
    simp only [State.sourceBytes, hp, Option.some_bind] at hsrc
    exact hsrc
  obtain ⟨hsb, _, _, hk⟩ := run_steps_kept calls _ s1 hsteps h
  obtain ⟨buf1, hb1, hkept⟩ := hk _ _ hp hb
  refine ⟨buf1, ?_, ?_⟩
  · simp only [State.sourceBytes, hsb, hp, Option.some_bind]
    exact hb1
  · apply hkept.binary
    intro b hmem
    left
    exact List.eq_of_mem_replicate hmem

/-- C17 witness: after `InitializeComponent 4`, an added agent and two steps at
different cells, every source byte is 0 or `0xFF`. -/
theorem C17_source_bytes_are_binary_witness :
    InitializeComponent 4 (State.initial 205) =
      Except.ok (initialized 4 (State.initial 205)) ∧
    ∃ s1 buf1, run [Call.AddFogAgent 7, Call.UpdateAgents (fun _ => (2, 1)),
        Call.TickComponent (fun _ => (0, 3))] (initialized 4 (State.initial 205)) =
        Except.ok s1 ∧
      s1.sourceBytes = some buf1 ∧ ∀ b ∈ buf1, b = 0 ∨ b = 255 := by
  have hinit := InitializeComponent_eq 4 (State.initial 205) (by decide) rfl rfl
    (by decide) (by decide)
  have hok : (run [Call.AddFogAgent 7, Call.UpdateAgents (fun _ => (2, 1)),
      Call.TickComponent (fun _ => (0, 3))] (initialized 4 (State.initial 205))).toBool =
      true := by
    set_option maxRecDepth 100000 in
    rfl
  cases hrun : run [Call.AddFogAgent 7, Call.UpdateAgents (fun _ => (2, 1)),
      Call.TickComponent (fun _ => (0, 3))] (initialized 4 (State.initial 205)) with
  | error e => rw [hrun] at hok; cases hok
  | ok s1 =>
    obtain ⟨buf1, hsrc, hbin⟩ :=
      C17_source_bytes_are_binary 4 (State.initial 205) _ _ s1 hinit (by decide) hrun
    exact ⟨hinit, s1, buf1, rfl, hsrc, hbin⟩

/-- C18: the upscale buffer is never written after initialisation.  On a layer
whose upscale buffer is a live block other than the source buffer, each
completed `TickComponent`, `UpdateAgents`, `AddFogAgent` and `RemoveFogAgent`
leaves the upscale bytes as they are, and so does each completed
`UpdateTextureFromBuffer`.  Hence in every state reached from a completed
`InitializeComponent` by a completed sequence of such calls the upscale bytes
are those left by the initialisation, all 0, and the upscale snapshot that a
completed `TickComponent` enqueues there is all 0. -/
theorem C18_upscale_buffer_never_written :
    (∀ (c : Call) (s s1 : State) (ub : List Nat), c.isStep = true →
      s.layer.SourceBuffer ≠ s.layer.UpscaleBuffer → s.upscaleBytes = some ub →
      c.apply s = Except.ok s1 → s1.upscaleBytes = some ub) ∧
    (∀ (t : Option Nat) (b : Option Ptr) (n : Int) (r : RegionRef) (s s1 : State)
        (ub : List Nat), s.upscaleBytes = some ub →
      UpdateTextureFromBuffer t b n r s = Except.ok s1 → s1.upscaleBytes = some ub) ∧
    (∀ (R : Int) (s0 s : State) (calls : List Call) (s1 : State),
      InitializeComponent R s0 = Except.ok s → (∀ c ∈ calls, c.isStep = true) →
      run calls s = Except.ok s1 →
      s1.upscaleBytes = s.upscaleBytes ∧
      (∃ ub, s1.upscaleBytes = some ub ∧ ∀ b ∈ ub, b = 0) ∧
      ∀ (T : Agent → Int × Int) (s2 : State), s1.layer.bDebugBuffers = true →
        TickComponent T s1 = Except.ok s2 →
        ∃ front td d snap, s2.world.RenderQueue = front ++ [td] ∧
          s2.world.heap.block td = some (Block.textureData d) ∧
          d.Region = RegionRef.UpscaleUpdateRegion ∧
          s2.world.heap.bytes d.SrcData = some snap ∧ ∀ b ∈ snap, b = 0) := by
  have hstep : ∀ (calls : List Call) (s s1 : State) (q : Ptr) (ub : List Nat),
      (∀ c ∈ calls, c.isStep = true) → s.layer.UpscaleBuffer = some q →
      s.layer.SourceBuffer ≠ some q → s.world.heap.bytes q = some ub →
      run calls s = Except.ok s1 →
      s1.layer.UpscaleBuffer = some q ∧ s1.layer.SourceBuffer ≠ some q ∧
        s1.world.heap.bytes q = some ub := by
    intro calls s s1 q ub hsteps hq hne hub hrun
    obtain ⟨hsb, hubp, hblk, _⟩ := run_steps_kept calls s s1 hsteps hrun
    refine ⟨by rw [hubp]; exact hq, by rw [hsb]; exact hne, ?_⟩
    have := hblk q _ hne (Heap.block_of_bytes hub)
    simp only [Heap.bytes, this]
  refine ⟨?_, ?_, ?_⟩
  · intro c s s1 ub hc hne hub hrun
    unfold State.upscaleBytes at hub
    cases hq : s.layer.UpscaleBuffer with
    | none => simp [hq] at hub
    | some q =>
      rw [hq] at hub
      have hrun1 : run [c] s = Except.ok s1 := by
        simp only [run, hrun]
      obtain ⟨hq1, _, hb1⟩ := hstep [c] s s1 q ub
        (by intro d hd; rw [List.mem_singleton] at hd; rw [hd]; exact hc) hq
        (by rw [← hq]; exact hne) hub hrun1
      simp only [State.upscaleBytes, hq1, Option.some_bind]
      exact hb1
  · intro t b n r s s1 ub hub hrun
    unfold State.upscaleBytes at hub
    cases hq : s.layer.UpscaleBuffer with
    | none => simp [hq] at hub
    | some q =>
      rw [hq] at hub
      have hub2 : s.world.heap.bytes q = some ub := hub
      obtain ⟨hl, _, hfr, _⟩ := UpdateTextureFromBuffer_frame hrun
      simp only [State.upscaleBytes, hl, hq, Option.some_bind]
      rw [Heap.bytes_congr (hfr q (Heap.bytes_lt hub2))]
      exact hub2
  · intro R s0 s calls s1 hinit hsteps hrun
    obtain ⟨_, _, _, _, _, rfl⟩ := (InitializeComponent_ok_iff R s0 s).mp hinit
    obtain ⟨_, _, _, _, _, huln, _, hup⟩ := initialized_buffers R s0
    obtain ⟨hp, hq⟩ := initialized_pointers R s0
    have hne : (initialized R s0).layer.SourceBuffer ≠ some (s0.world.heap.cells.length + 1) := by
      rw [hp]
      intro h
      have := Option.some.inj h
      omega
    have hub : (initialized R s0).world.heap.bytes (s0.world.heap.cells.length + 1) =
        some (List.replicate (mul32 (mul32 R 4) (mul32 R 4)).toNat 0) := by
      simp only [State.upscaleBytes, hq, Option.some_bind] at hup
      exact hup
    obtain ⟨hq1, hne1, hb1⟩ := hstep calls _ s1 _ _ hsteps hq hne hub hrun
    have hup1 : s1.upscaleBytes =
        some (List.replicate (mul32 (mul32 R 4) (mul32 R 4)).toNat 0) := by
      simp only [State.upscaleBytes, hq1, Option.some_bind]
      exact hb1
    refine ⟨by rw [hup1, hup], ⟨_, hup1, fun b hb => List.eq_of_mem_replicate hb⟩, ?_⟩
    intro T s2 hdbg htick
    obtain ⟨front, td, d, hqueue, hblk, hreg, hsnap⟩ :=
      TickComponent_upscale_snapshot T s1 s2 _ _ hq1 hne1 hb1 hdbg htick
    refine ⟨front, td, d, _, hqueue, hblk, hreg, hsnap, ?_⟩
    intro b hb
    exact List.eq_of_mem_replicate (List.mem_of_mem_take hb)

/-- C18 witness: on the example layer with presentation enabled, reached from
`InitializeComponent 4` by `AddFogAgent 7`, the upscale bytes are all 0, and a
tick with the agent at `(2, 1)` completes and enqueues last an upscale snapshot
that is all 0. -/
theorem C18_upscale_buffer_never_written_witness :
    InitializeComponent 4 exampleDebugStart = Except.ok (initialized 4 exampleDebugStart) ∧
    run [Call.AddFogAgent 7] (initialized 4 exampleDebugStart) = Except.ok exampleDebug4 ∧
    (∃ ub, exampleDebug4.upscaleBytes = some ub ∧ ∀ b ∈ ub, b = 0) ∧
    ∃ s2 front td d snap, TickComponent (fun _ => (2, 1)) exampleDebug4 = Except.ok s2 ∧
      s2.world.RenderQueue = front ++ [td] ∧
      s2.world.heap.block td = some (Block.textureData d) ∧
      d.Region = RegionRef.UpscaleUpdateRegion ∧
      s2.world.heap.bytes d.SrcData = some snap ∧ ∀ b ∈ snap, b = 0 := by
  obtain ⟨hinit, hrun⟩ := exampleDebug4_initialized
  obtain ⟨_, hzero, hsnap⟩ :=
    C18_upscale_buffer_never_written.2.2 4 exampleDebugStart _ [Call.AddFogAgent 7]
      exampleDebug4 hinit (by decide) hrun
  have hin : ∀ a ∈ exampleDebug4.layer.FogAgents,
      InBounds exampleDebug4.layer.SourceW exampleDebug4.layer.SourceH
        ((fun _ => ((2 : Int), (1 : Int))) a) := by
    intro a _
    show InBounds 4 4 (2, 1)
    decide
  have hub : exampleDebug4.world.heap.bytes 1 = some (List.replicate 256 0) := rfl
  have hul : exampleDebug4.layer.UpscaleBufferLength =
      ((List.replicate 256 0 : List Nat).length : Int) := by
    rw [List.length_replicate]
    rfl
  obtain ⟨_, s2, _, _, htick, _⟩ :=
    TickComponent_spec (fun _ => (2, 1)) exampleDebug4 0 1 zeros16
      (List.replicate 256 0) 0 1 rfl rfl rfl (by decide) (by decide) hin rfl rfl (by decide)
      hub hul rfl rfl
  obtain ⟨front, td, d, snap, hq, hblk, hreg, hbytes, hz⟩ := hsnap _ s2 rfl htick
  exact ⟨hinit, hrun, hzero, s2, front, td, d, snap, htick, hq, hblk, hreg, hbytes, hz⟩

/-- C19: the code at the failing input.  The example layer with presentation
enabled, reached by setting `bDebugBuffers`, `InitializeComponent 4` and
`AddFogAgent 7`, holds both textures.  `UninitializeComponent` on it completes
with `SourceBuffer`, `UpscaleBuffer` and `SourceTexture` null, but
`UpscaleTexture` is still set: the branch `if (UpscaleTexture)` assigns
`SourceTexture`. -/
theorem C19_UninitializeComponent_leaves_UpscaleTexture :
    run [Call.setDebug false true, Call.InitializeComponent 4, Call.AddFogAgent 7]
      (State.initial 205) = Except.ok exampleDebug4 ∧
    exampleDebug4.layer.SourceTexture = some 0 ∧
    exampleDebug4.layer.UpscaleTexture = some 1 ∧
    UninitializeComponent true exampleDebug4 = Except.ok exampleDebugTornDown ∧
    exampleDebugTornDown.layer.SourceBuffer = none ∧
    exampleDebugTornDown.layer.UpscaleBuffer = none ∧
    exampleDebugTornDown.layer.SourceTexture = none ∧
    exampleDebugTornDown.layer.UpscaleTexture = some 1 ∧
    exampleDebugTornDown.layer.UpscaleTexture ≠ none := by
  refine ⟨exampleDebug4_reached, rfl, rfl, ?_, rfl, rfl, rfl, rfl, by decide⟩
  set_option maxRecDepth 100000 in
  rfl

end VaFog
